import Mathlib

/-!
# Tableau simplex for the balanced transportation problem

Shallow embedding of `src/C/benchmark_simplex.c` and `src/C/main.c`.

Modelling conventions.

* A C `double` has two models.
  In `Simplex.Benchmark` and `Simplex.Main` it is a rational number (`ℚ`):
  arithmetic is exact, the constant `DBL_MAX` of `<float.h>` is the rational
  `2^1024 - 2^971`. These definitions carry the statements on the builder, on
  the counts and the exits of the drivers, on comparisons of entries, and on
  the runs over built transportation tableaux.
  In `Simplex.Binary64.Benchmark` and `Simplex.Binary64.Main` it is a value of
  `Double`, IEEE 754 binary64: a finite value, `-0.0`, an infinity or NaN, and
  each `/`, `*` and `-` delivers its exact result rounded to the nearest
  `double`, ties to even, every operation rounded by itself (`FLT_EVAL_METHOD`
  0, no fused multiply-add). These definitions carry the statements on the
  arithmetic of `pivotear` and on the ratios of `encontrar_linha_pivo` over
  arbitrary tableaux.
  The two models choose the same entering column on finite values
  (`encontrar_coluna_pivo_de_racionais`) and take the same step on a tableau
  of integers with pivot 1 whose products and differences stay below `2^53`
  (`passo_inteiros`).
* A `double **` tableau is a list of rows, read with `ler` and written in
  place with `escrever`; `alocar_matriz` is the zero matrix that
  `malloc`/`calloc` give.
* The C `int` sizes and loop counters are natural numbers; the `int` results
  that use `-1` as "none" are integers; the `int` input arrays are functions
  from the index to an integer.
* A `for (k = 0; k < b; k++)` loop is a left fold over `List.range b` whose
  accumulator is the state the loop body mutates.
-/

set_option autoImplicit false

namespace Simplex

/-- A dense tableau: the rows of a `double **` matrix. -/
abbrev Tabela := List (List ℚ)

/-- The read `tabela[i][j]`. -/
def ler (tabela : Tabela) (i j : Nat) : ℚ := (tabela.getD i []).getD j 0

/-- The in-place write `tabela[i][j] = v`. -/
def escrever (tabela : Tabela) (i j : Nat) (v : ℚ) : Tabela :=
  tabela.set i ((tabela.getD i []).set j v)

/-- The largest finite `double`, `DBL_MAX` of `<float.h>`. -/
def DBL_MAX : ℚ := 2 ^ 1024 - 2 ^ 971

/-- A tableau has `linhas` rows of `colunas` entries each. -/
def Dim (tabela : Tabela) (linhas colunas : Nat) : Prop :=
  tabela.length = linhas ∧ ∀ linha ∈ tabela, linha.length = colunas

/-- Both files: `alocar_matriz`, `linhas` rows of `colunas` zeros (`calloc`). -/
def alocar_matriz (linhas colunas : Nat) : Tabela :=
  List.replicate linhas (List.replicate colunas 0)

/-! ## `benchmark_simplex.c` -/

namespace Benchmark

/-- Entering column: `encontrar_coluna_pivo` of `benchmark_simplex.c`. The
accumulator is `(valor_min, coluna_pivo)`. -/
def encontrar_coluna_pivo (tabela : Tabela) (linhas colunas : Nat) : Int :=
  ((List.range (colunas - 1)).foldl
    (fun (st : ℚ × Int) j =>
      if ler tabela (linhas - 1) j < st.1 then (ler tabela (linhas - 1) j, (j : Int))
      else st)
    ((0 : ℚ), (-1 : Int))).2

/-- Leaving row: `encontrar_linha_pivo` of `benchmark_simplex.c`, with the
ratio as the exact quotient (`Binary64.Benchmark.encontrar_linha_pivo` has the
rounded one). The accumulator is `(menor, linha_pivo)`. -/
def encontrar_linha_pivo (tabela : Tabela) (linhas colunas coluna_pivo : Nat) : Int :=
  ((List.range (linhas - 1)).foldl
    (fun (st : ℚ × Int) i =>
      let elemento := ler tabela i coluna_pivo
      if elemento > 0 then
        let razao := ler tabela i (colunas - 1) / elemento
        if razao < st.1 then (razao, (i : Int)) else st
      else st)
    (DBL_MAX, (-1 : Int))).2

/-- The pivot `pivotear` of `benchmark_simplex.c` in exact arithmetic
(`Binary64.Benchmark.pivotear` has the rounding operations): the first loop
divides the pivot row by the pivot, the second subtracts from every other row
its multiple of the pivot row. -/
def pivotear (tabela : Tabela) (linhas colunas linha_pivo coluna_pivo : Nat) : Tabela :=
  let pivo := ler tabela linha_pivo coluna_pivo
  let tabela := (List.range colunas).foldl
    (fun t j => escrever t linha_pivo j (ler t linha_pivo j / pivo)) tabela
  (List.range linhas).foldl
    (fun t i =>
      if i ≠ linha_pivo then
        let multiplicador := ler t i coluna_pivo
        (List.range colunas).foldl
          (fun t j => escrever t i j (ler t i j - multiplicador * ler t linha_pivo j)) t
      else t)
    tabela

/-- What a run of `simplex` leaves: the tableau, the returned `int`, and the
number of calls of `pivotear` it made (a ghost counter). -/
structure Resultado where
  tabela : Tabela
  retorno : Int
  pivos : Nat

/-- The `while (iteracao < max_iter)` loop of `simplex`; the first argument is
`max_iter - iteracao`, the number of loop tests that can still succeed. -/
def simplex_laco (linhas colunas : Nat) : Nat → Tabela → Nat → Nat → Resultado
  | 0, tabela, iteracao, pivos => ⟨tabela, (iteracao : Int), pivos⟩
  | restantes + 1, tabela, iteracao, pivos =>
    let iteracao := iteracao + 1
    let coluna_pivo := encontrar_coluna_pivo tabela linhas colunas
    if coluna_pivo = -1 then ⟨tabela, (iteracao : Int), pivos⟩
    else
      let linha_pivo := encontrar_linha_pivo tabela linhas colunas coluna_pivo.toNat
      if linha_pivo = -1 then ⟨tabela, -1, pivos⟩
      else
        simplex_laco linhas colunas restantes
          (pivotear tabela linhas colunas linha_pivo.toNat coluna_pivo.toNat)
          iteracao (pivos + 1)

/-- The driver `simplex` of `benchmark_simplex.c`. -/
def simplex (tabela : Tabela) (linhas colunas max_iter : Nat) : Resultado :=
  simplex_laco linhas colunas max_iter tabela 0 0

/-- The builder `construir_tabela_transporte` of `benchmark_simplex.c`; the
result is the matrix with `*linhas_ret` and `*colunas_ret`. -/
def construir_tabela_transporte (oferta demanda : Nat → Int) (custos : Nat → Nat → Int)
    (m n : Nat) : Tabela × Nat × Nat :=
  let num_vars := m * n
  let total_linhas := m + n + 1
  let total_colunas := num_vars + m + n + 1
  let tabela := alocar_matriz total_linhas total_colunas
  let tabela := (List.range m).foldl
    (fun t i =>
      let t := (List.range n).foldl (fun t j => escrever t i (i * n + j) 1) t
      let t := escrever t i (num_vars + i) 1
      escrever t i (total_colunas - 1) (oferta i))
    tabela
  let tabela := (List.range n).foldl
    (fun t j =>
      let t := (List.range m).foldl (fun t i => escrever t (m + j) (i * n + j) 1) t
      let t := escrever t (m + j) (num_vars + m + j) 1
      escrever t (m + j) (total_colunas - 1) (demanda j))
    tabela
  let tabela := (List.range m).foldl
    (fun t i =>
      (List.range n).foldl
        (fun t j => escrever t (total_linhas - 1) (i * n + j) (-(custos i j : ℚ))) t)
    tabela
  (tabela, total_linhas, total_colunas)

/-- The cost read-out `extrair_solucao` of `benchmark_simplex.c`. -/
def extrair_solucao (tabela : Tabela) (linhas colunas : Nat) (_m _n : Nat) : ℚ :=
  -(ler tabela (linhas - 1) (colunas - 1))

end Benchmark

/-! ## `main.c` -/

namespace Main

/-- Entering column: `encontrar_coluna_pivo_correto` of `main.c`. -/
def encontrar_coluna_pivo_correto (tabela : Tabela) (linhas colunas : Nat) : Int :=
  ((List.range (colunas - 1)).foldl
    (fun (st : ℚ × Int) j =>
      if ler tabela (linhas - 1) j < st.1 then (ler tabela (linhas - 1) j, (j : Int))
      else st)
    ((0 : ℚ), (-1 : Int))).2

/-- Leaving row: `encontrar_linha_pivo_correto` of `main.c`, with the ratio as
the exact quotient (`Binary64.Main.encontrar_linha_pivo_correto` has the
rounded one). -/
def encontrar_linha_pivo_correto (tabela : Tabela) (linhas colunas coluna_pivo : Nat) : Int :=
  ((List.range (linhas - 1)).foldl
    (fun (st : ℚ × Int) i =>
      let elemento := ler tabela i coluna_pivo
      if elemento > 0 then
        let razao := ler tabela i (colunas - 1) / elemento
        if razao < st.1 then (razao, (i : Int)) else st
      else st)
    (DBL_MAX, (-1 : Int))).2

/-- The pivot `pivotear` of `main.c` in exact arithmetic (`Binary64.Main.pivotear`
has the rounding operations). -/
def pivotear (tabela : Tabela) (linhas colunas linha_pivo coluna_pivo : Nat) : Tabela :=
  let pivo := ler tabela linha_pivo coluna_pivo
  let tabela := (List.range colunas).foldl
    (fun t j => escrever t linha_pivo j (ler t linha_pivo j / pivo)) tabela
  (List.range linhas).foldl
    (fun t i =>
      if i ≠ linha_pivo then
        let multiplicador := ler t i coluna_pivo
        (List.range colunas).foldl
          (fun t j => escrever t i j (ler t i j - multiplicador * ler t linha_pivo j)) t
      else t)
    tabela

/-- Which `break` ended the `while (1)` loop of `simplex` in `main.c`: the one
after "Solução ótima encontrada." or the one after "Problema ilimitado.". -/
inductive Parada
  | otima
  | ilimitado
  deriving DecidableEq, Repr

/-- The driver `simplex` of `main.c` (with `verbose = 0`). The loop is
`while (1)`, so the model takes the number of loop rounds it may run and is
`none` when that number does not reach a `break`. -/
def simplex (linhas colunas : Nat) : Nat → Tabela → Option (Tabela × Parada)
  | 0, _ => none
  | rodadas + 1, tabela =>
    let coluna_pivo := encontrar_coluna_pivo_correto tabela linhas colunas
    if coluna_pivo = -1 then some (tabela, Parada.otima)
    else
      let linha_pivo := encontrar_linha_pivo_correto tabela linhas colunas coluna_pivo.toNat
      if linha_pivo = -1 then some (tabela, Parada.ilimitado)
      else
        simplex linhas colunas rodadas
          (pivotear tabela linhas colunas linha_pivo.toNat coluna_pivo.toNat)

/-- The builder `construir_tabela_transporte` of `main.c`. -/
def construir_tabela_transporte (oferta demanda : Nat → Int) (custos : Nat → Nat → Int)
    (m n : Nat) : Tabela × Nat × Nat :=
  let num_vars := m * n
  let total_linhas := m + n + 1
  let total_colunas := num_vars + m + n + 1
  let tabela := alocar_matriz total_linhas total_colunas
  let tabela := (List.range m).foldl
    (fun t i =>
      let t := (List.range n).foldl (fun t j => escrever t i (i * n + j) 1) t
      let t := escrever t i (num_vars + i) 1
      escrever t i (total_colunas - 1) (oferta i))
    tabela
  let tabela := (List.range n).foldl
    (fun t j =>
      let t := (List.range m).foldl (fun t i => escrever t (m + j) (i * n + j) 1) t
      let t := escrever t (m + j) (num_vars + m + j) 1
      escrever t (m + j) (total_colunas - 1) (demanda j))
    tabela
  let tabela := (List.range m).foldl
    (fun t i =>
      (List.range n).foldl
        (fun t j => escrever t (total_linhas - 1) (i * n + j) (-(custos i j : ℚ))) t)
    tabela
  (tabela, total_linhas, total_colunas)

/-- The inner scan of `extrair_solucao` over the rows of column `j`; the
accumulator is `(count_one, count_zero, linha_base)`. -/
def contar_coluna (tabela : Tabela) (linhas j : Nat) : Nat × Nat × Int :=
  (List.range linhas).foldl
    (fun (st : Nat × Nat × Int) i =>
      if ler tabela i j = 1 then (st.1 + 1, st.2.1, (i : Int))
      else if ler tabela i j = 0 then (st.1, st.2.1 + 1, st.2.2)
      else st)
    (0, 0, (-1 : Int))

/-- The read-out `extrair_solucao` of `main.c`: `(valores, custo_total)`. -/
def extrair_solucao (tabela : Tabela) (linhas colunas m n : Nat) : List ℚ × ℚ :=
  let num_vars := m * n
  let valores := List.replicate num_vars (0 : ℚ)
  let valores := (List.range num_vars).foldl
    (fun valores j =>
      let st := contar_coluna tabela linhas j
      if st.1 = 1 ∧ (st.2.1 : Int) = (linhas : Int) - 1 then
        valores.set j (ler tabela st.2.2.toNat (colunas - 1))
      else valores)
    valores
  (valores, -(ler tabela (linhas - 1) (colunas - 1)))

end Main

/-! ## Specification-side definitions and loop states -/

/-- The entry of the transportation tableau at row `r`, column `c`, as the
specification lays it out: supply rows, demand rows, objective row. -/
def entrada_spec (oferta demanda : Nat → Int) (custos : Nat → Nat → Int) (m n r c : Nat) : ℚ :=
  if r < m then
    if c < m * n then (if c / n = r then 1 else 0)
    else if c = m * n + r then 1
    else if c = m * n + m + n then (oferta r : ℚ)
    else 0
  else if r < m + n then
    if c < m * n then (if c % n = r - m then 1 else 0)
    else if c = m * n + m + (r - m) then 1
    else if c = m * n + m + n then (demanda (r - m) : ℚ)
    else 0
  else if r = m + n then
    if c < m * n then -(custos (c / n) (c % n) : ℚ) else 0
  else 0

/-- State of the builder after `k` rounds of the supply loop. -/
def forma1 (oferta demanda : Nat → Int) (custos : Nat → Nat → Int) (m n k r c : Nat) : ℚ :=
  if r < k then entrada_spec oferta demanda custos m n r c else 0

/-- State of the builder after the supply loop and `k` rounds of the demand loop. -/
def forma2 (oferta demanda : Nat → Int) (custos : Nat → Nat → Int) (m n k r c : Nat) : ℚ :=
  if r < m + k then entrada_spec oferta demanda custos m n r c else 0

/-- State of the builder after the first two loops and `k` rounds of the objective loop. -/
def forma3 (oferta demanda : Nat → Int) (custos : Nat → Nat → Int) (m n k r c : Nat) : ℚ :=
  if r < m + n then entrada_spec oferta demanda custos m n r c
  else if r = m + n ∧ c / n < k then entrada_spec oferta demanda custos m n r c
  else 0

/-- Column `j` is a unit column with its 1 in row `i`: that entry is 1 and
every other entry of the column, over all `linhas` rows, is 0. -/
def ColunaBasica (t : Tabela) (linhas j i : Nat) : Prop :=
  i < linhas ∧ ler t i j = 1 ∧ ∀ i2, i2 < linhas → i2 ≠ i → ler t i2 j = 0

/-- A 2-by-2 cost matrix: 1 on the diagonal, 2 off it. -/
def custos_diagonal : Nat → Nat → Int := fun i j => if i = j then 1 else 2

/-- Row `i` of the tableau read as the equation `∑ j, t[i][j] * v j = t[i][cols-1]`
over the columns before the last: the left side minus the right side. -/
def residuo (t : Tabela) (colunas i : Nat) (v : Nat → ℚ) : ℚ :=
  (∑ j ∈ Finset.range (colunas - 1), ler t i j * v j) - ler t i (colunas - 1)

/-- The vector `v` satisfies every constraint row (all rows but the last). -/
def Solucao (t : Tabela) (linhas colunas : Nat) (v : Nat → ℚ) : Prop :=
  ∀ i, i < linhas - 1 → residuo t colunas i v = 0

/-- Every constraint row `r` has a column `β r` before the last that is the
unit column of row `r` (over all rows, the last included). -/
def Base (t : Tabela) (linhas colunas : Nat) (β : Nat → Nat) : Prop :=
  ∀ r, r < linhas - 1 → β r < colunas - 1 ∧
    ∀ i, i < linhas → ler t i (β r) = if i = r then 1 else 0

/-- Every constraint row has a non-negative last entry. -/
def Viavel (t : Tabela) (linhas colunas : Nat) : Prop :=
  ∀ r, r < linhas - 1 → 0 ≤ ler t r (colunas - 1)

/-- What the simplex loop keeps true of the current tableau `t`, started from
`t0`: the dimensions, the solutions of the constraint rows, the value of the
last row on those solutions, a unit column for every constraint row, and
non-negative last entries. -/
def Invariante (t0 t : Tabela) (linhas colunas : Nat) : Prop :=
  Dim t linhas colunas ∧
  (∀ v, Solucao t linhas colunas v ↔ Solucao t0 linhas colunas v) ∧
  (∀ v, Solucao t linhas colunas v →
    residuo t colunas (linhas - 1) v = residuo t0 colunas (linhas - 1) v) ∧
  (∃ β, Base t linhas colunas β) ∧
  Viavel t linhas colunas

/-- The basic solution of a tableau with unit columns `β`: the column `β r`
takes the last entry of row `r`, every other column takes 0. -/
def solucao_basica (t : Tabela) (linhas colunas : Nat) (β : Nat → Nat) (j : Nat) : ℚ :=
  ∑ r ∈ Finset.range (linhas - 1), if β r = j then ler t r (colunas - 1) else 0

/-! ## Driver states and the instance generator -/

/-- The largest `int`, `INT_MAX` of `<limits.h>`. -/
def INT_MAX : Int := 2147483647

/-- The cast `(int)` of a `double`: truncation toward zero. -/
def para_int (q : ℚ) : Int := Int.tdiv q.num q.den

namespace Benchmark

/-- The exits of `simplex` in `benchmark_simplex.c`: the `return iteracao`
taken when no entering column is found, the `return -1` after "Problema
ilimitado.", and the `return iteracao` after the loop that follows the
warning "Limite de ... iterações atingido!". -/
inductive Estado
  | otimo
  | ilimitado
  | limite
  deriving DecidableEq, Repr

/-- Which exit a run of `simplex` takes (a ghost of `simplex_laco`: the same
tests in the same order, on the same tableaux). -/
def simplex_estado (linhas colunas : Nat) : Nat → Tabela → Estado
  | 0, _ => Estado.limite
  | restantes + 1, tabela =>
    let coluna_pivo := encontrar_coluna_pivo tabela linhas colunas
    if coluna_pivo = -1 then Estado.otimo
    else
      let linha_pivo := encontrar_linha_pivo tabela linhas colunas coluna_pivo.toNat
      if linha_pivo = -1 then Estado.ilimitado
      else
        simplex_estado linhas colunas restantes
          (pivotear tabela linhas colunas linha_pivo.toNat coluna_pivo.toNat)

/-- The generator `gerar_problema_transporte` of `benchmark_simplex.c`:
`(oferta, demanda, custos)`. `rand semente k` is what the call number `k` of
`rand()` returns after `srand(semente)`; the accumulators of the drawing loops
carry the number of calls made so far. -/
def gerar_problema_transporte (rand : Int → Nat → Nat) (m n : Nat) (semente : Int) :
    List Int × List Int × List (List Int) :=
  let total : Int := 100000
  let oferta : List Int := List.replicate m 0
  let demanda : List Int := List.replicate n 0
  let custos : List (List Int) := List.replicate m []
  let st := (List.range m).foldl
    (fun (st : List Int × Int × Nat) i =>
      let valor : Int := ((rand semente st.2.2 % 3000 + 1000 : Nat) : Int)
      (st.1.set i valor, st.2.1 + valor, st.2.2 + 1))
    (oferta, (0 : Int), 0)
  let oferta := st.1
  let soma_oferta := st.2.1
  let chamadas := st.2.2
  let escala : ℚ := (total : ℚ) / (soma_oferta : ℚ)
  let st := (List.range m).foldl
    (fun (st : List Int × Int) i =>
      let valor := para_int ((st.1.getD i 0 : ℚ) * escala)
      (st.1.set i valor, st.2 + valor))
    (oferta, (0 : Int))
  let oferta := st.1
  let soma_oferta := st.2
  let oferta := oferta.set (m - 1) (oferta.getD (m - 1) 0 + (total - soma_oferta))
  let st := (List.range n).foldl
    (fun (st : List Int × Int × Nat) j =>
      let valor : Int := ((rand semente st.2.2 % 3000 + 1000 : Nat) : Int)
      (st.1.set j valor, st.2.1 + valor, st.2.2 + 1))
    (demanda, (0 : Int), chamadas)
  let demanda := st.1
  let soma_demanda := st.2.1
  let chamadas := st.2.2
  let escala : ℚ := (total : ℚ) / (soma_demanda : ℚ)
  let st := (List.range n).foldl
    (fun (st : List Int × Int) j =>
      let valor := para_int ((st.1.getD j 0 : ℚ) * escala)
      (st.1.set j valor, st.2 + valor))
    (demanda, (0 : Int))
  let demanda := st.1
  let soma_demanda := st.2
  let demanda := demanda.set (n - 1) (demanda.getD (n - 1) 0 + (total - soma_demanda))
  let st := (List.range m).foldl
    (fun (st : List (List Int) × Nat) i =>
      let linha : List Int := List.replicate n 0
      let st2 := (List.range n).foldl
        (fun (st2 : List Int × Nat) j =>
          (st2.1.set j ((rand semente st2.2 % 100 + 1 : Nat) : Int), st2.2 + 1))
        (linha, st.2)
      (st.1.set i st2.1, st2.2))
    (custos, chamadas)
  (oferta, demanda, st.1)

end Benchmark

namespace Main

/-- The generator `gerar_problema_transporte_grande` of `main.c`, which seeds
with `srand(42)`. -/
def gerar_problema_transporte_grande (rand : Int → Nat → Nat) (m n : Nat) :
    List Int × List Int × List (List Int) :=
  let total : Int := 100000
  let oferta : List Int := List.replicate m 0
  let demanda : List Int := List.replicate n 0
  let custos : List (List Int) := List.replicate m []
  let st := (List.range m).foldl
    (fun (st : List Int × Int × Nat) i =>
      let valor : Int := ((rand 42 st.2.2 % 3000 + 1000 : Nat) : Int)
      (st.1.set i valor, st.2.1 + valor, st.2.2 + 1))
    (oferta, (0 : Int), 0)
  let oferta := st.1
  let soma_oferta := st.2.1
  let chamadas := st.2.2
  let escala : ℚ := (total : ℚ) / (soma_oferta : ℚ)
  let st := (List.range m).foldl
    (fun (st : List Int × Int) i =>
      let valor := para_int ((st.1.getD i 0 : ℚ) * escala)
      (st.1.set i valor, st.2 + valor))
    (oferta, (0 : Int))
  let oferta := st.1
  let soma_oferta := st.2
  let oferta := oferta.set (m - 1) (oferta.getD (m - 1) 0 + (total - soma_oferta))
  let st := (List.range n).foldl
    (fun (st : List Int × Int × Nat) j =>
      let valor : Int := ((rand 42 st.2.2 % 3000 + 1000 : Nat) : Int)
      (st.1.set j valor, st.2.1 + valor, st.2.2 + 1))
    (demanda, (0 : Int), chamadas)
  let demanda := st.1
  let soma_demanda := st.2.1
  let chamadas := st.2.2
  let escala : ℚ := (total : ℚ) / (soma_demanda : ℚ)
  let st := (List.range n).foldl
    (fun (st : List Int × Int) j =>
      let valor := para_int ((st.1.getD j 0 : ℚ) * escala)
      (st.1.set j valor, st.2 + valor))
    (demanda, (0 : Int))
  let demanda := st.1
  let soma_demanda := st.2
  let demanda := demanda.set (n - 1) (demanda.getD (n - 1) 0 + (total - soma_demanda))
  let st := (List.range m).foldl
    (fun (st : List (List Int) × Nat) i =>
      let linha : List Int := List.replicate n 0
      let st2 := (List.range n).foldl
        (fun (st2 : List Int × Nat) j =>
          (st2.1.set j ((rand 42 st2.2 % 100 + 1 : Nat) : Int), st2.2 + 1))
        (linha, st.2)
      (st.1.set i st2.1, st2.2))
    (custos, chamadas)
  (oferta, demanda, st.1)

end Main

/-- The supplies `[10, 20]` of the 2-by-2 scenario of the specification. -/
def oferta_2x2 : Nat → Int := fun i => if i = 0 then 10 else 20

/-- The demands `[15, 15]` of the 2-by-2 scenario of the specification. -/
def demanda_2x2 : Nat → Int := fun _ => 15

/-- The costs `[[1, 2], [3, 4]]` of the 2-by-2 scenario of the specification. -/
def custos_2x2 : Nat → Nat → Int := fun i j => ((2 * i + j + 1 : Nat) : Int)

/-! ## Binary64 arithmetic -/

/-- The values of a C `double` (IEEE 754 binary64): a finite value, written as
the rational number it is (`finito 0` is `+0.0`), `-0.0`, the two infinities
and NaN. The rational numbers that are values of a `double` are those that
`finita` accepts. -/
inductive Double
  | finito (q : ℚ)
  | zero_neg
  | inf_pos
  | inf_neg
  | nan
  deriving DecidableEq

namespace Double

/-- Two to the power `e`. -/
def pot2 (e : Int) : ℚ :=
  if 0 ≤ e then (2 : ℚ) ^ e.toNat else 1 / (2 : ℚ) ^ (-e).toNat

/-- The number of halvings that bring `n` below 2, at most `k` of them. -/
def log2_laco : Nat → Nat → Nat
  | 0, _ => 0
  | k + 1, n => if n < 2 then 0 else log2_laco k (n / 2) + 1

/-- The binary logarithm of `n ≥ 1`, rounded down. -/
def log2 (n : Nat) : Nat := log2_laco n n

/-- The binary exponent of a rational `q ≠ 0`: the `e` with
`2^e ≤ |q| < 2^(e+1)`. -/
def expoente (q : ℚ) : Int :=
  let e : Int := (log2 q.num.natAbs : Int) - (log2 q.den : Int)
  if |q| < pot2 e then e - 1 else e

/-- The integer nearest to `x`, the even one of the two when `x` is half way. -/
def inteiro_par (x : ℚ) : Int :=
  let f := Rat.floor x
  if x - f < 1 / 2 then f
  else if 1 / 2 < x - f then f + 1
  else if f % 2 = 0 then f else f + 1

/-- Rounding to binary64 precision in the default mode (to nearest, ties to
even): 53 significant bits, exponent at least -1022 (below it the spacing
stays `2^-1074`), no upper limit on the exponent. -/
def arredondar (q : ℚ) : ℚ :=
  if q = 0 then 0
  else
    let e := max (expoente q) (-1022)
    (inteiro_par (q / pot2 (e - 52)) : ℚ) * pot2 (e - 52)

/-- The zero of sign `neg`. -/
def zero (neg : Bool) : Double := if neg then zero_neg else finito 0

/-- The infinity of sign `neg`. -/
def inf (neg : Bool) : Double := if neg then inf_neg else inf_pos

/-- The `double` an operation delivers whose exact result is the rational `q`:
`q` rounded, an infinity when the rounded value is beyond `DBL_MAX`, a zero
with the sign of `q` when it rounds to zero (`neg` is the sign when `q` is
itself zero). -/
def de_exato (q : ℚ) (neg : Bool) : Double :=
  if 2 ^ 1024 ≤ arredondar q then inf_pos
  else if arredondar q ≤ -(2 ^ 1024) then inf_neg
  else if arredondar q = 0 then zero (decide (q < 0) || (decide (q = 0) && neg))
  else finito (arredondar q)

/-- The sign bit. -/
def negativo : Double → Bool
  | finito q => decide (q < 0)
  | zero_neg => true
  | inf_pos => false
  | inf_neg => true
  | nan => false

/-- Whether the value is NaN. -/
def e_nan : Double → Bool
  | nan => true
  | _ => false

/-- The rational value of a finite `double`, `none` for an infinity or NaN. -/
def valor : Double → Option ℚ
  | finito q => some q
  | zero_neg => some 0
  | _ => none

/-- The C operator `/` on `double`. -/
def div (a b : Double) : Double :=
  if a.e_nan || b.e_nan then nan
  else
    match a.valor, b.valor with
    | none, none => nan
    | none, some _ => inf (xor a.negativo b.negativo)
    | some _, none => zero (xor a.negativo b.negativo)
    | some x, some y =>
      if y = 0 then (if x = 0 then nan else inf (xor a.negativo b.negativo))
      else de_exato (x / y) (xor a.negativo b.negativo)

/-- The C operator `*` on `double`. -/
def mul (a b : Double) : Double :=
  if a.e_nan || b.e_nan then nan
  else
    match a.valor, b.valor with
    | none, none => inf (xor a.negativo b.negativo)
    | none, some y => if y = 0 then nan else inf (xor a.negativo b.negativo)
    | some x, none => if x = 0 then nan else inf (xor a.negativo b.negativo)
    | some x, some y => de_exato (x * y) (xor a.negativo b.negativo)

/-- The C operator `-` on `double`. -/
def sub (a b : Double) : Double :=
  if a.e_nan || b.e_nan then nan
  else
    match a.valor, b.valor with
    | none, none => if a.negativo = b.negativo then nan else a
    | none, some _ => a
    | some _, none => inf (!b.negativo)
    | some x, some y => de_exato (x - y) (a.negativo && !b.negativo)

/-- The C operator `<` on `double`. -/
def lt (a b : Double) : Bool :=
  if a.e_nan || b.e_nan then false
  else
    match a.valor, b.valor with
    | none, none => a.negativo && !b.negativo
    | none, some _ => a.negativo
    | some _, none => !b.negativo
    | some x, some y => decide (x < y)

/-- The C operator `>` on `double`. -/
def gt (a b : Double) : Bool := lt b a

/-- The C operator `<=` on `double`. -/
def le (a b : Double) : Bool :=
  if a.e_nan || b.e_nan then false
  else
    match a.valor, b.valor with
    | none, none => a.negativo || !b.negativo
    | none, some _ => a.negativo
    | some _, none => !b.negativo
    | some x, some y => decide (x ≤ y)

/-- The value is a finite `double`: `-0.0`, or a rational that binary64
represents (rounding leaves it as it is, and it is within the range). -/
def finita : Double → Bool
  | finito q => decide (arredondar q = q) && decide (|q| < 2 ^ 1024)
  | zero_neg => true
  | _ => false

end Double

/-- The rational value of a finite `double`; 0 for an infinity or NaN. -/
def Double.racional (d : Double) : ℚ := d.valor.getD 0

/-- The `double` `d` is finite and its value is the rational `q`; said of the
result of an operation and its exact result, the operation did not round. -/
def Double.Exato (d : Double) (q : ℚ) : Prop := d.valor = some q

namespace Binary64

/-- A `double **` tableau with `double` entries. -/
abbrev Tabela := List (List Double)

/-- The read `tabela[i][j]`. -/
def ler (tabela : Tabela) (i j : Nat) : Double :=
  (tabela.getD i []).getD j (Double.finito 0)

/-- The in-place write `tabela[i][j] = v`. -/
def escrever (tabela : Tabela) (i j : Nat) (v : Double) : Tabela :=
  tabela.set i ((tabela.getD i []).set j v)

/-- The constant `DBL_MAX` of `<float.h>` as a `double`. -/
def DBL_MAX : Double := Double.finito Simplex.DBL_MAX

/-- A tableau has `linhas` rows of `colunas` entries each. -/
def Dim (tabela : Tabela) (linhas colunas : Nat) : Prop :=
  tabela.length = linhas ∧ ∀ linha ∈ tabela, linha.length = colunas

/-- The tableau whose entries are the finite `double` values of the given
rational numbers. -/
def de_racionais (tabela : Simplex.Tabela) : Tabela :=
  tabela.map (fun linha => linha.map Double.finito)

namespace Benchmark

/-- Entering column: `encontrar_coluna_pivo` of `benchmark_simplex.c`. The
accumulator is `(valor_min, coluna_pivo)`. -/
def encontrar_coluna_pivo (tabela : Tabela) (linhas colunas : Nat) : Int :=
  ((List.range (colunas - 1)).foldl
    (fun (st : Double × Int) j =>
      if Double.lt (ler tabela (linhas - 1) j) st.1 then (ler tabela (linhas - 1) j, (j : Int))
      else st)
    (Double.finito 0, (-1 : Int))).2

/-- Leaving row: `encontrar_linha_pivo` of `benchmark_simplex.c`. The
accumulator is `(menor, linha_pivo)`. -/
def encontrar_linha_pivo (tabela : Tabela) (linhas colunas coluna_pivo : Nat) : Int :=
  ((List.range (linhas - 1)).foldl
    (fun (st : Double × Int) i =>
      let elemento := ler tabela i coluna_pivo
      if Double.gt elemento (Double.finito 0) then
        let razao := Double.div (ler tabela i (colunas - 1)) elemento
        if Double.lt razao st.1 then (razao, (i : Int)) else st
      else st)
    (DBL_MAX, (-1 : Int))).2

/-- The pivot `pivotear` of `benchmark_simplex.c`. In
`tabela[i][j] -= multiplicador * tabela[linha_pivo][j]` the product is a
`double` of its own and the difference another. -/
def pivotear (tabela : Tabela) (linhas colunas linha_pivo coluna_pivo : Nat) : Tabela :=
  let pivo := ler tabela linha_pivo coluna_pivo
  let tabela := (List.range colunas).foldl
    (fun t j => escrever t linha_pivo j (Double.div (ler t linha_pivo j) pivo)) tabela
  (List.range linhas).foldl
    (fun t i =>
      if i ≠ linha_pivo then
        let multiplicador := ler t i coluna_pivo
        (List.range colunas).foldl
          (fun t j => escrever t i j
            (Double.sub (ler t i j) (Double.mul multiplicador (ler t linha_pivo j)))) t
      else t)
    tabela

/-- What a run of `simplex` leaves: the tableau, the returned `int`, the
number of calls of `pivotear` (a ghost counter) and the exit taken (a ghost,
see `Simplex.Benchmark.Estado`). -/
structure Resultado where
  tabela : Tabela
  retorno : Int
  pivos : Nat
  estado : Simplex.Benchmark.Estado

/-- The `while (iteracao < max_iter)` loop of `simplex`; the first argument is
`max_iter - iteracao`. -/
def simplex_laco (linhas colunas : Nat) : Nat → Tabela → Nat → Nat → Resultado
  | 0, tabela, iteracao, pivos => ⟨tabela, (iteracao : Int), pivos, Simplex.Benchmark.Estado.limite⟩
  | restantes + 1, tabela, iteracao, pivos =>
    let iteracao := iteracao + 1
    let coluna_pivo := encontrar_coluna_pivo tabela linhas colunas
    if coluna_pivo = -1 then ⟨tabela, (iteracao : Int), pivos, Simplex.Benchmark.Estado.otimo⟩
    else
      let linha_pivo := encontrar_linha_pivo tabela linhas colunas coluna_pivo.toNat
      if linha_pivo = -1 then ⟨tabela, -1, pivos, Simplex.Benchmark.Estado.ilimitado⟩
      else
        simplex_laco linhas colunas restantes
          (pivotear tabela linhas colunas linha_pivo.toNat coluna_pivo.toNat)
          iteracao (pivos + 1)

/-- The driver `simplex` of `benchmark_simplex.c`. -/
def simplex (tabela : Tabela) (linhas colunas max_iter : Nat) : Resultado :=
  simplex_laco linhas colunas max_iter tabela 0 0

end Benchmark

namespace Main

/-- Entering column: `encontrar_coluna_pivo_correto` of `main.c`. -/
def encontrar_coluna_pivo_correto (tabela : Tabela) (linhas colunas : Nat) : Int :=
  ((List.range (colunas - 1)).foldl
    (fun (st : Double × Int) j =>
      if Double.lt (ler tabela (linhas - 1) j) st.1 then (ler tabela (linhas - 1) j, (j : Int))
      else st)
    (Double.finito 0, (-1 : Int))).2

/-- Leaving row: `encontrar_linha_pivo_correto` of `main.c`. -/
def encontrar_linha_pivo_correto (tabela : Tabela) (linhas colunas coluna_pivo : Nat) : Int :=
  ((List.range (linhas - 1)).foldl
    (fun (st : Double × Int) i =>
      let elemento := ler tabela i coluna_pivo
      if Double.gt elemento (Double.finito 0) then
        let razao := Double.div (ler tabela i (colunas - 1)) elemento
        if Double.lt razao st.1 then (razao, (i : Int)) else st
      else st)
    (DBL_MAX, (-1 : Int))).2

/-- The pivot `pivotear` of `main.c`. -/
def pivotear (tabela : Tabela) (linhas colunas linha_pivo coluna_pivo : Nat) : Tabela :=
  let pivo := ler tabela linha_pivo coluna_pivo
  let tabela := (List.range colunas).foldl
    (fun t j => escrever t linha_pivo j (Double.div (ler t linha_pivo j) pivo)) tabela
  (List.range linhas).foldl
    (fun t i =>
      if i ≠ linha_pivo then
        let multiplicador := ler t i coluna_pivo
        (List.range colunas).foldl
          (fun t j => escrever t i j
            (Double.sub (ler t i j) (Double.mul multiplicador (ler t linha_pivo j)))) t
      else t)
    tabela

/-- The driver `simplex` of `main.c` (with `verbose = 0`); the first argument
is the number of rounds of `while (1)` it may run, and the result is `none`
when that number does not reach a `break`. -/
def simplex (linhas colunas : Nat) : Nat → Tabela → Option (Tabela × Simplex.Main.Parada)
  | 0, _ => none
  | rodadas + 1, tabela =>
    let coluna_pivo := encontrar_coluna_pivo_correto tabela linhas colunas
    if coluna_pivo = -1 then some (tabela, Simplex.Main.Parada.otima)
    else
      let linha_pivo := encontrar_linha_pivo_correto tabela linhas colunas coluna_pivo.toNat
      if linha_pivo = -1 then some (tabela, Simplex.Main.Parada.ilimitado)
      else
        simplex linhas colunas rodadas
          (pivotear tabela linhas colunas linha_pivo.toNat coluna_pivo.toNat)

end Main

/-- No value that `pivotear` writes at the pivot position `(r, c)` carries a
rounding error: every quotient of the first loop, and every difference of the
second, is a finite `double` whose value is the exact result. -/
def SemArredondamento (tabela : Tabela) (linhas colunas r c : Nat) : Prop :=
  (∀ j, j < colunas →
    Double.Exato (Double.div (ler tabela r j) (ler tabela r c))
      ((ler tabela r j).racional / (ler tabela r c).racional)) ∧
  (∀ i j, i < linhas → i ≠ r → j < colunas →
    Double.Exato
      (Double.sub (ler tabela i j)
        (Double.mul (ler tabela i c) (Double.div (ler tabela r j) (ler tabela r c))))
      ((ler tabela i j).racional
        - (ler tabela i c).racional
          * ((ler tabela r j).racional / (ler tabela r c).racional)))

end Binary64

/-! ## Reading and writing -/

theorem foldl_range_succ {σ : Type} (f : σ → Nat → σ) (s : σ) (k : Nat) :
    (List.range (k + 1)).foldl f s = f ((List.range k).foldl f s) k := by
  rw [List.range_succ, List.foldl_append]
  rfl

theorem getD_set_aux {α : Type} (l : List α) (j c : Nat) (v d : α) :
    (l.set j v).getD c d = if c = j ∧ j < l.length then v else l.getD c d := by
  simp only [List.getD_eq_getElem?_getD, List.getElem?_set]
  by_cases hcj : j = c
  · subst hcj
    by_cases hj : j < l.length
    · simp [hj]
    · simp [hj, List.getElem?_eq_none (not_lt.mp hj)]
  · have : ¬ c = j := fun h => hcj h.symm
    simp [hcj, this]

theorem ler_escrever (t : Tabela) (i j : Nat) (v : ℚ) (r c : Nat) :
    ler (escrever t i j v) r c =
      if r = i ∧ c = j ∧ i < t.length ∧ j < (t.getD i []).length then v else ler t r c := by
  unfold ler escrever
  rw [getD_set_aux]
  by_cases hri : r = i
  · subst hri
    by_cases hlen : r < t.length
    · rw [if_pos ⟨rfl, hlen⟩, getD_set_aux]
      by_cases h : c = j ∧ j < (t.getD r []).length
      · rw [if_pos h, if_pos ⟨rfl, h.1, hlen, h.2⟩]
      · rw [if_neg h, if_neg (fun hh => h ⟨hh.2.1, hh.2.2.2⟩)]
    · rw [if_neg (fun h => hlen h.2), if_neg (fun hh => hlen hh.2.2.1)]
  · rw [if_neg (fun h => hri h.1), if_neg (fun hh => hri hh.1)]

theorem length_escrever (t : Tabela) (i j : Nat) (v : ℚ) :
    (escrever t i j v).length = t.length := by
  simp [escrever]

theorem dim_escrever {t : Tabela} {linhas colunas : Nat} (h : Dim t linhas colunas)
    (i j : Nat) (v : ℚ) : Dim (escrever t i j v) linhas colunas := by
  refine ⟨by rw [length_escrever]; exact h.1, ?_⟩
  intro linha hl
  unfold escrever at hl
  by_cases hi : i < t.length
  · rcases List.mem_or_eq_of_mem_set hl with hmem | heq
    · exact h.2 linha hmem
    · subst heq
      rw [List.length_set]
      apply h.2
      rw [List.getD_eq_getElem?_getD, List.getElem?_eq_getElem hi]
      exact List.getElem_mem hi
  · rw [List.set_eq_of_length_le (not_lt.mp hi)] at hl
    exact h.2 linha hl

theorem dim_getD {t : Tabela} {linhas colunas : Nat} (h : Dim t linhas colunas)
    {i : Nat} (hi : i < linhas) : (t.getD i []).length = colunas := by
  apply h.2
  have hi2 : i < t.length := by rw [h.1]; exact hi
  rw [List.getD_eq_getElem?_getD, List.getElem?_eq_getElem hi2]
  exact List.getElem_mem hi2

theorem ler_escrever_dim {t : Tabela} {linhas colunas : Nat} (h : Dim t linhas colunas)
    {i j : Nat} (hi : i < linhas) (hj : j < colunas) (v : ℚ) (r c : Nat) :
    ler (escrever t i j v) r c = if r = i ∧ c = j then v else ler t r c := by
  rw [ler_escrever]
  have h1 : i < t.length := by rw [h.1]; exact hi
  have h2 : j < (t.getD i []).length := by rw [dim_getD h hi]; exact hj
  by_cases hrc : r = i ∧ c = j
  · rw [if_pos hrc, if_pos ⟨hrc.1, hrc.2, h1, h2⟩]
  · rw [if_neg hrc, if_neg (fun hh => hrc ⟨hh.1, hh.2.1⟩)]

theorem dim_alocar_matriz (linhas colunas : Nat) :
    Dim (alocar_matriz linhas colunas) linhas colunas := by
  refine ⟨by simp [alocar_matriz], ?_⟩
  intro linha hl
  unfold alocar_matriz at hl
  rw [List.eq_of_mem_replicate hl]
  simp

theorem ler_alocar_matriz (linhas colunas r c : Nat) :
    ler (alocar_matriz linhas colunas) r c = 0 := by
  unfold ler alocar_matriz
  simp only [List.getD_eq_getElem?_getD, List.getElem?_replicate]
  by_cases hr : r < linhas
  · by_cases hc : c < colunas
    · simp [hr, hc]
    · simp [hr, hc]
  · simp [hr]

/-- Loop invariant rule for a counted loop. -/
theorem foldl_range_inv {σ : Type} (P : Nat → σ → Prop) (f : σ → Nat → σ) (s : σ) (k : Nat)
    (h0 : P 0 s) (hstep : ∀ l, l < k → ∀ s, P l s → P (l + 1) (f s l)) :
    P k ((List.range k).foldl f s) := by
  induction k with
  | zero => simpa using h0
  | succ k ih =>
    rw [foldl_range_succ]
    apply hstep k (Nat.lt_succ_self k)
    exact ih (fun l hl s hs => hstep l (Nat.lt_succ_of_lt hl) s hs)

theorem div_mod_unique (n i j c : Nat) (hj : j < n) :
    c = i * n + j ↔ c / n = i ∧ c % n = j := by
  have hn : 0 < n := Nat.lt_of_le_of_lt (Nat.zero_le j) hj
  constructor
  · intro h
    subst h
    constructor
    · rw [Nat.add_comm, Nat.add_mul_div_right _ _ hn, Nat.div_eq_of_lt hj, Nat.zero_add]
    · rw [Nat.add_comm, Nat.add_mul_mod_self_right, Nat.mod_eq_of_lt hj]
  · rintro ⟨h1, h2⟩
    have := Nat.div_add_mod c n
    rw [h1, h2, Nat.mul_comm] at this
    exact this.symm

theorem idx_lt {m n i j : Nat} (hi : i < m) (hj : j < n) : i * n + j < m * n := by
  calc i * n + j < i * n + n := Nat.add_lt_add_left hj _
    _ = (i + 1) * n := by ring
    _ ≤ m * n := Nat.mul_le_mul_right n hi

/-! ## The builder -/

theorem entrada_spec_oferta (oferta demanda : Nat → Int) (custos : Nat → Nat → Int)
    (m n r c : Nat) (hr : r < m) :
    entrada_spec oferta demanda custos m n r c =
      if c < m * n then (if c / n = r then 1 else 0)
      else if c = m * n + r then 1
      else if c = m * n + m + n then (oferta r : ℚ)
      else 0 := by
  unfold entrada_spec
  rw [if_pos hr]

theorem entrada_spec_demanda (oferta demanda : Nat → Int) (custos : Nat → Nat → Int)
    (m n r c : Nat) (hr1 : m ≤ r) (hr2 : r < m + n) :
    entrada_spec oferta demanda custos m n r c =
      if c < m * n then (if c % n = r - m then 1 else 0)
      else if c = m * n + m + (r - m) then 1
      else if c = m * n + m + n then (demanda (r - m) : ℚ)
      else 0 := by
  unfold entrada_spec
  rw [if_neg (by omega), if_pos hr2]

theorem entrada_spec_objetivo (oferta demanda : Nat → Int) (custos : Nat → Nat → Int)
    (m n c : Nat) :
    entrada_spec oferta demanda custos m n (m + n) c =
      if c < m * n then -(custos (c / n) (c % n) : ℚ) else 0 := by
  unfold entrada_spec
  rw [if_neg (by omega), if_neg (by omega), if_pos rfl]

theorem construir_fase1 (oferta demanda : Nat → Int) (custos : Nat → Nat → Int) (m n : Nat)
    (hn : 0 < n) (t : Tabela) (i : Nat) (hi : i < m)
    (hd : Dim t (m + n + 1) (m * n + m + n + 1))
    (ht : ∀ r c, ler t r c = forma1 oferta demanda custos m n i r c) :
    Dim (escrever (escrever ((List.range n).foldl (fun t j => escrever t i (i * n + j) 1) t)
        i (m * n + i) 1) i (m * n + m + n + 1 - 1) (oferta i)) (m + n + 1) (m * n + m + n + 1) ∧
    ∀ r c, ler (escrever (escrever ((List.range n).foldl (fun t j => escrever t i (i * n + j) 1) t)
        i (m * n + i) 1) i (m * n + m + n + 1 - 1) (oferta i)) r c
      = forma1 oferta demanda custos m n (i + 1) r c := by
  have hinner := foldl_range_inv
    (fun l (s : Tabela) => Dim s (m + n + 1) (m * n + m + n + 1) ∧
      ∀ r c, ler s r c = if r = i ∧ c / n = i ∧ c % n < l then 1 else ler t r c)
    (fun t j => escrever t i (i * n + j) 1) t n
    ⟨hd, fun r c => by simp⟩
    (fun l hl s hs => by
      refine ⟨dim_escrever hs.1 _ _ _, fun r c => ?_⟩
      have hlt := idx_lt hi hl
      have hu := div_mod_unique n i l c hl
      rw [ler_escrever_dim hs.1 (by omega) (by omega), hs.2 r c]
      split_ifs <;> first | rfl | omega)
  obtain ⟨hd1, h1⟩ := hinner
  have hd2 := dim_escrever hd1 i (m * n + i) 1
  refine ⟨dim_escrever hd2 _ _ _, fun r c => ?_⟩
  rw [Nat.add_sub_cancel, ler_escrever_dim hd2 (by omega) (by omega),
    ler_escrever_dim hd1 (by omega) (by omega), h1 r c, ht r c]
  have hlink : c < m * n ↔ c / n < m := (Nat.div_lt_iff_lt_mul hn).symm
  have hmod : c % n < n := Nat.mod_lt _ hn
  unfold forma1
  by_cases hr : r = i
  · subst hr
    rw [if_pos (Nat.lt_succ_self r), entrada_spec_oferta _ _ _ _ _ _ _ hi]
    split_ifs <;> first | rfl | omega
  · by_cases hr2 : r < i
    · rw [if_neg (fun h => hr h.1), if_neg (fun h => hr h.1), if_neg (fun h => hr h.1),
        if_pos hr2, if_pos (Nat.lt_succ_of_lt hr2)]
    · rw [if_neg (fun h => hr h.1), if_neg (fun h => hr h.1), if_neg (fun h => hr h.1),
        if_neg hr2, if_neg (by omega)]

theorem construir_fase2 (oferta demanda : Nat → Int) (custos : Nat → Nat → Int) (m n : Nat)
    (hn : 0 < n) (t : Tabela) (j : Nat) (hj : j < n)
    (hd : Dim t (m + n + 1) (m * n + m + n + 1))
    (ht : ∀ r c, ler t r c = forma2 oferta demanda custos m n j r c) :
    Dim (escrever (escrever ((List.range m).foldl (fun t i => escrever t (m + j) (i * n + j) 1) t)
        (m + j) (m * n + m + j) 1) (m + j) (m * n + m + n + 1 - 1) (demanda j))
        (m + n + 1) (m * n + m + n + 1) ∧
    ∀ r c, ler (escrever (escrever
        ((List.range m).foldl (fun t i => escrever t (m + j) (i * n + j) 1) t)
        (m + j) (m * n + m + j) 1) (m + j) (m * n + m + n + 1 - 1) (demanda j)) r c
      = forma2 oferta demanda custos m n (j + 1) r c := by
  have hinner := foldl_range_inv
    (fun l (s : Tabela) => Dim s (m + n + 1) (m * n + m + n + 1) ∧
      ∀ r c, ler s r c = if r = m + j ∧ c / n < l ∧ c % n = j then 1 else ler t r c)
    (fun t i => escrever t (m + j) (i * n + j) 1) t m
    ⟨hd, fun r c => by simp⟩
    (fun l hl s hs => by
      refine ⟨dim_escrever hs.1 _ _ _, fun r c => ?_⟩
      have hlt := idx_lt hl hj
      have hu := div_mod_unique n l j c hj
      rw [ler_escrever_dim hs.1 (by omega) (by omega), hs.2 r c]
      split_ifs <;> first | rfl | omega)
  obtain ⟨hd1, h1⟩ := hinner
  have hd2 := dim_escrever hd1 (m + j) (m * n + m + j) 1
  refine ⟨dim_escrever hd2 _ _ _, fun r c => ?_⟩
  rw [Nat.add_sub_cancel, ler_escrever_dim hd2 (by omega) (by omega),
    ler_escrever_dim hd1 (by omega) (by omega), h1 r c, ht r c]
  have hlink : c < m * n ↔ c / n < m := (Nat.div_lt_iff_lt_mul hn).symm
  have hmod : c % n < n := Nat.mod_lt _ hn
  unfold forma2
  by_cases hr : r = m + j
  · subst hr
    rw [if_pos (show m + j < m + (j + 1) by omega),
      entrada_spec_demanda _ _ _ _ _ _ _ (by omega) (by omega), Nat.add_sub_cancel_left]
    split_ifs <;> first | rfl | omega
  · by_cases hr2 : r < m + j
    · rw [if_neg (fun h => hr h.1), if_neg (fun h => hr h.1), if_neg (fun h => hr h.1),
        if_pos hr2, if_pos (show r < m + (j + 1) by omega)]
    · rw [if_neg (fun h => hr h.1), if_neg (fun h => hr h.1), if_neg (fun h => hr h.1),
        if_neg hr2, if_neg (show ¬ r < m + (j + 1) by omega)]

theorem construir_fase3 (oferta demanda : Nat → Int) (custos : Nat → Nat → Int) (m n : Nat)
    (hn : 0 < n) (t : Tabela) (i : Nat) (hi : i < m)
    (hd : Dim t (m + n + 1) (m * n + m + n + 1))
    (ht : ∀ r c, ler t r c = forma3 oferta demanda custos m n i r c) :
    Dim ((List.range n).foldl
        (fun t j => escrever t (m + n + 1 - 1) (i * n + j) (-(custos i j : ℚ))) t)
        (m + n + 1) (m * n + m + n + 1) ∧
    ∀ r c, ler ((List.range n).foldl
        (fun t j => escrever t (m + n + 1 - 1) (i * n + j) (-(custos i j : ℚ))) t) r c
      = forma3 oferta demanda custos m n (i + 1) r c := by
  have hinner := foldl_range_inv
    (fun l (s : Tabela) => Dim s (m + n + 1) (m * n + m + n + 1) ∧
      ∀ r c, ler s r c = if r = m + n ∧ c / n = i ∧ c % n < l
        then -(custos (c / n) (c % n) : ℚ) else ler t r c)
    (fun t j => escrever t (m + n + 1 - 1) (i * n + j) (-(custos i j : ℚ))) t n
    ⟨hd, fun r c => by simp⟩
    (fun l hl s hs => by
      refine ⟨dim_escrever hs.1 _ _ _, fun r c => ?_⟩
      have hlt := idx_lt hi hl
      have hu := div_mod_unique n i l c hl
      rw [Nat.add_sub_cancel, ler_escrever_dim hs.1 (by omega) (by omega), hs.2 r c]
      by_cases hpos : r = m + n ∧ c = i * n + l
      · have h2 := hu.mp hpos.2
        rw [if_pos hpos, if_pos ⟨hpos.1, h2.1, by omega⟩, h2.1, h2.2]
      · rw [if_neg hpos]
        split_ifs <;> first | rfl | omega)
  obtain ⟨hd1, h1⟩ := hinner
  refine ⟨hd1, fun r c => ?_⟩
  rw [h1 r c, ht r c]
  have hlink : c < m * n ↔ c / n < m := (Nat.div_lt_iff_lt_mul hn).symm
  have hmod : c % n < n := Nat.mod_lt _ hn
  unfold forma3
  by_cases hr : r = m + n
  · subst hr
    rw [if_neg (show ¬ m + n < m + n by omega), entrada_spec_objetivo]
    split_ifs <;> first | rfl | omega
  · have e1 : ¬ (r = m + n ∧ c / n = i ∧ c % n < n) := fun h => hr h.1
    have e2 : ¬ (r = m + n ∧ c / n < i) := fun h => hr h.1
    have e3 : ¬ (r = m + n ∧ c / n < i + 1) := fun h => hr h.1
    rw [if_neg e1, if_neg e2, if_neg e3]

/-- The builder's result in closed form: dimensions and every entry. -/
theorem construir_forma (oferta demanda : Nat → Int) (custos : Nat → Nat → Int) (m n : Nat)
    (hn : 0 < n) :
    Dim (Benchmark.construir_tabela_transporte oferta demanda custos m n).1
        (m + n + 1) (m * n + m + n + 1) ∧
    ∀ r c, ler (Benchmark.construir_tabela_transporte oferta demanda custos m n).1 r c
      = entrada_spec oferta demanda custos m n r c := by
  unfold Benchmark.construir_tabela_transporte
  simp only []
  have h1 := foldl_range_inv
    (fun l (s : Tabela) => Dim s (m + n + 1) (m * n + m + n + 1) ∧
      ∀ r c, ler s r c = forma1 oferta demanda custos m n l r c)
    (fun t i =>
      escrever (escrever ((List.range n).foldl (fun t j => escrever t i (i * n + j) 1) t)
        i (m * n + i) 1) i (m * n + m + n + 1 - 1) (oferta i))
    (alocar_matriz (m + n + 1) (m * n + m + n + 1)) m
    ⟨dim_alocar_matriz _ _, fun r c => by rw [ler_alocar_matriz]; simp [forma1]⟩
    (fun l hl s hs => construir_fase1 oferta demanda custos m n hn s l hl hs.1 hs.2)
  have h2 := foldl_range_inv
    (fun l (s : Tabela) => Dim s (m + n + 1) (m * n + m + n + 1) ∧
      ∀ r c, ler s r c = forma2 oferta demanda custos m n l r c)
    (fun t j =>
      escrever (escrever ((List.range m).foldl (fun t i => escrever t (m + j) (i * n + j) 1) t)
        (m + j) (m * n + m + j) 1) (m + j) (m * n + m + n + 1 - 1) (demanda j))
    _ n
    ⟨h1.1, fun r c => by rw [h1.2 r c]; simp [forma1, forma2]⟩
    (fun l hl s hs => construir_fase2 oferta demanda custos m n hn s l hl hs.1 hs.2)
  have h3 := foldl_range_inv
    (fun l (s : Tabela) => Dim s (m + n + 1) (m * n + m + n + 1) ∧
      ∀ r c, ler s r c = forma3 oferta demanda custos m n l r c)
    (fun t i => (List.range n).foldl
        (fun t j => escrever t (m + n + 1 - 1) (i * n + j) (-(custos i j : ℚ))) t)
    _ m
    ⟨h2.1, fun r c => by rw [h2.2 r c]; simp [forma2, forma3]⟩
    (fun l hl s hs => construir_fase3 oferta demanda custos m n hn s l hl hs.1 hs.2)
  refine ⟨h3.1, fun r c => ?_⟩
  rw [h3.2 r c]
  have hlink : c < m * n ↔ c / n < m := (Nat.div_lt_iff_lt_mul hn).symm
  unfold forma3
  by_cases hr : r = m + n
  · subst hr
    rw [if_neg (show ¬ m + n < m + n by omega), entrada_spec_objetivo]
    split_ifs <;> first | rfl | omega
  · by_cases hr2 : r < m + n
    · rw [if_pos hr2]
    · have e1 : ¬ (r = m + n ∧ c / n < m) := fun h => hr h.1
      rw [if_neg hr2, if_neg e1]
      unfold entrada_spec
      rw [if_neg (show ¬ r < m by omega), if_neg hr2, if_neg hr]

theorem construir_main_eq :
    Main.construir_tabela_transporte = Benchmark.construir_tabela_transporte := rfl

theorem construir_linhas_colunas (oferta demanda : Nat → Int) (custos : Nat → Nat → Int)
    (m n : Nat) :
    (Benchmark.construir_tabela_transporte oferta demanda custos m n).2
      = (m + n + 1, m * n + m + n + 1) := rfl

/-! ## Scans for a minimum -/

/-- A scan that keeps the smallest key seen so far below a starting bound,
and the index where it was first seen. -/
theorem varredura_inv (ok : Nat → Prop) [DecidablePred ok] (chave : Nat → ℚ) (lim : ℚ)
    (k : Nat) :
    ((((List.range k).foldl
        (fun (st : ℚ × Int) j => if ok j ∧ chave j < st.1 then (chave j, (j : Int)) else st)
        (lim, (-1 : Int))).2 = -1 ∧
      ((List.range k).foldl
        (fun (st : ℚ × Int) j => if ok j ∧ chave j < st.1 then (chave j, (j : Int)) else st)
        (lim, (-1 : Int))).1 = lim ∧
      ∀ j, j < k → ok j → ¬ chave j < lim) ∨
    (∃ b, b < k ∧
      ((List.range k).foldl
        (fun (st : ℚ × Int) j => if ok j ∧ chave j < st.1 then (chave j, (j : Int)) else st)
        (lim, (-1 : Int))).2 = (b : Int) ∧
      ((List.range k).foldl
        (fun (st : ℚ × Int) j => if ok j ∧ chave j < st.1 then (chave j, (j : Int)) else st)
        (lim, (-1 : Int))).1 = chave b ∧
      ok b ∧ chave b < lim ∧
      (∀ j, j < k → ok j → chave b ≤ chave j) ∧
      (∀ j, j < b → ok j → chave b < chave j))) := by
  induction k with
  | zero =>
    left
    exact ⟨rfl, rfl, fun j hj => absurd hj (Nat.not_lt_zero j)⟩
  | succ k ih =>
    rw [foldl_range_succ]
    rcases ih with ⟨h2, h1, hall⟩ | ⟨b, hb, h2, h1, hokb, hblim, hmin, hfirst⟩
    · by_cases hc : ok k ∧ chave k < lim
      · right
        refine ⟨k, Nat.lt_succ_self k, ?_, ?_, hc.1, hc.2, ?_, ?_⟩
        · rw [h1, if_pos hc]
        · rw [h1, if_pos hc]
        · intro j hj hokj
          rcases Nat.lt_succ_iff_lt_or_eq.mp hj with hlt | heq
          · exact le_of_lt (lt_of_lt_of_le hc.2 (not_lt.mp (hall j hlt hokj)))
          · rw [heq]
        · intro j hj hokj
          exact lt_of_lt_of_le hc.2 (not_lt.mp (hall j hj hokj))
      · left
        refine ⟨?_, ?_, ?_⟩
        · rw [h1, if_neg hc]; exact h2
        · rw [h1, if_neg hc]; exact h1
        · intro j hj hokj
          rcases Nat.lt_succ_iff_lt_or_eq.mp hj with hlt | heq
          · exact hall j hlt hokj
          · subst heq
            exact fun h => hc ⟨hokj, h⟩
    · right
      by_cases hc : ok k ∧ chave k < chave b
      · refine ⟨k, Nat.lt_succ_self k, ?_, ?_, hc.1, lt_trans hc.2 hblim, ?_, ?_⟩
        · rw [h1, if_pos hc]
        · rw [h1, if_pos hc]
        · intro j hj hokj
          rcases Nat.lt_succ_iff_lt_or_eq.mp hj with hlt | heq
          · exact le_of_lt (lt_of_lt_of_le hc.2 (hmin j hlt hokj))
          · rw [heq]
        · intro j hj hokj
          exact lt_of_lt_of_le hc.2 (hmin j hj hokj)
      · refine ⟨b, Nat.lt_succ_of_lt hb, ?_, ?_, hokb, hblim, ?_, hfirst⟩
        · rw [h1, if_neg hc]; exact h2
        · rw [h1, if_neg hc]; exact h1
        · intro j hj hokj
          rcases Nat.lt_succ_iff_lt_or_eq.mp hj with hlt | heq
          · exact hmin j hlt hokj
          · subst heq
            by_contra hlt
            exact hc ⟨hokj, not_le.mp hlt⟩

theorem encontrar_coluna_pivo_varredura (tabela : Tabela) (linhas colunas : Nat) :
    Benchmark.encontrar_coluna_pivo tabela linhas colunas =
      ((List.range (colunas - 1)).foldl
        (fun (st : ℚ × Int) j =>
          if True ∧ ler tabela (linhas - 1) j < st.1 then (ler tabela (linhas - 1) j, (j : Int))
          else st)
        ((0 : ℚ), (-1 : Int))).2 := by
  unfold Benchmark.encontrar_coluna_pivo
  simp only [true_and]

theorem encontrar_linha_pivo_varredura (tabela : Tabela) (linhas colunas coluna_pivo : Nat) :
    Benchmark.encontrar_linha_pivo tabela linhas colunas coluna_pivo =
      ((List.range (linhas - 1)).foldl
        (fun (st : ℚ × Int) i =>
          if 0 < ler tabela i coluna_pivo ∧
              ler tabela i (colunas - 1) / ler tabela i coluna_pivo < st.1
          then (ler tabela i (colunas - 1) / ler tabela i coluna_pivo, (i : Int))
          else st)
        (DBL_MAX, (-1 : Int))).2 := by
  unfold Benchmark.encontrar_linha_pivo
  congr 2
  funext st i
  by_cases h1 : 0 < ler tabela i coluna_pivo
  · by_cases h2 : ler tabela i (colunas - 1) / ler tabela i coluna_pivo < st.1
    · simp [h1, h2]
    · simp [h1, h2]
  · simp [h1]

theorem encontrar_main_eq :
    Main.encontrar_coluna_pivo_correto = Benchmark.encontrar_coluna_pivo ∧
    Main.encontrar_linha_pivo_correto = Benchmark.encontrar_linha_pivo ∧
    Main.pivotear = Benchmark.pivotear := ⟨rfl, rfl, rfl⟩

/-- What `encontrar_coluna_pivo` returns. -/
theorem encontrar_coluna_pivo_casos (tabela : Tabela) (linhas colunas : Nat) :
    (Benchmark.encontrar_coluna_pivo tabela linhas colunas = -1 ∧
      ∀ j, j < colunas - 1 → ¬ ler tabela (linhas - 1) j < 0) ∨
    (∃ b, b < colunas - 1 ∧
      Benchmark.encontrar_coluna_pivo tabela linhas colunas = (b : Int) ∧
      ler tabela (linhas - 1) b < 0 ∧
      (∀ j, j < colunas - 1 → ler tabela (linhas - 1) b ≤ ler tabela (linhas - 1) j) ∧
      (∀ j, j < b → ler tabela (linhas - 1) b < ler tabela (linhas - 1) j)) := by
  rw [encontrar_coluna_pivo_varredura]
  rcases varredura_inv (fun _ => True) (fun j => ler tabela (linhas - 1) j) 0 (colunas - 1) with
    ⟨h2, _, hall⟩ | ⟨b, hb, h2, _, _, hneg, hmin, hfirst⟩
  · left
    exact ⟨h2, fun j hj => hall j hj trivial⟩
  · right
    exact ⟨b, hb, h2, hneg, fun j hj => hmin j hj trivial, fun j hj => hfirst j hj trivial⟩

/-- What `encontrar_linha_pivo` returns. -/
theorem encontrar_linha_pivo_casos (tabela : Tabela) (linhas colunas coluna_pivo : Nat) :
    (Benchmark.encontrar_linha_pivo tabela linhas colunas coluna_pivo = -1 ∧
      ∀ i, i < linhas - 1 → 0 < ler tabela i coluna_pivo →
        ¬ ler tabela i (colunas - 1) / ler tabela i coluna_pivo < DBL_MAX) ∨
    (∃ b, b < linhas - 1 ∧
      Benchmark.encontrar_linha_pivo tabela linhas colunas coluna_pivo = (b : Int) ∧
      0 < ler tabela b coluna_pivo ∧
      ler tabela b (colunas - 1) / ler tabela b coluna_pivo < DBL_MAX ∧
      (∀ i, i < linhas - 1 → 0 < ler tabela i coluna_pivo →
        ler tabela b (colunas - 1) / ler tabela b coluna_pivo
          ≤ ler tabela i (colunas - 1) / ler tabela i coluna_pivo) ∧
      (∀ i, i < b → 0 < ler tabela i coluna_pivo →
        ler tabela b (colunas - 1) / ler tabela b coluna_pivo
          < ler tabela i (colunas - 1) / ler tabela i coluna_pivo)) := by
  rw [encontrar_linha_pivo_varredura]
  rcases varredura_inv (fun i => 0 < ler tabela i coluna_pivo)
    (fun i => ler tabela i (colunas - 1) / ler tabela i coluna_pivo) DBL_MAX (linhas - 1) with
    ⟨h2, _, hall⟩ | ⟨b, hb, h2, _, hok, hlim, hmin, hfirst⟩
  · left
    exact ⟨h2, hall⟩
  · right
    exact ⟨b, hb, h2, hok, hlim, hmin, hfirst⟩

/-! ## The pivot -/

/-- The first loop of `pivotear`: the pivot row divided by the pivot. -/
theorem pivotear_laco1 (t : Tabela) (linhas colunas r : Nat) (pivo : ℚ)
    (hd : Dim t linhas colunas) (hr : r < linhas) :
    Dim ((List.range colunas).foldl (fun s j => escrever s r j (ler s r j / pivo)) t)
      linhas colunas ∧
    ∀ i j, ler ((List.range colunas).foldl (fun s j => escrever s r j (ler s r j / pivo)) t) i j
      = if i = r ∧ j < colunas then ler t r j / pivo else ler t i j := by
  refine foldl_range_inv
    (fun l (s : Tabela) => Dim s linhas colunas ∧
      ∀ i j, ler s i j = if i = r ∧ j < l then ler t r j / pivo else ler t i j)
    (fun s j => escrever s r j (ler s r j / pivo)) t colunas
    ⟨hd, fun i j => by simp⟩ ?_
  intro l hl s hs
  refine ⟨dim_escrever hs.1 _ _ _, fun i j => ?_⟩
  rw [ler_escrever_dim hs.1 hr hl, hs.2 i j, hs.2 r l,
    if_neg (show ¬ (r = r ∧ l < l) from fun h => Nat.lt_irrefl l h.2)]
  by_cases h : i = r ∧ j = l
  · rw [if_pos h, if_pos ⟨h.1, by omega⟩, h.2]
  · rw [if_neg h]
    by_cases h2 : i = r ∧ j < l
    · rw [if_pos h2, if_pos ⟨h2.1, by omega⟩]
    · rw [if_neg h2, if_neg (fun h3 => by
        rcases Nat.lt_succ_iff_lt_or_eq.mp h3.2 with hlt | heq
        · exact h2 ⟨h3.1, hlt⟩
        · exact h ⟨h3.1, heq⟩)]

/-- The inner loop of the second loop of `pivotear`: one row minus a multiple
of another row. -/
theorem pivotear_laco_interno (s : Tabela) (linhas colunas k r : Nat) (mult : ℚ)
    (hd : Dim s linhas colunas) (hk : k < linhas) :
    Dim ((List.range colunas).foldl
        (fun u j => escrever u k j (ler u k j - mult * ler u r j)) s) linhas colunas ∧
    ∀ i j, ler ((List.range colunas).foldl
        (fun u j => escrever u k j (ler u k j - mult * ler u r j)) s) i j
      = if i = k ∧ j < colunas then ler s k j - mult * ler s r j else ler s i j := by
  refine foldl_range_inv
    (fun l (u : Tabela) => Dim u linhas colunas ∧
      ∀ i j, ler u i j = if i = k ∧ j < l then ler s k j - mult * ler s r j else ler s i j)
    (fun u j => escrever u k j (ler u k j - mult * ler u r j)) s colunas
    ⟨hd, fun i j => by simp⟩ ?_
  intro l hl u hu
  refine ⟨dim_escrever hu.1 _ _ _, fun i j => ?_⟩
  rw [ler_escrever_dim hu.1 hk hl, hu.2 i j, hu.2 k l, hu.2 r l,
    if_neg (show ¬ (k = k ∧ l < l) from fun h => Nat.lt_irrefl l h.2),
    if_neg (show ¬ (r = k ∧ l < l) from fun h => Nat.lt_irrefl l h.2)]
  by_cases h : i = k ∧ j = l
  · rw [if_pos h, if_pos ⟨h.1, by omega⟩, h.2]
  · rw [if_neg h]
    by_cases h2 : i = k ∧ j < l
    · rw [if_pos h2, if_pos ⟨h2.1, by omega⟩]
    · rw [if_neg h2, if_neg (fun h3 => by
        rcases Nat.lt_succ_iff_lt_or_eq.mp h3.2 with hlt | heq
        · exact h2 ⟨h3.1, hlt⟩
        · exact h ⟨h3.1, heq⟩)]

/-- The second loop of `pivotear`: every row but the pivot row loses its
multiple of the pivot row. -/
theorem pivotear_laco2 (t : Tabela) (linhas colunas r c : Nat)
    (hd : Dim t linhas colunas) :
    Dim ((List.range linhas).foldl
        (fun s i =>
          if i ≠ r then
            (List.range colunas).foldl
              (fun u j => escrever u i j (ler u i j - ler s i c * ler u r j)) s
          else s) t) linhas colunas ∧
    ∀ i j, ler ((List.range linhas).foldl
        (fun s i =>
          if i ≠ r then
            (List.range colunas).foldl
              (fun u j => escrever u i j (ler u i j - ler s i c * ler u r j)) s
          else s) t) i j
      = if i < linhas ∧ i ≠ r ∧ j < colunas then ler t i j - ler t i c * ler t r j
        else ler t i j := by
  refine foldl_range_inv
    (fun k (s : Tabela) => Dim s linhas colunas ∧
      ∀ i j, ler s i j = if i < k ∧ i ≠ r ∧ j < colunas then ler t i j - ler t i c * ler t r j
        else ler t i j)
    (fun s i =>
      if i ≠ r then
        (List.range colunas).foldl
          (fun u j => escrever u i j (ler u i j - ler s i c * ler u r j)) s
      else s) t linhas
    ⟨hd, fun i j => by simp⟩ ?_
  intro k hk s hs
  by_cases hkr : k ≠ r
  · simp only [if_pos hkr]
    obtain ⟨hd1, h1⟩ := pivotear_laco_interno s linhas colunas k r (ler s k c) hs.1 hk
    refine ⟨hd1, fun i j => ?_⟩
    rw [h1 i j, hs.2 k j, hs.2 k c, hs.2 r j, hs.2 i j,
      if_neg (show ¬ (k < k ∧ k ≠ r ∧ j < colunas) from fun h => Nat.lt_irrefl k h.1),
      if_neg (show ¬ (k < k ∧ k ≠ r ∧ c < colunas) from fun h => Nat.lt_irrefl k h.1),
      if_neg (show ¬ (r < k ∧ r ≠ r ∧ j < colunas) from fun h => h.2.1 rfl)]
    by_cases h : i = k ∧ j < colunas
    · rw [if_pos h, if_pos ⟨by omega, by omega, h.2⟩, h.1]
    · rw [if_neg h]
      by_cases h2 : i < k ∧ i ≠ r ∧ j < colunas
      · rw [if_pos h2, if_pos ⟨by omega, h2.2.1, h2.2.2⟩]
      · rw [if_neg h2, if_neg (fun h3 => by
          rcases Nat.lt_succ_iff_lt_or_eq.mp h3.1 with hlt | heq
          · exact h2 ⟨hlt, h3.2.1, h3.2.2⟩
          · exact h ⟨heq, h3.2.2⟩)]
  · have hkr2 : k = r := not_not.mp hkr
    simp only [if_neg hkr]
    refine ⟨hs.1, fun i j => ?_⟩
    rw [hs.2 i j]
    by_cases h2 : i < k ∧ i ≠ r ∧ j < colunas
    · rw [if_pos h2, if_pos ⟨by omega, h2.2.1, h2.2.2⟩]
    · rw [if_neg h2, if_neg (fun h3 => by
        rcases Nat.lt_succ_iff_lt_or_eq.mp h3.1 with hlt | heq
        · exact h2 ⟨hlt, h3.2.1, h3.2.2⟩
        · exact h3.2.1 (heq.trans hkr2))]

/-- The tableau `pivotear` leaves, entry by entry. -/
theorem pivotear_forma (t : Tabela) (linhas colunas r c : Nat)
    (hd : Dim t linhas colunas) (hr : r < linhas) :
    Dim (Benchmark.pivotear t linhas colunas r c) linhas colunas ∧
    ∀ i j, i < linhas → j < colunas →
      ler (Benchmark.pivotear t linhas colunas r c) i j
        = if i = r then ler t r j / ler t r c
          else ler t i j - ler t i c * (ler t r j / ler t r c) := by
  unfold Benchmark.pivotear
  simp only []
  obtain ⟨hd1, h1⟩ := pivotear_laco1 t linhas colunas r (ler t r c) hd hr
  obtain ⟨hd2, h2⟩ := pivotear_laco2 _ linhas colunas r c hd1
  refine ⟨hd2, fun i j hi hj => ?_⟩
  rw [h2 i j]
  by_cases hir : i = r
  · rw [if_neg (fun h => h.2.1 hir), if_pos hir, h1 i j, if_pos ⟨hir, hj⟩]
  · rw [if_pos ⟨hi, hir, hj⟩, if_neg hir, h1 i j, h1 i c, h1 r j,
      if_neg (fun h => hir h.1), if_neg (fun h => hir h.1), if_pos ⟨rfl, hj⟩]

/-! ## The read-out -/

/-- The scan of one column by `extrair_solucao`: no 1 seen, exactly one 1
seen, or at least two. -/
theorem contar_coluna_inv (t : Tabela) (j : Nat) (l : Nat) :
    ((Main.contar_coluna t l j).1 = 0 ∧ (∀ i, i < l → ler t i j ≠ 1) ∧
      (Main.contar_coluna t l j).2.1 ≤ l ∧
      ((Main.contar_coluna t l j).2.1 = l ↔ ∀ i, i < l → ler t i j = 0)) ∨
    ((Main.contar_coluna t l j).1 = 1 ∧ ∃ k, k < l ∧ (Main.contar_coluna t l j).2.2 = (k : Int) ∧
      ler t k j = 1 ∧ (∀ i, i < l → i ≠ k → ler t i j ≠ 1) ∧
      (Main.contar_coluna t l j).2.1 + 1 ≤ l ∧
      ((Main.contar_coluna t l j).2.1 + 1 = l ↔ ∀ i, i < l → i ≠ k → ler t i j = 0)) ∨
    (2 ≤ (Main.contar_coluna t l j).1 ∧
      ∃ k1 k2, k1 < l ∧ k2 < l ∧ k1 ≠ k2 ∧ ler t k1 j = 1 ∧ ler t k2 j = 1) := by
  induction l with
  | zero =>
    left
    refine ⟨rfl, fun i hi => absurd hi (Nat.not_lt_zero i), Nat.le_refl 0, ?_⟩
    exact ⟨fun _ i hi => absurd hi (Nat.not_lt_zero i), fun _ => rfl⟩
  | succ l ih =>
    have hstep : Main.contar_coluna t (l + 1) j =
        (if ler t l j = 1 then ((Main.contar_coluna t l j).1 + 1, (Main.contar_coluna t l j).2.1, (l : Int))
         else if ler t l j = 0 then
           ((Main.contar_coluna t l j).1, (Main.contar_coluna t l j).2.1 + 1, (Main.contar_coluna t l j).2.2)
         else Main.contar_coluna t l j) := by
      unfold Main.contar_coluna
      rw [foldl_range_succ]
    rw [hstep]
    rcases ih with ⟨h1, hne, hle, hiff⟩ | ⟨h1, k, hk, hlb, hak, hne, hle, hiff⟩ |
      ⟨h1, k1, k2, hk1, hk2, hk12, ha1, ha2⟩
    · by_cases e1 : ler t l j = 1
      · right; left
        rw [if_pos e1]
        refine ⟨by simp [h1], l, Nat.lt_succ_self l, rfl, e1, ?_, by simpa using hle, ?_⟩
        · intro i hi hil
          exact hne i (by omega)
        · simp only []
          constructor
          · intro h i hi hil
            exact (hiff.mp (by omega)) i (by omega)
          · intro h
            have := hiff.mpr (fun i hi => h i (by omega) (by omega))
            omega
      · left
        rw [if_neg e1]
        by_cases e0 : ler t l j = 0
        · rw [if_pos e0]
          refine ⟨h1, ?_, by simpa using hle, ?_⟩
          · intro i hi
            rcases Nat.lt_succ_iff_lt_or_eq.mp hi with hlt | heq
            · exact hne i hlt
            · rw [heq]; exact e1
          · simp only []
            constructor
            · intro h i hi
              rcases Nat.lt_succ_iff_lt_or_eq.mp hi with hlt | heq
              · exact (hiff.mp (by omega)) i hlt
              · rw [heq]; exact e0
            · intro h
              have := hiff.mpr (fun i hi => h i (by omega))
              omega
        · rw [if_neg e0]
          refine ⟨h1, ?_, by omega, ?_⟩
          · intro i hi
            rcases Nat.lt_succ_iff_lt_or_eq.mp hi with hlt | heq
            · exact hne i hlt
            · rw [heq]; exact e1
          · constructor
            · intro h; omega
            · intro h; exact absurd (h l (Nat.lt_succ_self l)) e0
    · by_cases e1 : ler t l j = 1
      · right; right
        rw [if_pos e1]
        refine ⟨by simp [h1], k, l, by omega, Nat.lt_succ_self l, by omega, hak, e1⟩
      · right; left
        rw [if_neg e1]
        by_cases e0 : ler t l j = 0
        · rw [if_pos e0]
          refine ⟨h1, k, by omega, hlb, hak, ?_, by simpa using hle, ?_⟩
          · intro i hi hik
            rcases Nat.lt_succ_iff_lt_or_eq.mp hi with hlt | heq
            · exact hne i hlt hik
            · rw [heq]; exact e1
          · simp only []
            constructor
            · intro h i hi hik
              rcases Nat.lt_succ_iff_lt_or_eq.mp hi with hlt | heq
              · exact (hiff.mp (by omega)) i hlt hik
              · rw [heq]; exact e0
            · intro h
              have := hiff.mpr (fun i hi hik => h i (by omega) hik)
              omega
        · rw [if_neg e0]
          refine ⟨h1, k, by omega, hlb, hak, ?_, by omega, ?_⟩
          · intro i hi hik
            rcases Nat.lt_succ_iff_lt_or_eq.mp hi with hlt | heq
            · exact hne i hlt hik
            · rw [heq]; exact e1
          · constructor
            · intro h; omega
            · intro h; exact absurd (h l (Nat.lt_succ_self l) (by omega)) e0
    · right; right
      refine ⟨?_, k1, k2, by omega, by omega, hk12, ha1, ha2⟩
      by_cases e1 : ler t l j = 1
      · rw [if_pos e1]; simp only []; omega
      · rw [if_neg e1]
        by_cases e0 : ler t l j = 0
        · rw [if_pos e0]; exact h1
        · rw [if_neg e0]; exact h1

/-- The test `count_one == 1 && count_zero == linhas - 1` of `extrair_solucao`
holds exactly on unit columns, and then `linha_base` is the row of the 1. -/
theorem contar_coluna_basica (t : Tabela) (linhas j : Nat) :
    (((Main.contar_coluna t linhas j).1 = 1 ∧
        ((Main.contar_coluna t linhas j).2.1 : Int) = (linhas : Int) - 1) ↔
      ∃ i, ColunaBasica t linhas j i) ∧
    ∀ i, ColunaBasica t linhas j i → (Main.contar_coluna t linhas j).2.2 = (i : Int) := by
  rcases contar_coluna_inv t j linhas with ⟨h1, hne, hle, hiff⟩ |
      ⟨h1, k, hk, hlb, hak, hne, hle, hiff⟩ | ⟨h1, k1, k2, hk1, hk2, hk12, ha1, ha2⟩
  · constructor
    · constructor
      · intro h; omega
      · rintro ⟨i, hi, hai, _⟩
        exact absurd hai (hne i hi)
    · rintro i ⟨hi, hai, _⟩
      exact absurd hai (hne i hi)
  · have key : ∀ i, ColunaBasica t linhas j i → i = k := by
      rintro i ⟨hi, hai, hz⟩
      by_contra hik
      have := hz k hk (fun h => hik h.symm)
      rw [hak] at this
      exact one_ne_zero this
    constructor
    · constructor
      · intro h
        exact ⟨k, hk, hak, hiff.mp (by omega)⟩
      · rintro ⟨i, hb⟩
        have hik := key i hb
        subst hik
        refine ⟨h1, ?_⟩
        have := hiff.mpr hb.2.2
        omega
    · intro i hb
      rw [key i hb]
      exact hlb
  · have key : ∀ i, ¬ ColunaBasica t linhas j i := by
      rintro i ⟨hi, hai, hz⟩
      by_cases h : k1 = i
      · have := hz k2 hk2 (fun h2 => hk12 (h.trans h2.symm))
        rw [ha2] at this
        exact one_ne_zero this
      · have := hz k1 hk1 h
        rw [ha1] at this
        exact one_ne_zero this
    constructor
    · constructor
      · intro h; omega
      · rintro ⟨i, hb⟩
        exact absurd hb (key i)
    · intro i hb
      exact absurd hb (key i)

/-- The shipment vector `extrair_solucao` builds, entry by entry. -/
theorem extrair_valores (t : Tabela) (linhas colunas m n : Nat) :
    (Main.extrair_solucao t linhas colunas m n).1.length = m * n ∧
    ∀ j, (Main.extrair_solucao t linhas colunas m n).1.getD j 0 =
      if j < m * n ∧ ((Main.contar_coluna t linhas j).1 = 1 ∧
          ((Main.contar_coluna t linhas j).2.1 : Int) = (linhas : Int) - 1)
      then ler t (Main.contar_coluna t linhas j).2.2.toNat (colunas - 1) else 0 := by
  unfold Main.extrair_solucao
  simp only []
  refine foldl_range_inv
    (fun l (vs : List ℚ) => vs.length = m * n ∧
      ∀ j, vs.getD j 0 =
        if j < l ∧ ((Main.contar_coluna t linhas j).1 = 1 ∧
            ((Main.contar_coluna t linhas j).2.1 : Int) = (linhas : Int) - 1)
        then ler t (Main.contar_coluna t linhas j).2.2.toNat (colunas - 1) else 0)
    _ _ (m * n) ⟨by simp, fun j => ?_⟩ ?_
  · rw [if_neg (fun h => Nat.not_lt_zero j h.1)]
    simp only [List.getD_eq_getElem?_getD, List.getElem?_replicate]
    by_cases hj : j < m * n
    · simp [hj]
    · simp [hj]
  · intro l hl vs hvs
    by_cases hc : (Main.contar_coluna t linhas l).1 = 1 ∧
        ((Main.contar_coluna t linhas l).2.1 : Int) = (linhas : Int) - 1
    · rw [if_pos hc]
      refine ⟨by rw [List.length_set]; exact hvs.1, fun j => ?_⟩
      rw [getD_set_aux, hvs.2 j]
      by_cases hjl : j = l
      · subst hjl
        rw [if_pos ⟨rfl, by rw [hvs.1]; exact hl⟩, if_pos ⟨Nat.lt_succ_self j, hc⟩]
      · rw [if_neg (fun h => hjl h.1)]
        by_cases h2 : j < l ∧ ((Main.contar_coluna t linhas j).1 = 1 ∧
            ((Main.contar_coluna t linhas j).2.1 : Int) = (linhas : Int) - 1)
        · rw [if_pos h2, if_pos ⟨by omega, h2.2⟩]
        · rw [if_neg h2, if_neg (fun h3 => h2 ⟨by omega, h3.2⟩)]
    · rw [if_neg hc]
      refine ⟨hvs.1, fun j => ?_⟩
      rw [hvs.2 j]
      by_cases h2 : j < l ∧ ((Main.contar_coluna t linhas j).1 = 1 ∧
          ((Main.contar_coluna t linhas j).2.1 : Int) = (linhas : Int) - 1)
      · rw [if_pos h2, if_pos ⟨by omega, h2.2⟩]
      · rw [if_neg h2, if_neg (fun h3 => by
          rcases Nat.lt_succ_iff_lt_or_eq.mp h3.1 with hlt | heq
          · exact h2 ⟨hlt, h3.2⟩
          · rw [heq] at h3; exact hc h3.2)]
/-! ## The capped driver -/

/-- Bounds on what the loop of `simplex` returns and on its pivots. -/
theorem simplex_laco_limites (linhas colunas : Nat) (restantes : Nat) :
    ∀ (tabela : Tabela) (iteracao pivos : Nat),
    (Benchmark.simplex_laco linhas colunas restantes tabela iteracao pivos).pivos
      ≤ pivos + restantes ∧
    ((Benchmark.simplex_laco linhas colunas restantes tabela iteracao pivos).retorno = -1 ∨
      ((iteracao : Int)
          ≤ (Benchmark.simplex_laco linhas colunas restantes tabela iteracao pivos).retorno ∧
        (Benchmark.simplex_laco linhas colunas restantes tabela iteracao pivos).retorno
          ≤ (iteracao : Int) + (restantes : Int))) := by
  induction restantes with
  | zero =>
    intro tabela iteracao pivos
    simp [Benchmark.simplex_laco]
  | succ k ih =>
    intro tabela iteracao pivos
    unfold Benchmark.simplex_laco
    simp only []
    by_cases h1 : Benchmark.encontrar_coluna_pivo tabela linhas colunas = -1
    · rw [if_pos h1]
      refine ⟨by simp, Or.inr ⟨?_, ?_⟩⟩
      · push_cast; omega
      · push_cast; omega
    · rw [if_neg h1]
      by_cases h2 : Benchmark.encontrar_linha_pivo tabela linhas colunas
          (Benchmark.encontrar_coluna_pivo tabela linhas colunas).toNat = -1
      · rw [if_pos h2]
        exact ⟨by simp, Or.inl rfl⟩
      · rw [if_neg h2]
        have h := ih (Benchmark.pivotear tabela linhas colunas
          (Benchmark.encontrar_linha_pivo tabela linhas colunas
            (Benchmark.encontrar_coluna_pivo tabela linhas colunas).toNat).toNat
          (Benchmark.encontrar_coluna_pivo tabela linhas colunas).toNat) (iteracao + 1) (pivos + 1)
        refine ⟨by omega, ?_⟩
        rcases h.2 with h3 | ⟨h3, h4⟩
        · exact Or.inl h3
        · refine Or.inr ⟨?_, ?_⟩
          · push_cast at h3; omega
          · push_cast at h4 ⊢; omega

/-! ## One simplex step -/

/-- The residual of every row after `pivotear`. -/
theorem residuo_pivotear (t : Tabela) (linhas colunas r c : Nat) (v : Nat → ℚ)
    (hd : Dim t linhas colunas) (hr : r < linhas) (hC : 0 < colunas)
    (i : Nat) (hi : i < linhas) :
    residuo (Benchmark.pivotear t linhas colunas r c) colunas i v =
      if i = r then residuo t colunas r v / ler t r c
      else residuo t colunas i v - ler t i c * (residuo t colunas r v / ler t r c) := by
  obtain ⟨_, h1⟩ := pivotear_forma t linhas colunas r c hd hr
  unfold residuo
  have hsum : ∑ j ∈ Finset.range (colunas - 1),
        ler (Benchmark.pivotear t linhas colunas r c) i j * v j
      = ∑ j ∈ Finset.range (colunas - 1),
        (if i = r then ler t r j / ler t r c
          else ler t i j - ler t i c * (ler t r j / ler t r c)) * v j := by
    apply Finset.sum_congr rfl
    intro j hj
    rw [h1 i j hi (by have := Finset.mem_range.mp hj; omega)]
  rw [hsum, h1 i (colunas - 1) hi (by omega)]
  by_cases hir : i = r
  · simp only [if_pos hir]
    rw [sub_div, Finset.sum_div]
    congr 1
    apply Finset.sum_congr rfl
    intro j _
    ring
  · simp only [if_neg hir]
    rw [sub_div, Finset.sum_div, mul_sub, Finset.mul_sum]
    have : ∀ j, (ler t i j - ler t i c * (ler t r j / ler t r c)) * v j
        = ler t i j * v j - ler t i c * (ler t r j * v j / ler t r c) := fun j => by ring
    simp only [this, Finset.sum_sub_distrib]
    ring

/-- The pivot keeps the solutions of the constraint rows. -/
theorem solucao_pivotear (t : Tabela) (linhas colunas r c : Nat) (v : Nat → ℚ)
    (hd : Dim t linhas colunas) (hr : r < linhas - 1) (hC : 0 < colunas)
    (hp : ler t r c ≠ 0) :
    Solucao (Benchmark.pivotear t linhas colunas r c) linhas colunas v ↔
      Solucao t linhas colunas v := by
  have hrl : r < linhas := by omega
  constructor
  · intro h
    have hrr : residuo t colunas r v = 0 := by
      have := h r hr
      rw [residuo_pivotear t linhas colunas r c v hd hrl hC r hrl, if_pos rfl] at this
      rcases div_eq_zero_iff.mp this with h0 | h0
      · exact h0
      · exact absurd h0 hp
    intro i hi
    have := h i hi
    rw [residuo_pivotear t linhas colunas r c v hd hrl hC i (by omega)] at this
    by_cases hir : i = r
    · rw [hir]; exact hrr
    · rw [if_neg hir, hrr] at this
      simpa using this
  · intro h i hi
    rw [residuo_pivotear t linhas colunas r c v hd hrl hC i (by omega)]
    by_cases hir : i = r
    · rw [if_pos hir, h r hr]; simp
    · rw [if_neg hir, h r hr, h i hi]; simp

/-- The pivot keeps the value of the last row on the solutions. -/
theorem objetivo_pivotear (t : Tabela) (linhas colunas r c : Nat) (v : Nat → ℚ)
    (hd : Dim t linhas colunas) (hr : r < linhas - 1) (hC : 0 < colunas)
    (hs : Solucao t linhas colunas v) :
    residuo (Benchmark.pivotear t linhas colunas r c) colunas (linhas - 1) v =
      residuo t colunas (linhas - 1) v := by
  rw [residuo_pivotear t linhas colunas r c v hd (by omega) hC (linhas - 1) (by omega),
    if_neg (by omega), hs r hr]
  simp

/-- The pivot keeps a unit column for every constraint row: the entering
column becomes the unit column of the pivot row. -/
theorem base_pivotear (t : Tabela) (linhas colunas r c : Nat) (β : Nat → Nat)
    (hd : Dim t linhas colunas) (hr : r < linhas - 1) (hc : c < colunas - 1)
    (hp : ler t r c ≠ 0) (hb : Base t linhas colunas β) :
    Base (Benchmark.pivotear t linhas colunas r c) linhas colunas (Function.update β r c) := by
  obtain ⟨_, h1⟩ := pivotear_forma t linhas colunas r c hd (by omega)
  intro r2 hr2
  by_cases h : r2 = r
  · subst h
    rw [Function.update_same]
    refine ⟨hc, fun i hi => ?_⟩
    rw [h1 i c hi (by omega)]
    by_cases hir : i = r2
    · rw [if_pos hir, if_pos hir, div_self hp]
    · rw [if_neg hir, if_neg hir, div_self hp, mul_one, sub_self]
  · rw [Function.update_noteq h]
    obtain ⟨hb1, hb2⟩ := hb r2 hr2
    refine ⟨hb1, fun i hi => ?_⟩
    have hz : ler t r (β r2) = 0 := by
      rw [hb2 r (by omega), if_neg (fun e => h e.symm)]
    rw [h1 i (β r2) hi (by omega), hz]
    by_cases hir : i = r
    · rw [if_pos hir, zero_div, if_neg (by rw [hir]; exact fun e => h e.symm)]
    · rw [if_neg hir, zero_div, mul_zero, sub_zero, hb2 i hi]

/-- The ratio test keeps the last entries of the constraint rows non-negative. -/
theorem viavel_pivotear (t : Tabela) (linhas colunas r c : Nat)
    (hd : Dim t linhas colunas) (hr : r < linhas - 1) (hC : 0 < colunas)
    (hp : 0 < ler t r c) (hv : Viavel t linhas colunas)
    (hmin : ∀ i, i < linhas - 1 → 0 < ler t i c →
      ler t r (colunas - 1) / ler t r c ≤ ler t i (colunas - 1) / ler t i c) :
    Viavel (Benchmark.pivotear t linhas colunas r c) linhas colunas := by
  obtain ⟨_, h1⟩ := pivotear_forma t linhas colunas r c hd (by omega)
  intro i hi
  rw [h1 i (colunas - 1) (by omega) (by omega)]
  have hq : 0 ≤ ler t r (colunas - 1) / ler t r c := div_nonneg (hv r hr) (le_of_lt hp)
  by_cases hir : i = r
  · rw [if_pos hir]; exact hq
  · rw [if_neg hir]
    by_cases hpos : 0 < ler t i c
    · have := hmin i hi hpos
      have h2 : ler t i c * (ler t r (colunas - 1) / ler t r c) ≤ ler t i (colunas - 1) := by
        have := mul_le_mul_of_nonneg_left this (le_of_lt hpos)
        rwa [mul_div_cancel₀ _ (ne_of_gt hpos)] at this
      linarith
    · have h2 : ler t i c * (ler t r (colunas - 1) / ler t r c) ≤ 0 :=
        mul_nonpos_of_nonpos_of_nonneg (not_lt.mp hpos) hq
      have := hv i hi
      linarith

/-- One round of the simplex loop keeps the invariant: the tableau after the
pivot on the column and the row the two selection functions return. -/
theorem invariante_passo (t0 t : Tabela) (linhas colunas : Nat) (hC : 0 < colunas)
    (hinv : Invariante t0 t linhas colunas)
    (hcol : Benchmark.encontrar_coluna_pivo t linhas colunas ≠ -1)
    (hlin : Benchmark.encontrar_linha_pivo t linhas colunas
      (Benchmark.encontrar_coluna_pivo t linhas colunas).toNat ≠ -1) :
    Invariante t0
      (Benchmark.pivotear t linhas colunas
        (Benchmark.encontrar_linha_pivo t linhas colunas
          (Benchmark.encontrar_coluna_pivo t linhas colunas).toNat).toNat
        (Benchmark.encontrar_coluna_pivo t linhas colunas).toNat)
      linhas colunas := by
  obtain ⟨hd, hsol, hobj, ⟨β, hb⟩, hv⟩ := hinv
  rcases encontrar_coluna_pivo_casos t linhas colunas with ⟨h, _⟩ | ⟨c, hc, hce, _, _, _⟩
  · exact absurd h hcol
  rw [hce, Int.toNat_ofNat] at hlin ⊢
  rcases encontrar_linha_pivo_casos t linhas colunas c with
    ⟨h, _⟩ | ⟨r, hr, hre, hpos, _, hmin, _⟩
  · exact absurd h hlin
  rw [hre, Int.toNat_ofNat]
  have hp : ler t r c ≠ 0 := ne_of_gt hpos
  refine ⟨(pivotear_forma t linhas colunas r c hd (by omega)).1, ?_, ?_, ?_, ?_⟩
  · intro v
    rw [solucao_pivotear t linhas colunas r c v hd hr hC hp]
    exact hsol v
  · intro v hs
    have hs2 := (solucao_pivotear t linhas colunas r c v hd hr hC hp).mp hs
    rw [objetivo_pivotear t linhas colunas r c v hd hr hC hs2]
    exact hobj v hs2
  · exact ⟨_, base_pivotear t linhas colunas r c β hd hr hc hp hb⟩
  · exact viavel_pivotear t linhas colunas r c hd hr hC hpos hv hmin

/-- When the uncapped driver stops on "no entering column", the invariant
holds of the tableau it leaves and the last row has no negative entry before
the last column. -/
theorem simplex_main_invariante (t0 : Tabela) (linhas colunas : Nat) (hC : 0 < colunas)
    (rodadas : Nat) :
    ∀ (t tf : Tabela), Invariante t0 t linhas colunas →
      Main.simplex linhas colunas rodadas t = some (tf, Main.Parada.otima) →
      Invariante t0 tf linhas colunas ∧ ∀ j, j < colunas - 1 → 0 ≤ ler tf (linhas - 1) j := by
  induction rodadas with
  | zero =>
    intro t tf _ h
    simp [Main.simplex] at h
  | succ k ih =>
    intro t tf hinv h
    unfold Main.simplex at h
    simp only [] at h
    rw [encontrar_main_eq.1, encontrar_main_eq.2.1, encontrar_main_eq.2.2] at h
    by_cases h1 : Benchmark.encontrar_coluna_pivo t linhas colunas = -1
    · rw [if_pos h1] at h
      have htf : t = tf := by
        have := Option.some.inj h
        exact congrArg Prod.fst this
      subst htf
      refine ⟨hinv, fun j hj => ?_⟩
      rcases encontrar_coluna_pivo_casos t linhas colunas with ⟨_, hall⟩ | ⟨c, _, hce, _, _, _⟩
      · exact not_lt.mp (hall j hj)
      · rw [hce] at h1
        omega
    · rw [if_neg h1] at h
      by_cases h2 : Benchmark.encontrar_linha_pivo t linhas colunas
          (Benchmark.encontrar_coluna_pivo t linhas colunas).toNat = -1
      · rw [if_pos h2] at h
        have := Option.some.inj h
        have := congrArg Prod.snd this
        simp at this
      · rw [if_neg h2] at h
        exact ih _ tf (invariante_passo t0 t linhas colunas hC hinv h1 h2) h

/-! ## The entries and the rows of the transportation tableau -/

theorem es_x_oferta (oferta demanda : Nat → Int) (custos : Nat → Nat → Int) (m n : Nat)
    {i i2 j : Nat} (hi : i < m) (hi2 : i2 < m) (hj : j < n) :
    entrada_spec oferta demanda custos m n i (i2 * n + j) = if i2 = i then 1 else 0 := by
  have h1 := idx_lt hi2 hj
  have h2 := (div_mod_unique n i2 j _ hj).mp rfl
  rw [entrada_spec_oferta _ _ _ _ _ _ _ hi, if_pos h1, h2.1]

theorem es_x_demanda (oferta demanda : Nat → Int) (custos : Nat → Nat → Int) (m n : Nat)
    {j i2 j2 : Nat} (hj : j < n) (hi2 : i2 < m) (hj2 : j2 < n) :
    entrada_spec oferta demanda custos m n (m + j) (i2 * n + j2) = if j2 = j then 1 else 0 := by
  have h1 := idx_lt hi2 hj2
  have h2 := (div_mod_unique n i2 j2 _ hj2).mp rfl
  rw [entrada_spec_demanda _ _ _ _ _ _ _ (by omega) (by omega), if_pos h1, h2.2,
    Nat.add_sub_cancel_left]

theorem es_x_objetivo (oferta demanda : Nat → Int) (custos : Nat → Nat → Int) (m n : Nat)
    {i2 j2 : Nat} (hi2 : i2 < m) (hj2 : j2 < n) :
    entrada_spec oferta demanda custos m n (m + n) (i2 * n + j2) = -(custos i2 j2 : ℚ) := by
  have h1 := idx_lt hi2 hj2
  have h2 := (div_mod_unique n i2 j2 _ hj2).mp rfl
  rw [entrada_spec_objetivo, if_pos h1, h2.1, h2.2]

theorem es_aux (oferta demanda : Nat → Int) (custos : Nat → Nat → Int) (m n : Nat)
    {r k : Nat} (hr : r < m + n) (hk : k < m + n) :
    entrada_spec oferta demanda custos m n r (m * n + k) = if k = r then 1 else 0 := by
  by_cases h1 : r < m
  · rw [entrada_spec_oferta _ _ _ _ _ _ _ h1, if_neg (by omega)]
    by_cases h : k = r
    · rw [if_pos (by omega), if_pos h]
    · rw [if_neg (by omega), if_neg (by omega), if_neg h]
  · rw [entrada_spec_demanda _ _ _ _ _ _ _ (by omega) hr, if_neg (by omega)]
    by_cases h : k = r
    · rw [if_pos (by omega), if_pos h]
    · rw [if_neg (by omega), if_neg (by omega), if_neg h]

theorem es_aux_objetivo (oferta demanda : Nat → Int) (custos : Nat → Nat → Int) (m n : Nat)
    (k : Nat) :
    entrada_spec oferta demanda custos m n (m + n) (m * n + k) = 0 := by
  rw [entrada_spec_objetivo, if_neg (by omega)]

theorem es_rhs_oferta (oferta demanda : Nat → Int) (custos : Nat → Nat → Int) (m n : Nat)
    {i : Nat} (hi : i < m) :
    entrada_spec oferta demanda custos m n i (m * n + (m + n)) = (oferta i : ℚ) := by
  rw [entrada_spec_oferta _ _ _ _ _ _ _ hi, if_neg (by omega), if_neg (by omega),
    if_pos (by omega)]

theorem es_rhs_demanda (oferta demanda : Nat → Int) (custos : Nat → Nat → Int) (m n : Nat)
    {j : Nat} (hj : j < n) :
    entrada_spec oferta demanda custos m n (m + j) (m * n + (m + n)) = (demanda j : ℚ) := by
  rw [entrada_spec_demanda _ _ _ _ _ _ _ (by omega) (by omega), if_neg (by omega),
    if_neg (by omega), if_pos (by omega), Nat.add_sub_cancel_left]

/-- A sum over the `m*n` shipment columns, row by row. -/
theorem sum_colunas_envio (f : Nat → ℚ) (m n : Nat) :
    ∑ c ∈ Finset.range (m * n), f c
      = ∑ i ∈ Finset.range m, ∑ j ∈ Finset.range n, f (i * n + j) := by
  induction m with
  | zero => simp
  | succ m ih =>
    rw [Nat.succ_mul, Finset.sum_range_add, ih, Finset.sum_range_succ]

/-- A sum over all columns before the last: the shipment columns, then the
`m + n` auxiliary columns. -/
theorem sum_colunas (f : Nat → ℚ) (m n : Nat) :
    ∑ c ∈ Finset.range (m * n + (m + n)), f c
      = (∑ i ∈ Finset.range m, ∑ j ∈ Finset.range n, f (i * n + j))
        + ∑ k ∈ Finset.range (m + n), f (m * n + k) := by
  rw [Finset.sum_range_add, sum_colunas_envio]

/-- The residual of a constraint row or of the last row of a tableau whose
entries are those of `entrada_spec`, split over shipment and auxiliary
columns. -/
theorem residuo_divide (t0 : Tabela) (m n r : Nat) (v : Nat → ℚ) :
    residuo t0 (m * n + m + n + 1) r v
      = (∑ i ∈ Finset.range m, ∑ j ∈ Finset.range n, ler t0 r (i * n + j) * v (i * n + j))
        + (∑ k ∈ Finset.range (m + n), ler t0 r (m * n + k) * v (m * n + k))
        - ler t0 r (m * n + (m + n)) := by
  unfold residuo
  rw [Nat.add_sub_cancel, Nat.add_assoc, sum_colunas]

theorem residuo_oferta (oferta demanda : Nat → Int) (custos : Nat → Nat → Int) (m n : Nat)
    (t0 : Tabela) (ht0 : ∀ r c, ler t0 r c = entrada_spec oferta demanda custos m n r c)
    (v : Nat → ℚ) {i : Nat} (hi : i < m) :
    residuo t0 (m * n + m + n + 1) i v
      = (∑ j ∈ Finset.range n, v (i * n + j)) + v (m * n + i) - (oferta i : ℚ) := by
  rw [residuo_divide, ht0, es_rhs_oferta _ _ _ _ _ hi]
  have h1 : ∑ i2 ∈ Finset.range m, ∑ j ∈ Finset.range n, ler t0 i (i2 * n + j) * v (i2 * n + j)
      = ∑ i2 ∈ Finset.range m, if i2 = i then ∑ j ∈ Finset.range n, v (i2 * n + j) else 0 := by
    apply Finset.sum_congr rfl
    intro i2 hi2
    have hi2 := Finset.mem_range.mp hi2
    by_cases h : i2 = i
    · rw [if_pos h]
      apply Finset.sum_congr rfl
      intro j hj
      rw [ht0, es_x_oferta _ _ _ _ _ hi hi2 (Finset.mem_range.mp hj), if_pos h, one_mul]
    · rw [if_neg h]
      apply Finset.sum_eq_zero
      intro j hj
      rw [ht0, es_x_oferta _ _ _ _ _ hi hi2 (Finset.mem_range.mp hj), if_neg h, zero_mul]
  have h2 : ∑ k ∈ Finset.range (m + n), ler t0 i (m * n + k) * v (m * n + k)
      = ∑ k ∈ Finset.range (m + n), if k = i then v (m * n + k) else 0 := by
    apply Finset.sum_congr rfl
    intro k hk
    rw [ht0, es_aux _ _ _ _ _ (by omega) (Finset.mem_range.mp hk)]
    by_cases h : k = i
    · rw [if_pos h, if_pos h, one_mul]
    · rw [if_neg h, if_neg h, zero_mul]
  rw [h1, h2, Finset.sum_ite_eq', Finset.sum_ite_eq', if_pos (Finset.mem_range.mpr hi),
    if_pos (Finset.mem_range.mpr (by omega))]

theorem residuo_demanda (oferta demanda : Nat → Int) (custos : Nat → Nat → Int) (m n : Nat)
    (t0 : Tabela) (ht0 : ∀ r c, ler t0 r c = entrada_spec oferta demanda custos m n r c)
    (v : Nat → ℚ) {j : Nat} (hj : j < n) :
    residuo t0 (m * n + m + n + 1) (m + j) v
      = (∑ i ∈ Finset.range m, v (i * n + j)) + v (m * n + (m + j)) - (demanda j : ℚ) := by
  rw [residuo_divide, ht0, es_rhs_demanda _ _ _ _ _ hj]
  have h1 : ∑ i2 ∈ Finset.range m, ∑ j2 ∈ Finset.range n,
        ler t0 (m + j) (i2 * n + j2) * v (i2 * n + j2)
      = ∑ i2 ∈ Finset.range m, v (i2 * n + j) := by
    apply Finset.sum_congr rfl
    intro i2 hi2
    have hi2 := Finset.mem_range.mp hi2
    have : ∀ j2 ∈ Finset.range n, ler t0 (m + j) (i2 * n + j2) * v (i2 * n + j2)
        = if j2 = j then v (i2 * n + j2) else 0 := by
      intro j2 hj2
      rw [ht0, es_x_demanda _ _ _ _ _ hj hi2 (Finset.mem_range.mp hj2)]
      by_cases h : j2 = j
      · rw [if_pos h, if_pos h, one_mul]
      · rw [if_neg h, if_neg h, zero_mul]
    rw [Finset.sum_congr rfl this, Finset.sum_ite_eq', if_pos (Finset.mem_range.mpr hj)]
  have h2 : ∑ k ∈ Finset.range (m + n), ler t0 (m + j) (m * n + k) * v (m * n + k)
      = ∑ k ∈ Finset.range (m + n), if k = m + j then v (m * n + k) else 0 := by
    apply Finset.sum_congr rfl
    intro k hk
    rw [ht0, es_aux _ _ _ _ _ (by omega) (Finset.mem_range.mp hk)]
    by_cases h : k = m + j
    · rw [if_pos h, if_pos h, one_mul]
    · rw [if_neg h, if_neg h, zero_mul]
  rw [h1, h2, Finset.sum_ite_eq', if_pos (Finset.mem_range.mpr (by omega))]

theorem residuo_objetivo (oferta demanda : Nat → Int) (custos : Nat → Nat → Int) (m n : Nat)
    (t0 : Tabela) (ht0 : ∀ r c, ler t0 r c = entrada_spec oferta demanda custos m n r c)
    (v : Nat → ℚ) :
    residuo t0 (m * n + m + n + 1) (m + n) v
      = -(∑ i ∈ Finset.range m, ∑ j ∈ Finset.range n, (custos i j : ℚ) * v (i * n + j)) := by
  rw [residuo_divide, ht0, es_aux_objetivo, sub_zero]
  have h1 : ∑ i2 ∈ Finset.range m, ∑ j2 ∈ Finset.range n,
        ler t0 (m + n) (i2 * n + j2) * v (i2 * n + j2)
      = ∑ i2 ∈ Finset.range m, ∑ j2 ∈ Finset.range n, -((custos i2 j2 : ℚ) * v (i2 * n + j2)) := by
    apply Finset.sum_congr rfl
    intro i2 hi2
    apply Finset.sum_congr rfl
    intro j2 hj2
    rw [ht0, es_x_objetivo _ _ _ _ _ (Finset.mem_range.mp hi2) (Finset.mem_range.mp hj2), neg_mul]
  have h2 : ∑ k ∈ Finset.range (m + n), ler t0 (m + n) (m * n + k) * v (m * n + k) = 0 := by
    apply Finset.sum_eq_zero
    intro k _
    rw [ht0, es_aux_objetivo, zero_mul]
  rw [h1, h2, add_zero]
  simp only [Finset.sum_neg_distrib]

/-! ## The basic solution -/

theorem invariante_inicial (oferta demanda : Nat → Int) (custos : Nat → Nat → Int) (m n : Nat)
    (t0 : Tabela) (hd : Dim t0 (m + n + 1) (m * n + m + n + 1))
    (ht0 : ∀ r c, ler t0 r c = entrada_spec oferta demanda custos m n r c)
    (hof : ∀ i, i < m → 0 ≤ oferta i) (hde : ∀ j, j < n → 0 ≤ demanda j) :
    Invariante t0 t0 (m + n + 1) (m * n + m + n + 1) := by
  refine ⟨hd, fun v => Iff.rfl, fun v _ => rfl, ⟨fun r => m * n + r, ?_⟩, ?_⟩
  · intro r hr
    rw [Nat.add_sub_cancel] at hr
    refine ⟨show m * n + r < m * n + m + n + 1 - 1 by omega, fun i hi => ?_⟩
    show ler t0 i (m * n + r) = _
    rw [ht0]
    by_cases hi2 : i < m + n
    · rw [es_aux _ _ _ _ _ hi2 hr]
      by_cases h : r = i
      · rw [if_pos h, if_pos h.symm]
      · rw [if_neg h, if_neg (fun e => h e.symm)]
    · have : i = m + n := by omega
      rw [this, es_aux_objetivo, if_neg (by omega)]
  · intro r hr
    rw [Nat.add_sub_cancel] at hr
    rw [Nat.add_sub_cancel, Nat.add_assoc, ht0]
    by_cases h1 : r < m
    · rw [es_rhs_oferta _ _ _ _ _ h1]
      exact_mod_cast hof r h1
    · have hr2 : r = m + (r - m) := by omega
      rw [hr2, es_rhs_demanda _ _ _ _ _ (show r - m < n by omega)]
      exact_mod_cast hde (r - m) (by omega)

theorem sb_nonneg (t : Tabela) (linhas colunas : Nat) (β : Nat → Nat)
    (hv : Viavel t linhas colunas) (j : Nat) :
    0 ≤ solucao_basica t linhas colunas β j := by
  unfold solucao_basica
  apply Finset.sum_nonneg
  intro r hr
  by_cases h : β r = j
  · rw [if_pos h]; exact hv r (Finset.mem_range.mp hr)
  · rw [if_neg h]

/-- A row of the tableau applied to the basic solution. -/
theorem sb_prod (t : Tabela) (linhas colunas : Nat) (β : Nat → Nat)
    (hb : Base t linhas colunas β) {i : Nat} (hi : i < linhas) :
    ∑ j ∈ Finset.range (colunas - 1), ler t i j * solucao_basica t linhas colunas β j
      = if i < linhas - 1 then ler t i (colunas - 1) else 0 := by
  unfold solucao_basica
  simp only [Finset.mul_sum]
  rw [Finset.sum_comm]
  have h1 : ∀ r ∈ Finset.range (linhas - 1),
      ∑ j ∈ Finset.range (colunas - 1),
        ler t i j * (if β r = j then ler t r (colunas - 1) else 0)
      = if r = i then ler t r (colunas - 1) else 0 := by
    intro r hr
    have hr := Finset.mem_range.mp hr
    obtain ⟨hb1, hb2⟩ := hb r hr
    have : ∀ j ∈ Finset.range (colunas - 1),
        ler t i j * (if β r = j then ler t r (colunas - 1) else 0)
        = if β r = j then ler t i (β r) * ler t r (colunas - 1) else 0 := by
      intro j _
      by_cases h : β r = j
      · rw [if_pos h, if_pos h, h]
      · rw [if_neg h, if_neg h, mul_zero]
    rw [Finset.sum_congr rfl this, Finset.sum_ite_eq, if_pos (Finset.mem_range.mpr hb1),
      hb2 i hi]
    by_cases h : i = r
    · rw [if_pos h, if_pos h.symm, one_mul]
    · rw [if_neg h, if_neg (fun e => h e.symm), zero_mul]
  rw [Finset.sum_congr rfl h1, Finset.sum_ite_eq']
  simp only [Finset.mem_range]

theorem sb_solucao (t : Tabela) (linhas colunas : Nat) (β : Nat → Nat)
    (hb : Base t linhas colunas β) :
    Solucao t linhas colunas (solucao_basica t linhas colunas β) := by
  intro i hi
  unfold residuo
  rw [sb_prod t linhas colunas β hb (by omega), if_pos hi, sub_self]

theorem sb_objetivo (t : Tabela) (linhas colunas : Nat) (β : Nat → Nat)
    (hb : Base t linhas colunas β) (hL : 0 < linhas) :
    residuo t colunas (linhas - 1) (solucao_basica t linhas colunas β)
      = -(ler t (linhas - 1) (colunas - 1)) := by
  unfold residuo
  rw [sb_prod t linhas colunas β hb (by omega), if_neg (Nat.lt_irrefl _), zero_sub]

theorem base_injetiva (t : Tabela) (linhas colunas : Nat) (β : Nat → Nat)
    (hb : Base t linhas colunas β) {r r2 : Nat} (hr : r < linhas - 1) (hr2 : r2 < linhas - 1)
    (h : β r = β r2) : r = r2 := by
  have h1 := (hb r hr).2 r (by omega)
  have h2 := (hb r2 hr2).2 r (by omega)
  rw [if_pos rfl] at h1
  rw [← h, h1] at h2
  by_contra hne
  rw [if_neg hne] at h2
  exact one_ne_zero h2

/-- The basic solution at a unit column `β r` is the last entry of row `r`. -/
theorem sb_base (t : Tabela) (linhas colunas : Nat) (β : Nat → Nat)
    (hb : Base t linhas colunas β) {r : Nat} (hr : r < linhas - 1) :
    solucao_basica t linhas colunas β (β r) = ler t r (colunas - 1) := by
  unfold solucao_basica
  have : ∀ r2 ∈ Finset.range (linhas - 1),
      (if β r2 = β r then ler t r2 (colunas - 1) else 0)
      = if r2 = r then ler t r2 (colunas - 1) else 0 := by
    intro r2 hr2
    by_cases h : r2 = r
    · rw [if_pos h, if_pos (by rw [h])]
    · rw [if_neg h, if_neg (fun e => h (base_injetiva t linhas colunas β hb
        (Finset.mem_range.mp hr2) hr e))]
  rw [Finset.sum_congr rfl this, Finset.sum_ite_eq', if_pos (Finset.mem_range.mpr hr)]

/-- The basic solution is 0 at a column that is no `β r`. -/
theorem sb_fora (t : Tabela) (linhas colunas : Nat) (β : Nat → Nat) {j : Nat}
    (h : ∀ r, r < linhas - 1 → β r ≠ j) :
    solucao_basica t linhas colunas β j = 0 := by
  unfold solucao_basica
  apply Finset.sum_eq_zero
  intro r hr
  rw [if_neg (h r (Finset.mem_range.mp hr))]

theorem residuo_add (t : Tabela) (colunas i : Nat) (v d : Nat → ℚ) :
    residuo t colunas i (fun c => v c + d c)
      = residuo t colunas i v + ∑ c ∈ Finset.range (colunas - 1), ler t i c * d c := by
  unfold residuo
  simp only [mul_add, Finset.sum_add_distrib]
  ring

/-- A direction that every constraint row of the current tableau annihilates
is annihilated by every constraint row of the starting tableau. -/
theorem nucleo (t0 tf : Tabela) (linhas colunas : Nat)
    (hinv : Invariante t0 tf linhas colunas) (d : Nat → ℚ)
    (hd : ∀ r, r < linhas - 1 → ∑ c ∈ Finset.range (colunas - 1), ler tf r c * d c = 0) :
    ∀ r, r < linhas - 1 → ∑ c ∈ Finset.range (colunas - 1), ler t0 r c * d c = 0 := by
  obtain ⟨_, hsol, _, ⟨β, hb⟩, _⟩ := hinv
  have hs := sb_solucao tf linhas colunas β hb
  have hs2 : Solucao tf linhas colunas (fun c => solucao_basica tf linhas colunas β c + d c) := by
    intro r hr
    rw [residuo_add, hs r hr, hd r hr, add_zero]
  have h0 := (hsol _).mp hs
  have h02 := (hsol _).mp hs2
  intro r hr
  have := h02 r hr
  rw [residuo_add, h0 r hr, zero_add] at this
  exact this

/-- A row applied to a point mass. -/
theorem sum_ponto (a : Nat → ℚ) (N k : Nat) (x : ℚ) (hk : k < N) :
    ∑ c ∈ Finset.range N, a c * (if c = k then x else 0) = a k * x := by
  have : ∀ c ∈ Finset.range N, a c * (if c = k then x else 0) = if c = k then a c * x else 0 := by
    intro c _
    by_cases h : c = k
    · rw [if_pos h, if_pos h]
    · rw [if_neg h, if_neg h, mul_zero]
  rw [Finset.sum_congr rfl this, Finset.sum_ite_eq', if_pos (Finset.mem_range.mpr hk)]

/-! ## Optimality of the final basic solution -/

/-- The last entry of the last row of the final tableau is the cost of the
basic solution. -/
theorem custo_basica (oferta demanda : Nat → Int) (custos : Nat → Nat → Int) (m n : Nat)
    (t0 tf : Tabela) (ht0 : ∀ r c, ler t0 r c = entrada_spec oferta demanda custos m n r c)
    (hinv : Invariante t0 tf (m + n + 1) (m * n + m + n + 1)) (β : Nat → Nat)
    (hb : Base tf (m + n + 1) (m * n + m + n + 1) β) :
    ∑ i ∈ Finset.range m, ∑ j ∈ Finset.range n,
        (custos i j : ℚ) * solucao_basica tf (m + n + 1) (m * n + m + n + 1) β (i * n + j)
      = ler tf (m + n) (m * n + m + n) := by
  obtain ⟨_, _, hobj, _, _⟩ := hinv
  have h := hobj _ (sb_solucao tf _ _ β hb)
  rw [sb_objetivo tf _ _ β hb (by omega)] at h
  simp only [Nat.add_sub_cancel] at h
  rw [residuo_objetivo oferta demanda custos m n t0 ht0] at h
  exact (neg_injective h).symm

/-- No non-negative solution of the starting constraints costs more than the
last entry of the last row of the final tableau. -/
theorem custo_limite (oferta demanda : Nat → Int) (custos : Nat → Nat → Int) (m n : Nat)
    (t0 tf : Tabela) (ht0 : ∀ r c, ler t0 r c = entrada_spec oferta demanda custos m n r c)
    (hinv : Invariante t0 tf (m + n + 1) (m * n + m + n + 1))
    (hopt : ∀ j, j < m * n + m + n + 1 - 1 → 0 ≤ ler tf (m + n + 1 - 1) j)
    (v : Nat → ℚ) (hv : ∀ c, 0 ≤ v c)
    (hs : Solucao t0 (m + n + 1) (m * n + m + n + 1) v) :
    ∑ i ∈ Finset.range m, ∑ j ∈ Finset.range n, (custos i j : ℚ) * v (i * n + j)
      ≤ ler tf (m + n) (m * n + m + n) := by
  obtain ⟨_, hsol, hobj, _, _⟩ := hinv
  have h := hobj v ((hsol v).mpr hs)
  simp only [Nat.add_sub_cancel] at h hopt
  rw [residuo_objetivo oferta demanda custos m n t0 ht0] at h
  unfold residuo at h
  simp only [Nat.add_sub_cancel] at h
  have hpos : 0 ≤ ∑ j ∈ Finset.range (m * n + m + n), ler tf (m + n) j * v j := by
    apply Finset.sum_nonneg
    intro j hj
    exact mul_nonneg (hopt j (Finset.mem_range.mp hj)) (hv j)
  linarith

/-- The auxiliary columns of the supply rows and of the demand rows carry the
same total on every solution of a balanced instance. -/
theorem folgas_soma (oferta demanda : Nat → Int) (custos : Nat → Nat → Int) (m n : Nat)
    (t0 : Tabela) (ht0 : ∀ r c, ler t0 r c = entrada_spec oferta demanda custos m n r c)
    (hbal : ∑ i ∈ Finset.range m, oferta i = ∑ j ∈ Finset.range n, demanda j)
    (v : Nat → ℚ) (hs : Solucao t0 (m + n + 1) (m * n + m + n + 1) v) :
    ∑ i ∈ Finset.range m, v (m * n + i) = ∑ j ∈ Finset.range n, v (m * n + (m + j)) := by
  have h1 : ∀ i ∈ Finset.range m,
      (∑ j ∈ Finset.range n, v (i * n + j)) + v (m * n + i) = (oferta i : ℚ) := by
    intro i hi
    have hi := Finset.mem_range.mp hi
    have := hs i (by omega)
    rw [residuo_oferta oferta demanda custos m n t0 ht0 v hi] at this
    linarith
  have h2 : ∀ j ∈ Finset.range n,
      (∑ i ∈ Finset.range m, v (i * n + j)) + v (m * n + (m + j)) = (demanda j : ℚ) := by
    intro j hj
    have hj := Finset.mem_range.mp hj
    have := hs (m + j) (by omega)
    rw [residuo_demanda oferta demanda custos m n t0 ht0 v hj] at this
    linarith
  have s1 := Finset.sum_congr rfl h1
  have s2 := Finset.sum_congr rfl h2
  rw [Finset.sum_add_distrib] at s1 s2
  rw [Finset.sum_comm] at s2
  have hb : (∑ i ∈ Finset.range m, (oferta i : ℚ)) = ∑ j ∈ Finset.range n, (demanda j : ℚ) := by
    have := congrArg (fun z : Int => (z : ℚ)) hbal
    simpa using this
  linarith

/-- A solution with a positive supply auxiliary and a positive demand
auxiliary is not the most expensive one: shifting their common part onto the
shipment between the two rows keeps the constraints and raises the cost. -/
theorem melhora (oferta demanda : Nat → Int) (custos : Nat → Nat → Int) (m n : Nat)
    (t0 : Tabela) (ht0 : ∀ r c, ler t0 r c = entrada_spec oferta demanda custos m n r c)
    (v : Nat → ℚ) (hv : ∀ c, 0 ≤ v c)
    (hs : Solucao t0 (m + n + 1) (m * n + m + n + 1) v)
    {i0 j0 : Nat} (hi0 : i0 < m) (hj0 : j0 < n) (hcu : 0 < custos i0 j0)
    (hsi : 0 < v (m * n + i0)) (htj : 0 < v (m * n + (m + j0))) :
    ∃ w : Nat → ℚ, (∀ c, 0 ≤ w c) ∧ Solucao t0 (m + n + 1) (m * n + m + n + 1) w ∧
      ∑ i ∈ Finset.range m, ∑ j ∈ Finset.range n, (custos i j : ℚ) * v (i * n + j)
        < ∑ i ∈ Finset.range m, ∑ j ∈ Finset.range n, (custos i j : ℚ) * w (i * n + j) := by
  have hx := idx_lt hi0 hj0
  obtain ⟨ε, hε, hε1, hε2⟩ : ∃ ε : ℚ, 0 < ε ∧ ε ≤ v (m * n + i0) ∧ ε ≤ v (m * n + (m + j0)) :=
    ⟨min (v (m * n + i0)) (v (m * n + (m + j0))), lt_min hsi htj, min_le_left _ _,
      min_le_right _ _⟩
  have hdir : ∀ r, ∑ c ∈ Finset.range (m * n + m + n + 1 - 1), ler t0 r c *
        ((if c = i0 * n + j0 then ε else 0) + ((if c = m * n + i0 then -ε else 0)
          + (if c = m * n + (m + j0) then -ε else 0)))
      = ler t0 r (i0 * n + j0) * ε + (ler t0 r (m * n + i0) * -ε
          + ler t0 r (m * n + (m + j0)) * -ε) := by
    intro r
    simp only [mul_add, Finset.sum_add_distrib]
    rw [sum_ponto _ _ _ _ (by omega), sum_ponto _ _ _ _ (by omega),
      sum_ponto _ _ _ _ (by omega)]
  refine ⟨fun c => v c + ((if c = i0 * n + j0 then ε else 0)
    + ((if c = m * n + i0 then -ε else 0) + (if c = m * n + (m + j0) then -ε else 0))),
    ?_, ?_, ?_⟩
  · intro c
    have := hv c
    simp only []
    by_cases h1 : c = i0 * n + j0
    · rw [if_pos h1, if_neg (by omega), if_neg (by omega)]
      linarith
    · rw [if_neg h1]
      by_cases h2 : c = m * n + i0
      · rw [if_pos h2, if_neg (by omega), h2]
        linarith
      · rw [if_neg h2]
        by_cases h3 : c = m * n + (m + j0)
        · rw [if_pos h3, h3]
          linarith
        · rw [if_neg h3]
          linarith
  · intro r hr
    rw [residuo_add, hs r hr, hdir, zero_add, ht0, ht0, ht0]
    by_cases h1 : r < m
    · rw [es_x_oferta _ _ _ _ _ h1 hi0 hj0, es_aux _ _ _ _ _ (by omega) (by omega),
        es_aux _ _ _ _ _ (by omega) (by omega), if_neg (show ¬ m + j0 = r by omega)]
      by_cases h : i0 = r
      · rw [if_pos h]; ring
      · rw [if_neg h]; ring
    · have hr2 : r = m + (r - m) := by omega
      rw [hr2, es_x_demanda _ _ _ _ _ (show r - m < n by omega) hi0 hj0,
        es_aux _ _ _ _ _ (by omega) (by omega), es_aux _ _ _ _ _ (by omega) (by omega),
        if_neg (show ¬ i0 = m + (r - m) by omega)]
      by_cases h : j0 = r - m
      · rw [if_pos h, if_pos (by omega)]; ring
      · rw [if_neg h, if_neg (by omega)]; ring
  · have e1 := residuo_objetivo oferta demanda custos m n t0 ht0 v
    have e2 := residuo_objetivo oferta demanda custos m n t0 ht0
      (fun c => v c + ((if c = i0 * n + j0 then ε else 0)
        + ((if c = m * n + i0 then -ε else 0) + (if c = m * n + (m + j0) then -ε else 0))))
    rw [residuo_add, hdir, ht0, ht0, ht0, es_x_objetivo _ _ _ _ _ hi0 hj0, es_aux_objetivo,
      es_aux_objetivo, e1] at e2
    have hc : (0 : ℚ) < (custos i0 j0 : ℚ) := by exact_mod_cast hcu
    have := mul_pos hc hε
    linarith

/-- On a balanced instance with positive costs, a most expensive non-negative
solution has every auxiliary column at 0. -/
theorem folgas_nulas (oferta demanda : Nat → Int) (custos : Nat → Nat → Int) (m n : Nat)
    (t0 : Tabela) (ht0 : ∀ r c, ler t0 r c = entrada_spec oferta demanda custos m n r c)
    (hbal : ∑ i ∈ Finset.range m, oferta i = ∑ j ∈ Finset.range n, demanda j)
    (hcu : ∀ i, i < m → ∀ j, j < n → 0 < custos i j)
    (v : Nat → ℚ) (hv : ∀ c, 0 ≤ v c)
    (hs : Solucao t0 (m + n + 1) (m * n + m + n + 1) v)
    (hmax : ∀ w : Nat → ℚ, (∀ c, 0 ≤ w c) → Solucao t0 (m + n + 1) (m * n + m + n + 1) w →
      ∑ i ∈ Finset.range m, ∑ j ∈ Finset.range n, (custos i j : ℚ) * w (i * n + j)
        ≤ ∑ i ∈ Finset.range m, ∑ j ∈ Finset.range n, (custos i j : ℚ) * v (i * n + j)) :
    (∀ i, i < m → v (m * n + i) = 0) ∧ (∀ j, j < n → v (m * n + (m + j)) = 0) := by
  have key : ∀ i0, i0 < m → ∀ j0, j0 < n →
      ¬ (0 < v (m * n + i0) ∧ 0 < v (m * n + (m + j0))) := by
    intro i0 hi0 j0 hj0 h
    obtain ⟨w, hw, hsw, hlt⟩ :=
      melhora oferta demanda custos m n t0 ht0 v hv hs hi0 hj0 (hcu i0 hi0 j0 hj0) h.1 h.2
    exact absurd (hmax w hw hsw) (not_le.mpr hlt)
  have hsum := folgas_soma oferta demanda custos m n t0 ht0 hbal v hs
  constructor
  · intro i0 hi0
    by_contra hne
    have hpos : 0 < v (m * n + i0) := lt_of_le_of_ne (hv _) (fun e => hne e.symm)
    have hz : ∑ j ∈ Finset.range n, v (m * n + (m + j)) = 0 := by
      apply Finset.sum_eq_zero
      intro j hj
      have := key i0 hi0 j (Finset.mem_range.mp hj)
      exact le_antisymm (not_lt.mp (fun h => this ⟨hpos, h⟩)) (hv _)
    have hle : v (m * n + i0) ≤ ∑ i ∈ Finset.range m, v (m * n + i) :=
      Finset.single_le_sum (f := fun i => v (m * n + i)) (fun i _ => hv _)
        (Finset.mem_range.mpr hi0)
    linarith
  · intro j0 hj0
    by_contra hne
    have hpos : 0 < v (m * n + (m + j0)) := lt_of_le_of_ne (hv _) (fun e => hne e.symm)
    have hz : ∑ i ∈ Finset.range m, v (m * n + i) = 0 := by
      apply Finset.sum_eq_zero
      intro i hi
      have := key i (Finset.mem_range.mp hi) j0 hj0
      exact le_antisymm (not_lt.mp (fun h => this ⟨h, hpos⟩)) (hv _)
    have hle : v (m * n + (m + j0)) ≤ ∑ j ∈ Finset.range n, v (m * n + (m + j)) :=
      Finset.single_le_sum (f := fun j => v (m * n + (m + j))) (fun j _ => hv _)
        (Finset.mem_range.mpr hj0)
    linarith

/-! ## The read-out of the final tableau -/

/-- On the final tableau `extrair_solucao` reads, at every shipment column,
the value of the basic solution. -/
theorem extrair_basica (oferta demanda : Nat → Int) (custos : Nat → Nat → Int) (m n : Nat)
    (t0 tf : Tabela) (ht0 : ∀ r c, ler t0 r c = entrada_spec oferta demanda custos m n r c)
    (hinv : Invariante t0 tf (m + n + 1) (m * n + m + n + 1)) (β : Nat → Nat)
    (hb : Base tf (m + n + 1) (m * n + m + n + 1) β) {j : Nat} (hj : j < m * n) :
    (Main.extrair_solucao tf (m + n + 1) (m * n + m + n + 1) m n).1.getD j 0
      = solucao_basica tf (m + n + 1) (m * n + m + n + 1) β j := by
  have hn : 0 < n := by
    rcases Nat.eq_zero_or_pos n with h | h
    · rw [h] at hj; simp at hj
    · exact h
  have hi2 : j / n < m := (Nat.div_lt_iff_lt_mul hn).mpr hj
  have hj2 : j % n < n := Nat.mod_lt _ hn
  have hdm : j = j / n * n + j % n := (div_mod_unique n _ _ j hj2).mpr ⟨rfl, rfl⟩
  have hx1 : ler t0 (j / n) j = 1 := by
    have := es_x_oferta oferta demanda custos m n hi2 hi2 hj2
    rw [← hdm, if_pos rfl] at this
    rw [ht0, this]
  have hx2 : ler t0 (m + j % n) j = 1 := by
    have := es_x_demanda oferta demanda custos m n hj2 hi2 hj2
    rw [← hdm, if_pos rfl] at this
    rw [ht0, this]
  obtain ⟨_, hval⟩ := extrair_valores tf (m + n + 1) (m * n + m + n + 1) m n
  obtain ⟨hiff, hbase⟩ := contar_coluna_basica tf (m + n + 1) j
  rw [hval j]
  by_cases hex : ∃ i, ColunaBasica tf (m + n + 1) j i
  · obtain ⟨i, hcb⟩ := hex
    obtain ⟨hi, h1, h0⟩ := hcb
    rw [if_pos ⟨hj, hiff.mpr ⟨i, hi, h1, h0⟩⟩, hbase i ⟨hi, h1, h0⟩, Int.toNat_ofNat]
    by_cases hio : i = m + n
    · exfalso
      have hk := nucleo t0 tf _ _ hinv (fun c => if c = j then 1 else 0) (fun r hr => by
        rw [sum_ponto _ _ _ _ (by omega), h0 r (by omega) (by omega), zero_mul])
      have := hk (j / n) (by omega)
      rw [sum_ponto _ _ _ _ (by omega), hx1] at this
      norm_num at this
    · have hi3 : i < m + n + 1 - 1 := by omega
      obtain ⟨hb1, hb2⟩ := hb i hi3
      have hk := nucleo t0 tf _ _ hinv
        (fun c => (if c = j then 1 else 0) + (if c = β i then -1 else 0)) (fun r hr => by
          simp only [mul_add, Finset.sum_add_distrib]
          rw [sum_ponto _ _ _ _ (by omega), sum_ponto _ _ _ _ hb1, hb2 r (by omega)]
          by_cases hri : r = i
          · rw [hri, h1, if_pos rfl]; ring
          · rw [h0 r (by omega) hri, if_neg hri]; ring)
      have hcol : ∀ r, r < m + n → ler t0 r (β i) = ler t0 r j := by
        intro r hr
        have := hk r (by omega)
        simp only [mul_add, Finset.sum_add_distrib] at this
        rw [sum_ponto _ _ _ _ (by omega), sum_ponto _ _ _ _ hb1] at this
        linarith
      have hc1 := hcol (j / n) (by omega)
      have hc2 := hcol (m + j % n) (by omega)
      rw [hx1, ht0] at hc1
      rw [hx2, ht0] at hc2
      have hbj : β i = j := by
        by_cases hlt : β i < m * n
        · have hbi2 : β i / n < m := (Nat.div_lt_iff_lt_mul hn).mpr hlt
          have hbj2 : β i % n < n := Nat.mod_lt _ hn
          have hbdm : β i = β i / n * n + β i % n :=
            (div_mod_unique n _ _ (β i) hbj2).mpr ⟨rfl, rfl⟩
          rw [hbdm, es_x_oferta _ _ _ _ _ hi2 hbi2 hbj2] at hc1
          rw [hbdm, es_x_demanda _ _ _ _ _ hj2 hbi2 hbj2] at hc2
          have e1 : β i / n = j / n := by
            by_contra hne
            rw [if_neg hne] at hc1
            exact zero_ne_one hc1
          have e2 : β i % n = j % n := by
            by_contra hne
            rw [if_neg hne] at hc2
            exact zero_ne_one hc2
          rw [hbdm, hdm, e1, e2]
        · exfalso
          have hbk : β i = m * n + (β i - m * n) := by omega
          rw [hbk, es_aux _ _ _ _ _ (by omega) (by omega)] at hc1
          rw [hbk, es_aux _ _ _ _ _ (by omega) (by omega)] at hc2
          have e1 : β i - m * n = j / n := by
            by_contra hne
            rw [if_neg hne] at hc1
            exact zero_ne_one hc1
          have e2 : β i - m * n = m + j % n := by
            by_contra hne
            rw [if_neg hne] at hc2
            exact zero_ne_one hc2
          omega
      rw [← hbj, sb_base tf _ _ β hb hi3]
  · rw [if_neg (fun h => hex (hiff.mp h.2))]
    symm
    apply sb_fora
    intro r hr hbr
    obtain ⟨_, hb2⟩ := hb r hr
    apply hex
    refine ⟨r, by omega, ?_, ?_⟩
    · rw [← hbr, hb2 r (by omega), if_pos rfl]
    · intro i hi hir
      rw [← hbr, hb2 i hi, if_neg hir]

/-- The shipments read out of the final tableau of a balanced instance with
positive costs have the supplies as row sums and the demands as column sums. -/
theorem somas_extraidas (oferta demanda : Nat → Int) (custos : Nat → Nat → Int) (m n : Nat)
    (t0 tf : Tabela) (ht0 : ∀ r c, ler t0 r c = entrada_spec oferta demanda custos m n r c)
    (hbal : ∑ i ∈ Finset.range m, oferta i = ∑ j ∈ Finset.range n, demanda j)
    (hcu : ∀ i, i < m → ∀ j, j < n → 0 < custos i j)
    (hinv : Invariante t0 tf (m + n + 1) (m * n + m + n + 1))
    (hopt : ∀ j, j < m * n + m + n + 1 - 1 → 0 ≤ ler tf (m + n + 1 - 1) j) :
    (∀ i, i < m →
      ∑ j ∈ Finset.range n,
        (Main.extrair_solucao tf (m + n + 1) (m * n + m + n + 1) m n).1.getD (i * n + j) 0
        = (oferta i : ℚ)) ∧
    (∀ j, j < n →
      ∑ i ∈ Finset.range m,
        (Main.extrair_solucao tf (m + n + 1) (m * n + m + n + 1) m n).1.getD (i * n + j) 0
        = (demanda j : ℚ)) := by
  have hinv2 := hinv
  obtain ⟨_, hsol, _, ⟨β, hb⟩, hvi⟩ := hinv2
  have hv := sb_nonneg tf (m + n + 1) (m * n + m + n + 1) β hvi
  have hs := (hsol _).mp (sb_solucao tf _ _ β hb)
  have hmax : ∀ w : Nat → ℚ, (∀ c, 0 ≤ w c) →
      Solucao t0 (m + n + 1) (m * n + m + n + 1) w →
      ∑ i ∈ Finset.range m, ∑ j ∈ Finset.range n, (custos i j : ℚ) * w (i * n + j)
        ≤ ∑ i ∈ Finset.range m, ∑ j ∈ Finset.range n,
          (custos i j : ℚ) * solucao_basica tf (m + n + 1) (m * n + m + n + 1) β (i * n + j) := by
    intro w hw hsw
    rw [custo_basica oferta demanda custos m n t0 tf ht0 hinv β hb]
    exact custo_limite oferta demanda custos m n t0 tf ht0 hinv hopt w hw hsw
  obtain ⟨hz1, hz2⟩ := folgas_nulas oferta demanda custos m n t0 ht0 hbal hcu _ hv hs hmax
  constructor
  · intro i hi
    have h1 : ∑ j ∈ Finset.range n,
        (Main.extrair_solucao tf (m + n + 1) (m * n + m + n + 1) m n).1.getD (i * n + j) 0
        = ∑ j ∈ Finset.range n,
          solucao_basica tf (m + n + 1) (m * n + m + n + 1) β (i * n + j) := by
      apply Finset.sum_congr rfl
      intro j hj
      exact extrair_basica oferta demanda custos m n t0 tf ht0 hinv β hb
        (idx_lt hi (Finset.mem_range.mp hj))
    have h2 := hs i (by omega)
    rw [residuo_oferta oferta demanda custos m n t0 ht0 _ hi, hz1 i hi] at h2
    rw [h1]
    linarith
  · intro j hj
    have h1 : ∑ i ∈ Finset.range m,
        (Main.extrair_solucao tf (m + n + 1) (m * n + m + n + 1) m n).1.getD (i * n + j) 0
        = ∑ i ∈ Finset.range m,
          solucao_basica tf (m + n + 1) (m * n + m + n + 1) β (i * n + j) := by
      apply Finset.sum_congr rfl
      intro i hi
      exact extrair_basica oferta demanda custos m n t0 tf ht0 hinv β hb
        (idx_lt (Finset.mem_range.mp hi) hj)
    have h2 := hs (m + j) (by omega)
    rw [residuo_demanda oferta demanda custos m n t0 ht0 _ hj, hz2 j hj] at h2
    rw [h1]
    linarith

/-! ## The exits of the capped driver -/

/-- What the loop of `simplex` returns on each of its three exits, against
the number of pivots it applied. -/
theorem simplex_laco_estado (linhas colunas : Nat) (restantes : Nat) :
    ∀ (tabela : Tabela) (iteracao pivos : Nat),
    (Benchmark.simplex_estado linhas colunas restantes tabela = Benchmark.Estado.otimo →
      (Benchmark.simplex_laco linhas colunas restantes tabela iteracao pivos).retorno
        = (iteracao : Int)
          + (((Benchmark.simplex_laco linhas colunas restantes tabela iteracao pivos).pivos : Int)
            - (pivos : Int)) + 1 ∧
      pivos ≤ (Benchmark.simplex_laco linhas colunas restantes tabela iteracao pivos).pivos ∧
      (Benchmark.simplex_laco linhas colunas restantes tabela iteracao pivos).pivos + 1
        ≤ pivos + restantes) ∧
    (Benchmark.simplex_estado linhas colunas restantes tabela = Benchmark.Estado.ilimitado →
      (Benchmark.simplex_laco linhas colunas restantes tabela iteracao pivos).retorno = -1) ∧
    (Benchmark.simplex_estado linhas colunas restantes tabela = Benchmark.Estado.limite →
      (Benchmark.simplex_laco linhas colunas restantes tabela iteracao pivos).retorno
        = (iteracao : Int) + (restantes : Int) ∧
      (Benchmark.simplex_laco linhas colunas restantes tabela iteracao pivos).pivos
        = pivos + restantes) := by
  induction restantes with
  | zero =>
    intro tabela iteracao pivos
    simp [Benchmark.simplex_laco, Benchmark.simplex_estado]
  | succ k ih =>
    intro tabela iteracao pivos
    unfold Benchmark.simplex_laco Benchmark.simplex_estado
    simp only []
    by_cases h1 : Benchmark.encontrar_coluna_pivo tabela linhas colunas = -1
    · rw [if_pos h1, if_pos h1]
      refine ⟨fun _ => ⟨?_, Nat.le_refl _, ?_⟩, fun h => ?_, fun h => ?_⟩
      · push_cast; ring
      · show pivos + 1 ≤ pivos + (k + 1)
        omega
      · exact absurd h (by decide)
      · exact absurd h (by decide)
    · rw [if_neg h1, if_neg h1]
      by_cases h2 : Benchmark.encontrar_linha_pivo tabela linhas colunas
          (Benchmark.encontrar_coluna_pivo tabela linhas colunas).toNat = -1
      · rw [if_pos h2, if_pos h2]
        refine ⟨fun h => ?_, fun _ => rfl, fun h => ?_⟩
        · exact absurd h (by decide)
        · exact absurd h (by decide)
      · rw [if_neg h2, if_neg h2]
        obtain ⟨ha, hb, hc⟩ := ih (Benchmark.pivotear tabela linhas colunas
          (Benchmark.encontrar_linha_pivo tabela linhas colunas
            (Benchmark.encontrar_coluna_pivo tabela linhas colunas).toNat).toNat
          (Benchmark.encontrar_coluna_pivo tabela linhas colunas).toNat) (iteracao + 1) (pivos + 1)
        refine ⟨fun h => ?_, hb, fun h => ?_⟩
        · obtain ⟨e1, e2, e3⟩ := ha h
          refine ⟨?_, by omega, by omega⟩
          rw [e1]; push_cast; ring
        · obtain ⟨e1, e2⟩ := hc h
          refine ⟨?_, by omega⟩
          rw [e1]; push_cast; ring

/-- A tableau with no negative entry in its last row before the last column
sends the first round of the loop to the "no entering column" exit. -/
theorem simplex_laco_otimo (linhas colunas : Nat) (restantes : Nat) (tabela : Tabela)
    (iteracao pivos : Nat)
    (h : ∀ j, j < colunas - 1 → ¬ ler tabela (linhas - 1) j < 0) :
    Benchmark.simplex_laco linhas colunas (restantes + 1) tabela iteracao pivos
      = ⟨tabela, ((iteracao + 1 : Nat) : Int), pivos⟩ ∧
    Benchmark.simplex_estado linhas colunas (restantes + 1) tabela = Benchmark.Estado.otimo := by
  have hc : Benchmark.encontrar_coluna_pivo tabela linhas colunas = -1 := by
    rcases encontrar_coluna_pivo_casos tabela linhas colunas with ⟨h1, _⟩ | ⟨b, hb, _, hneg, _, _⟩
    · exact h1
    · exact absurd hneg (h b hb)
  unfold Benchmark.simplex_laco Benchmark.simplex_estado
  simp only []
  rw [if_pos hc, if_pos hc]
  exact ⟨rfl, rfl⟩

/-! ## No unbounded column on a transportation tableau -/

/-- A row of the tableau applied to a vector carried by the unit columns. -/
theorem base_prod (t : Tabela) (linhas colunas : Nat) (β : Nat → Nat)
    (hb : Base t linhas colunas β) (g : Nat → ℚ) {i : Nat} (hi : i < linhas) :
    ∑ j ∈ Finset.range (colunas - 1),
        ler t i j * (∑ r ∈ Finset.range (linhas - 1), if β r = j then g r else 0)
      = if i < linhas - 1 then g i else 0 := by
  simp only [Finset.mul_sum]
  rw [Finset.sum_comm]
  have h1 : ∀ r ∈ Finset.range (linhas - 1),
      ∑ j ∈ Finset.range (colunas - 1), ler t i j * (if β r = j then g r else 0)
      = if r = i then g r else 0 := by
    intro r hr
    have hr := Finset.mem_range.mp hr
    obtain ⟨hb1, hb2⟩ := hb r hr
    have : ∀ j ∈ Finset.range (colunas - 1),
        ler t i j * (if β r = j then g r else 0)
        = if β r = j then ler t i (β r) * g r else 0 := by
      intro j _
      by_cases h : β r = j
      · rw [if_pos h, if_pos h, h]
      · rw [if_neg h, if_neg h, mul_zero]
    rw [Finset.sum_congr rfl this, Finset.sum_ite_eq, if_pos (Finset.mem_range.mpr hb1),
      hb2 i hi]
    by_cases h : i = r
    · rw [if_pos h, if_pos h.symm, one_mul]
    · rw [if_neg h, if_neg (fun e => h e.symm), zero_mul]
  rw [Finset.sum_congr rfl h1, Finset.sum_ite_eq']
  simp only [Finset.mem_range]

/-- On a non-negative solution of the starting constraints no column exceeds
the supplies and demands. -/
theorem limite_variavel (oferta demanda : Nat → Int) (custos : Nat → Nat → Int) (m n : Nat)
    (t0 : Tabela) (ht0 : ∀ r c, ler t0 r c = entrada_spec oferta demanda custos m n r c)
    (lim : ℚ) (hof : ∀ i, i < m → (oferta i : ℚ) < lim)
    (hde : ∀ j, j < n → (demanda j : ℚ) < lim)
    (v : Nat → ℚ) (hv : ∀ c, 0 ≤ v c)
    (hs : Solucao t0 (m + n + 1) (m * n + m + n + 1) v)
    {c : Nat} (hc : c < m * n + m + n) : v c < lim := by
  by_cases h1 : c < m * n
  · have hn : 0 < n := by
      rcases Nat.eq_zero_or_pos n with h | h
      · rw [h] at h1; simp at h1
      · exact h
    have hi : c / n < m := (Nat.div_lt_iff_lt_mul hn).mpr h1
    have hj : c % n < n := Nat.mod_lt _ hn
    have hdm : c = c / n * n + c % n := (div_mod_unique n _ _ c hj).mpr ⟨rfl, rfl⟩
    have h2 := hs (c / n) (by omega)
    rw [residuo_oferta oferta demanda custos m n t0 ht0 v hi] at h2
    have h3 : v (c / n * n + c % n) ≤ ∑ j ∈ Finset.range n, v (c / n * n + j) :=
      Finset.single_le_sum (f := fun j => v (c / n * n + j)) (fun j _ => hv _)
        (Finset.mem_range.mpr hj)
    rw [← hdm] at h3
    have h4 := hv (m * n + c / n)
    have h5 := hof (c / n) hi
    linarith
  · by_cases h2 : c < m * n + m
    · have hk : c = m * n + (c - m * n) := by omega
      have hi : c - m * n < m := by omega
      have h3 := hs (c - m * n) (by omega)
      rw [residuo_oferta oferta demanda custos m n t0 ht0 v hi, ← hk] at h3
      have h4 : 0 ≤ ∑ j ∈ Finset.range n, v ((c - m * n) * n + j) :=
        Finset.sum_nonneg (fun j _ => hv _)
      have h5 := hof (c - m * n) hi
      linarith
    · have hk : c = m * n + (m + (c - m * n - m)) := by omega
      have hj : c - m * n - m < n := by omega
      have h3 := hs (m + (c - m * n - m)) (by omega)
      rw [residuo_demanda oferta demanda custos m n t0 ht0 v hj, ← hk] at h3
      have h4 : 0 ≤ ∑ i ∈ Finset.range m, v (i * n + (c - m * n - m)) :=
        Finset.sum_nonneg (fun i _ => hv _)
      have h5 := hde (c - m * n - m) hj
      linarith

/-- On every tableau the loop reaches from a transportation tableau, every
column before the last has a row with a positive coefficient and a ratio
below the supplies' and demands' bound. -/
theorem linha_existe (oferta demanda : Nat → Int) (custos : Nat → Nat → Int) (m n : Nat)
    (t0 t : Tabela) (ht0 : ∀ r c, ler t0 r c = entrada_spec oferta demanda custos m n r c)
    (lim : ℚ) (hlim : 0 ≤ lim) (hof : ∀ i, i < m → (oferta i : ℚ) < lim)
    (hde : ∀ j, j < n → (demanda j : ℚ) < lim)
    (hinv : Invariante t0 t (m + n + 1) (m * n + m + n + 1))
    {c : Nat} (hc : c < m * n + m + n + 1 - 1) :
    ∃ r, r < m + n + 1 - 1 ∧ 0 < ler t r c ∧
      ler t r (m * n + m + n + 1 - 1) / ler t r c < lim := by
  by_contra hno
  obtain ⟨_, hsol, _, ⟨β, hb⟩, hvi⟩ := hinv
  have hg : ∀ r, r < m + n + 1 - 1 →
      0 ≤ ler t r (m * n + m + n + 1 - 1) - lim * ler t r c := by
    intro r hr
    by_cases hpos : 0 < ler t r c
    · have : ¬ ler t r (m * n + m + n + 1 - 1) / ler t r c < lim :=
        fun h => hno ⟨r, hr, hpos, h⟩
      have h2 := (le_div_iff₀ hpos).mp (not_lt.mp this)
      linarith
    · have h2 : lim * ler t r c ≤ 0 := mul_nonpos_of_nonneg_of_nonpos hlim (not_lt.mp hpos)
      have := hvi r hr
      linarith
  have hw : ∀ j, 0 ≤ (∑ r ∈ Finset.range (m + n + 1 - 1),
      if β r = j then ler t r (m * n + m + n + 1 - 1) - lim * ler t r c else 0)
      + (if j = c then lim else 0) := by
    intro j
    apply add_nonneg
    · apply Finset.sum_nonneg
      intro r hr
      by_cases h : β r = j
      · rw [if_pos h]; exact hg r (Finset.mem_range.mp hr)
      · rw [if_neg h]
    · by_cases h : j = c
      · rw [if_pos h]; exact hlim
      · rw [if_neg h]
  have hs : Solucao t (m + n + 1) (m * n + m + n + 1)
      (fun j => (∑ r ∈ Finset.range (m + n + 1 - 1),
        if β r = j then ler t r (m * n + m + n + 1 - 1) - lim * ler t r c else 0)
        + (if j = c then lim else 0)) := by
    intro i hi
    rw [residuo_add, sum_ponto _ _ _ _ hc]
    unfold residuo
    rw [base_prod t _ _ β hb _ (show i < m + n + 1 by omega), if_pos hi]
    ring
  have hs0 := (hsol _).mp hs
  have hbound := limite_variavel oferta demanda custos m n t0 ht0 lim hof hde _ hw hs0
    (show c < m * n + m + n by omega)
  beta_reduce at hbound
  rw [if_pos rfl] at hbound
  have hsum : 0 ≤ ∑ r ∈ Finset.range (m + n + 1 - 1),
      if β r = c then ler t r (m * n + m + n + 1 - 1) - lim * ler t r c else 0 := by
    apply Finset.sum_nonneg
    intro r hr
    by_cases h : β r = c
    · rw [if_pos h]; exact hg r (Finset.mem_range.mp hr)
    · rw [if_neg h]
  linarith

theorem int_max_lt_dbl_max (z : Int) (hz : z ≤ INT_MAX) : (z : ℚ) < DBL_MAX := by
  have h1 : (z : ℚ) ≤ (INT_MAX : ℚ) := by exact_mod_cast hz
  have h2 : ((INT_MAX : Int) : ℚ) < DBL_MAX := by
    unfold INT_MAX DBL_MAX
    norm_num
  exact lt_of_le_of_lt h1 h2

/-- From a tableau the loop reaches on a transportation instance with `int`
supplies and demands, the capped driver never takes the `return -1` exit. -/
theorem simplex_laco_nao_ilimitado (oferta demanda : Nat → Int) (custos : Nat → Nat → Int)
    (m n : Nat) (t0 : Tabela)
    (ht0 : ∀ r c, ler t0 r c = entrada_spec oferta demanda custos m n r c)
    (hof : ∀ i, i < m → oferta i ≤ INT_MAX) (hde : ∀ j, j < n → demanda j ≤ INT_MAX)
    (restantes : Nat) :
    ∀ (t : Tabela) (iteracao pivos : Nat),
      Invariante t0 t (m + n + 1) (m * n + m + n + 1) →
      (Benchmark.simplex_laco (m + n + 1) (m * n + m + n + 1) restantes t iteracao pivos).retorno
        ≠ -1 ∧
      Benchmark.simplex_estado (m + n + 1) (m * n + m + n + 1) restantes t
        ≠ Benchmark.Estado.ilimitado := by
  induction restantes with
  | zero =>
    intro t iteracao pivos _
    refine ⟨?_, by simp [Benchmark.simplex_estado]⟩
    simp only [Benchmark.simplex_laco]
    omega
  | succ k ih =>
    intro t iteracao pivos hinv
    unfold Benchmark.simplex_laco Benchmark.simplex_estado
    simp only []
    by_cases h1 : Benchmark.encontrar_coluna_pivo t (m + n + 1) (m * n + m + n + 1) = -1
    · rw [if_pos h1, if_pos h1]
      refine ⟨?_, by decide⟩
      show ((iteracao + 1 : Nat) : Int) ≠ -1
      omega
    · rw [if_neg h1, if_neg h1]
      have h2 : Benchmark.encontrar_linha_pivo t (m + n + 1) (m * n + m + n + 1)
          (Benchmark.encontrar_coluna_pivo t (m + n + 1) (m * n + m + n + 1)).toNat ≠ -1 := by
        rcases encontrar_coluna_pivo_casos t (m + n + 1) (m * n + m + n + 1) with
          ⟨h, _⟩ | ⟨c, hc, hce, _, _, _⟩
        · exact absurd h h1
        rw [hce, Int.toNat_ofNat]
        rcases encontrar_linha_pivo_casos t (m + n + 1) (m * n + m + n + 1) c with
          ⟨_, hall⟩ | ⟨r, _, hre, _, _, _, _⟩
        · exfalso
          obtain ⟨r, hr, hpos, hlt⟩ := linha_existe oferta demanda custos m n t0 t ht0 DBL_MAX
            (by unfold DBL_MAX; norm_num)
            (fun i hi => int_max_lt_dbl_max _ (hof i hi))
            (fun j hj => int_max_lt_dbl_max _ (hde j hj)) hinv hc
          exact hall r hr hpos hlt
        · rw [hre]
          omega
      rw [if_neg h2, if_neg h2]
      exact ih _ (iteracao + 1) (pivos + 1)
        (invariante_passo t0 t (m + n + 1) (m * n + m + n + 1) (by omega) hinv h1 h2)

/-! ## The last entry of the last row along the loop -/

/-- One pivot on the selected column and row does not lower the last entry of
the last row of a tableau with non-negative right-hand sides. -/
theorem objetivo_cresce (t : Tabela) (linhas colunas : Nat)
    (hd : Dim t linhas colunas) (hL : 0 < linhas) (hC : 0 < colunas)
    (hv : Viavel t linhas colunas)
    (hcol : Benchmark.encontrar_coluna_pivo t linhas colunas ≠ -1)
    (hlin : Benchmark.encontrar_linha_pivo t linhas colunas
      (Benchmark.encontrar_coluna_pivo t linhas colunas).toNat ≠ -1) :
    ler t (linhas - 1) (colunas - 1)
      ≤ ler (Benchmark.pivotear t linhas colunas
          (Benchmark.encontrar_linha_pivo t linhas colunas
            (Benchmark.encontrar_coluna_pivo t linhas colunas).toNat).toNat
          (Benchmark.encontrar_coluna_pivo t linhas colunas).toNat)
        (linhas - 1) (colunas - 1) := by
  rcases encontrar_coluna_pivo_casos t linhas colunas with ⟨h, _⟩ | ⟨c, hc, hce, hneg, _, _⟩
  · exact absurd h hcol
  rw [hce, Int.toNat_ofNat] at hlin ⊢
  rcases encontrar_linha_pivo_casos t linhas colunas c with
    ⟨h, _⟩ | ⟨r, hr, hre, hpos, _, _, _⟩
  · exact absurd h hlin
  rw [hre, Int.toNat_ofNat]
  obtain ⟨_, h1⟩ := pivotear_forma t linhas colunas r c hd (by omega)
  rw [h1 (linhas - 1) (colunas - 1) (by omega) (by omega), if_neg (by omega)]
  have hq : 0 ≤ ler t r (colunas - 1) / ler t r c := div_nonneg (hv r hr) (le_of_lt hpos)
  have := mul_nonpos_of_nonpos_of_nonneg (le_of_lt hneg) hq
  linarith

/-- One more round of the loop does not lower the last entry of the last row. -/
theorem simplex_laco_monotono (t0 : Tabela) (linhas colunas : Nat)
    (hL : 0 < linhas) (hC : 0 < colunas) (k : Nat) :
    ∀ (t : Tabela) (it pv it2 pv2 : Nat), Invariante t0 t linhas colunas →
      ler (Benchmark.simplex_laco linhas colunas k t it pv).tabela (linhas - 1) (colunas - 1)
        ≤ ler (Benchmark.simplex_laco linhas colunas (k + 1) t it2 pv2).tabela
          (linhas - 1) (colunas - 1) := by
  induction k with
  | zero =>
    intro t it pv it2 pv2 hinv
    unfold Benchmark.simplex_laco
    simp only []
    by_cases h1 : Benchmark.encontrar_coluna_pivo t linhas colunas = -1
    · rw [if_pos h1]
    · rw [if_neg h1]
      by_cases h2 : Benchmark.encontrar_linha_pivo t linhas colunas
          (Benchmark.encontrar_coluna_pivo t linhas colunas).toNat = -1
      · rw [if_pos h2]
      · rw [if_neg h2]
        unfold Benchmark.simplex_laco
        exact objetivo_cresce t linhas colunas hinv.1 hL hC hinv.2.2.2.2 h1 h2
  | succ k ih =>
    intro t it pv it2 pv2 hinv
    rw [Benchmark.simplex_laco]
    conv_rhs => rw [Benchmark.simplex_laco]
    simp only []
    by_cases h1 : Benchmark.encontrar_coluna_pivo t linhas colunas = -1
    · rw [if_pos h1, if_pos h1]
    · rw [if_neg h1, if_neg h1]
      by_cases h2 : Benchmark.encontrar_linha_pivo t linhas colunas
          (Benchmark.encontrar_coluna_pivo t linhas colunas).toNat = -1
      · rw [if_pos h2, if_pos h2]
      · rw [if_neg h2, if_neg h2]
        exact ih _ _ _ _ _ (invariante_passo t0 t linhas colunas hC hinv h1 h2)

/-- The last entry of the last row after any number of rounds is at least
what it was at the start. -/
theorem simplex_laco_acima (t0 : Tabela) (linhas colunas : Nat)
    (hL : 0 < linhas) (hC : 0 < colunas) (hinv : Invariante t0 t0 linhas colunas) (k : Nat) :
    ler t0 (linhas - 1) (colunas - 1)
      ≤ ler (Benchmark.simplex_laco linhas colunas k t0 0 0).tabela
        (linhas - 1) (colunas - 1) := by
  induction k with
  | zero =>
    unfold Benchmark.simplex_laco
    exact le_refl _
  | succ k ih =>
    exact le_trans ih (simplex_laco_monotono t0 linhas colunas hL hC k t0 0 0 0 0 hinv)

/-! ## The builder without preconditions -/

/-- A counted loop whose body keeps the dimensions keeps the dimensions. -/
theorem dim_foldl (linhas colunas : Nat) (f : Tabela → Nat → Tabela)
    (hf : ∀ t k, Dim t linhas colunas → Dim (f t k) linhas colunas)
    (t : Tabela) (hd : Dim t linhas colunas) (k : Nat) :
    Dim ((List.range k).foldl f t) linhas colunas :=
  foldl_range_inv (fun _ s => Dim s linhas colunas) f t k hd (fun l _ s hs => hf s l hs)

/-- The builder returns a matrix of `m + n + 1` rows and `m*n + m + n + 1`
columns for every `m`, `n` and every data. -/
theorem construir_dim (oferta demanda : Nat → Int) (custos : Nat → Nat → Int) (m n : Nat) :
    Dim (Benchmark.construir_tabela_transporte oferta demanda custos m n).1
      (m + n + 1) (m * n + m + n + 1) := by
  unfold Benchmark.construir_tabela_transporte
  simp only []
  apply dim_foldl
  · intro t i ht
    apply dim_foldl
    · intro s j hs
      exact dim_escrever hs _ _ _
    · exact ht
  apply dim_foldl
  · intro t j ht
    apply dim_escrever
    apply dim_escrever
    apply dim_foldl
    · intro s i hs
      exact dim_escrever hs _ _ _
    · exact ht
  apply dim_foldl
  · intro t i ht
    apply dim_escrever
    apply dim_escrever
    apply dim_foldl
    · intro s j hs
      exact dim_escrever hs _ _ _
    · exact ht
  exact dim_alocar_matriz _ _

/-! ## The instance generator -/

/-- The sum of a list of integers, entry by entry. -/
theorem list_sum_range (l : List Int) :
    l.sum = ∑ i ∈ Finset.range l.length, l.getD i 0 := by
  induction l with
  | nil => simp
  | cons a l ih =>
    rw [List.sum_cons, List.length_cons, Finset.sum_range_succ', ih]
    simp [add_comm]

/-- The rescaling loop of the generator keeps the length of the vector and
leaves in its running sum the sum of the entries it has rewritten. -/
theorem reescala_inv (g : Int → Int) (o : List Int) (k : Nat) (hk : k ≤ o.length) :
    ((List.range k).foldl
        (fun (st : List Int × Int) i =>
          (st.1.set i (g (st.1.getD i 0)), st.2 + g (st.1.getD i 0)))
        (o, (0 : Int))).1.length = o.length ∧
    ((List.range k).foldl
        (fun (st : List Int × Int) i =>
          (st.1.set i (g (st.1.getD i 0)), st.2 + g (st.1.getD i 0)))
        (o, (0 : Int))).2
      = ∑ i ∈ Finset.range k,
        ((List.range k).foldl
          (fun (st : List Int × Int) i =>
            (st.1.set i (g (st.1.getD i 0)), st.2 + g (st.1.getD i 0)))
          (o, (0 : Int))).1.getD i 0 := by
  induction k with
  | zero => simp
  | succ k ih =>
    obtain ⟨h1, h2⟩ := ih (by omega)
    rw [foldl_range_succ]
    refine ⟨by simp only [List.length_set]; exact h1, ?_⟩
    simp only []
    rw [Finset.sum_range_succ, getD_set_aux, if_pos ⟨rfl, by rw [h1]; omega⟩, h2]
    congr 1
    apply Finset.sum_congr rfl
    intro i hi
    have hi := Finset.mem_range.mp hi
    rw [getD_set_aux, if_neg (fun h => by omega)]

/-- Adding the residual `total - soma` to the last entry makes the vector sum
to `total`, when `soma` is the sum of the vector. -/
theorem soma_corrigida (o : List Int) (m : Nat) (hm : 1 ≤ m) (hlen : o.length = m)
    (total soma : Int) (hs : soma = ∑ i ∈ Finset.range m, o.getD i 0) :
    (o.set (m - 1) (o.getD (m - 1) 0 + (total - soma))).sum = total := by
  obtain ⟨k, rfl⟩ : ∃ k, m = k + 1 := ⟨m - 1, by omega⟩
  rw [list_sum_range, List.length_set, hlen, Nat.add_sub_cancel, Finset.sum_range_succ,
    getD_set_aux, if_pos ⟨rfl, by omega⟩]
  have : ∑ i ∈ Finset.range k, (o.set k (o.getD k 0 + (total - soma))).getD i 0
      = ∑ i ∈ Finset.range k, o.getD i 0 := by
    apply Finset.sum_congr rfl
    intro i hi
    have hi := Finset.mem_range.mp hi
    rw [getD_set_aux, if_neg (fun h => by omega)]
  rw [this, hs, Finset.sum_range_succ]
  ring

/-- The drawing loop of the generator keeps the length of the vector. -/
theorem sorteio_length (r : Nat → Nat) (o : List Int) (s0 : Int) (c0 k : Nat) :
    ((List.range k).foldl
        (fun (st : List Int × Int × Nat) i =>
          (st.1.set i ((r st.2.2 % 3000 + 1000 : Nat) : Int),
            st.2.1 + ((r st.2.2 % 3000 + 1000 : Nat) : Int), st.2.2 + 1))
        (o, s0, c0)).1.length = o.length :=
  foldl_range_inv (fun _ (st : List Int × Int × Nat) => st.1.length = o.length) _ _ k rfl
    (fun l _ st h => by simp only [List.length_set]; exact h)

/-- A vector drawn, rescaled and corrected as in the generator has the length
asked for and sums to the target. -/
theorem vetor_gerado (r : Nat → Nat) (e : ℚ) (k : Nat) (hk : 1 ≤ k) (c0 : Nat)
    (total : Int) :
    (((List.range k).foldl
        (fun (st : List Int × Int) i =>
          (st.1.set i (para_int ((st.1.getD i 0 : ℚ) * e)),
            st.2 + para_int ((st.1.getD i 0 : ℚ) * e)))
        (((List.range k).foldl
          (fun (st : List Int × Int × Nat) i =>
            (st.1.set i ((r st.2.2 % 3000 + 1000 : Nat) : Int),
              st.2.1 + ((r st.2.2 % 3000 + 1000 : Nat) : Int), st.2.2 + 1))
          (List.replicate k 0, (0 : Int), c0)).1, (0 : Int))).1.set (k - 1)
      (((List.range k).foldl
        (fun (st : List Int × Int) i =>
          (st.1.set i (para_int ((st.1.getD i 0 : ℚ) * e)),
            st.2 + para_int ((st.1.getD i 0 : ℚ) * e)))
        (((List.range k).foldl
          (fun (st : List Int × Int × Nat) i =>
            (st.1.set i ((r st.2.2 % 3000 + 1000 : Nat) : Int),
              st.2.1 + ((r st.2.2 % 3000 + 1000 : Nat) : Int), st.2.2 + 1))
          (List.replicate k 0, (0 : Int), c0)).1, (0 : Int))).1.getD (k - 1) 0 + (total - ((List.range k).foldl
        (fun (st : List Int × Int) i =>
          (st.1.set i (para_int ((st.1.getD i 0 : ℚ) * e)),
            st.2 + para_int ((st.1.getD i 0 : ℚ) * e)))
        (((List.range k).foldl
          (fun (st : List Int × Int × Nat) i =>
            (st.1.set i ((r st.2.2 % 3000 + 1000 : Nat) : Int),
              st.2.1 + ((r st.2.2 % 3000 + 1000 : Nat) : Int), st.2.2 + 1))
          (List.replicate k 0, (0 : Int), c0)).1, (0 : Int))).2))).sum = total ∧
    (((List.range k).foldl
        (fun (st : List Int × Int) i =>
          (st.1.set i (para_int ((st.1.getD i 0 : ℚ) * e)),
            st.2 + para_int ((st.1.getD i 0 : ℚ) * e)))
        (((List.range k).foldl
          (fun (st : List Int × Int × Nat) i =>
            (st.1.set i ((r st.2.2 % 3000 + 1000 : Nat) : Int),
              st.2.1 + ((r st.2.2 % 3000 + 1000 : Nat) : Int), st.2.2 + 1))
          (List.replicate k 0, (0 : Int), c0)).1, (0 : Int))).1.set (k - 1)
      (((List.range k).foldl
        (fun (st : List Int × Int) i =>
          (st.1.set i (para_int ((st.1.getD i 0 : ℚ) * e)),
            st.2 + para_int ((st.1.getD i 0 : ℚ) * e)))
        (((List.range k).foldl
          (fun (st : List Int × Int × Nat) i =>
            (st.1.set i ((r st.2.2 % 3000 + 1000 : Nat) : Int),
              st.2.1 + ((r st.2.2 % 3000 + 1000 : Nat) : Int), st.2.2 + 1))
          (List.replicate k 0, (0 : Int), c0)).1, (0 : Int))).1.getD (k - 1) 0 + (total - ((List.range k).foldl
        (fun (st : List Int × Int) i =>
          (st.1.set i (para_int ((st.1.getD i 0 : ℚ) * e)),
            st.2 + para_int ((st.1.getD i 0 : ℚ) * e)))
        (((List.range k).foldl
          (fun (st : List Int × Int × Nat) i =>
            (st.1.set i ((r st.2.2 % 3000 + 1000 : Nat) : Int),
              st.2.1 + ((r st.2.2 % 3000 + 1000 : Nat) : Int), st.2.2 + 1))
          (List.replicate k 0, (0 : Int), c0)).1, (0 : Int))).2))).length = k := by
  have hl := sorteio_length r (List.replicate k 0) 0 c0 k
  rw [List.length_replicate] at hl
  obtain ⟨h1, h2⟩ := reescala_inv (fun x => para_int ((x : ℚ) * e)) _ k (le_of_eq hl.symm)
  rw [hl] at h1
  exact ⟨soma_corrigida _ k hk h1 total _ h2, by rw [List.length_set]; exact h1⟩

/-! ## The builder for every `n` -/

theorem ler_escrever_double (t : Binary64.Tabela) (i j : Nat) (v : Double) (r c : Nat) :
    Binary64.ler (Binary64.escrever t i j v) r c =
      if r = i ∧ c = j ∧ i < t.length ∧ j < (t.getD i []).length then v
      else Binary64.ler t r c := by
  unfold Binary64.ler Binary64.escrever
  rw [getD_set_aux]
  by_cases hri : r = i
  · subst hri
    by_cases hlen : r < t.length
    · rw [if_pos ⟨rfl, hlen⟩, getD_set_aux]
      by_cases h : c = j ∧ j < (t.getD r []).length
      · rw [if_pos h, if_pos ⟨rfl, h.1, hlen, h.2⟩]
      · rw [if_neg h, if_neg (fun hh => h ⟨hh.2.1, hh.2.2.2⟩)]
    · rw [if_neg (fun h => hlen h.2), if_neg (fun hh => hlen hh.2.2.1)]
  · rw [if_neg (fun h => hri h.1), if_neg (fun hh => hri hh.1)]

theorem dim_escrever_double {t : Binary64.Tabela} {linhas colunas : Nat}
    (h : Binary64.Dim t linhas colunas) (i j : Nat) (v : Double) :
    Binary64.Dim (Binary64.escrever t i j v) linhas colunas := by
  refine ⟨by simp [Binary64.escrever]; exact h.1, ?_⟩
  intro linha hl
  unfold Binary64.escrever at hl
  by_cases hi : i < t.length
  · rcases List.mem_or_eq_of_mem_set hl with hmem | heq
    · exact h.2 linha hmem
    · subst heq
      rw [List.length_set]
      apply h.2
      rw [List.getD_eq_getElem?_getD, List.getElem?_eq_getElem hi]
      exact List.getElem_mem hi
  · rw [List.set_eq_of_length_le (not_lt.mp hi)] at hl
    exact h.2 linha hl

theorem dim_getD_double {t : Binary64.Tabela} {linhas colunas : Nat}
    (h : Binary64.Dim t linhas colunas) {i : Nat} (hi : i < linhas) :
    (t.getD i []).length = colunas := by
  apply h.2
  have hi2 : i < t.length := by rw [h.1]; exact hi
  rw [List.getD_eq_getElem?_getD, List.getElem?_eq_getElem hi2]
  exact List.getElem_mem hi2

theorem ler_escrever_dim_double {t : Binary64.Tabela} {linhas colunas : Nat}
    (h : Binary64.Dim t linhas colunas) {i j : Nat} (hi : i < linhas) (hj : j < colunas)
    (v : Double) (r c : Nat) :
    Binary64.ler (Binary64.escrever t i j v) r c
      = if r = i ∧ c = j then v else Binary64.ler t r c := by
  rw [ler_escrever_double]
  have h1 : i < t.length := by rw [h.1]; exact hi
  have h2 : j < (t.getD i []).length := by rw [dim_getD_double h hi]; exact hj
  by_cases hrc : r = i ∧ c = j
  · rw [if_pos hrc, if_pos ⟨hrc.1, hrc.2, h1, h2⟩]
  · rw [if_neg hrc, if_neg (fun hh => hrc ⟨hh.1, hh.2.1⟩)]

/-! ## The pivot on `double` values -/

/-- The first loop of `pivotear`: the pivot row divided by the pivot. -/
theorem pivotear_double_laco1 (t : Binary64.Tabela) (linhas colunas r : Nat) (pivo : Double)
    (hd : Binary64.Dim t linhas colunas) (hr : r < linhas) :
    Binary64.Dim ((List.range colunas).foldl
      (fun s j => Binary64.escrever s r j (Double.div (Binary64.ler s r j) pivo)) t)
      linhas colunas ∧
    ∀ i j, Binary64.ler ((List.range colunas).foldl
        (fun s j => Binary64.escrever s r j (Double.div (Binary64.ler s r j) pivo)) t) i j
      = if i = r ∧ j < colunas then Double.div (Binary64.ler t r j) pivo
        else Binary64.ler t i j := by
  refine foldl_range_inv
    (fun l (s : Binary64.Tabela) => Binary64.Dim s linhas colunas ∧
      ∀ i j, Binary64.ler s i j
        = if i = r ∧ j < l then Double.div (Binary64.ler t r j) pivo else Binary64.ler t i j)
    (fun s j => Binary64.escrever s r j (Double.div (Binary64.ler s r j) pivo)) t colunas
    ⟨hd, fun i j => by simp⟩ ?_
  intro l hl s hs
  refine ⟨dim_escrever_double hs.1 _ _ _, fun i j => ?_⟩
  rw [ler_escrever_dim_double hs.1 hr hl, hs.2 i j, hs.2 r l,
    if_neg (show ¬ (r = r ∧ l < l) from fun h => Nat.lt_irrefl l h.2)]
  by_cases h : i = r ∧ j = l
  · rw [if_pos h, if_pos ⟨h.1, by omega⟩, h.2]
  · rw [if_neg h]
    by_cases h2 : i = r ∧ j < l
    · rw [if_pos h2, if_pos ⟨h2.1, by omega⟩]
    · rw [if_neg h2, if_neg (fun h3 => by
        rcases Nat.lt_succ_iff_lt_or_eq.mp h3.2 with hlt | heq
        · exact h2 ⟨h3.1, hlt⟩
        · exact h ⟨h3.1, heq⟩)]

/-- The inner loop of the second loop of `pivotear`: one row minus the
rounded multiples of another row. -/
theorem pivotear_double_laco_interno (s : Binary64.Tabela) (linhas colunas k r : Nat)
    (mult : Double) (hd : Binary64.Dim s linhas colunas) (hk : k < linhas) :
    Binary64.Dim ((List.range colunas).foldl
        (fun u j => Binary64.escrever u k j
          (Double.sub (Binary64.ler u k j) (Double.mul mult (Binary64.ler u r j)))) s)
      linhas colunas ∧
    ∀ i j, Binary64.ler ((List.range colunas).foldl
        (fun u j => Binary64.escrever u k j
          (Double.sub (Binary64.ler u k j) (Double.mul mult (Binary64.ler u r j)))) s) i j
      = if i = k ∧ j < colunas then
          Double.sub (Binary64.ler s k j) (Double.mul mult (Binary64.ler s r j))
        else Binary64.ler s i j := by
  refine foldl_range_inv
    (fun l (u : Binary64.Tabela) => Binary64.Dim u linhas colunas ∧
      ∀ i j, Binary64.ler u i j = if i = k ∧ j < l then
          Double.sub (Binary64.ler s k j) (Double.mul mult (Binary64.ler s r j))
        else Binary64.ler s i j)
    (fun u j => Binary64.escrever u k j
      (Double.sub (Binary64.ler u k j) (Double.mul mult (Binary64.ler u r j)))) s colunas
    ⟨hd, fun i j => by simp⟩ ?_
  intro l hl u hu
  refine ⟨dim_escrever_double hu.1 _ _ _, fun i j => ?_⟩
  rw [ler_escrever_dim_double hu.1 hk hl, hu.2 i j, hu.2 k l, hu.2 r l,
    if_neg (show ¬ (k = k ∧ l < l) from fun h => Nat.lt_irrefl l h.2),
    if_neg (show ¬ (r = k ∧ l < l) from fun h => Nat.lt_irrefl l h.2)]
  by_cases h : i = k ∧ j = l
  · rw [if_pos h, if_pos ⟨h.1, by omega⟩, h.2]
  · rw [if_neg h]
    by_cases h2 : i = k ∧ j < l
    · rw [if_pos h2, if_pos ⟨h2.1, by omega⟩]
    · rw [if_neg h2, if_neg (fun h3 => by
        rcases Nat.lt_succ_iff_lt_or_eq.mp h3.2 with hlt | heq
        · exact h2 ⟨h3.1, hlt⟩
        · exact h ⟨h3.1, heq⟩)]

/-- The second loop of `pivotear`: every row but the pivot row loses its
rounded multiples of the pivot row. -/
theorem pivotear_double_laco2 (t : Binary64.Tabela) (linhas colunas r c : Nat)
    (hd : Binary64.Dim t linhas colunas) :
    Binary64.Dim ((List.range linhas).foldl
        (fun s i =>
          if i ≠ r then
            (List.range colunas).foldl
              (fun u j => Binary64.escrever u i j
                (Double.sub (Binary64.ler u i j)
                  (Double.mul (Binary64.ler s i c) (Binary64.ler u r j)))) s
          else s) t) linhas colunas ∧
    ∀ i j, Binary64.ler ((List.range linhas).foldl
        (fun s i =>
          if i ≠ r then
            (List.range colunas).foldl
              (fun u j => Binary64.escrever u i j
                (Double.sub (Binary64.ler u i j)
                  (Double.mul (Binary64.ler s i c) (Binary64.ler u r j)))) s
          else s) t) i j
      = if i < linhas ∧ i ≠ r ∧ j < colunas then
          Double.sub (Binary64.ler t i j) (Double.mul (Binary64.ler t i c) (Binary64.ler t r j))
        else Binary64.ler t i j := by
  refine foldl_range_inv
    (fun k (s : Binary64.Tabela) => Binary64.Dim s linhas colunas ∧
      ∀ i j, Binary64.ler s i j = if i < k ∧ i ≠ r ∧ j < colunas then
          Double.sub (Binary64.ler t i j) (Double.mul (Binary64.ler t i c) (Binary64.ler t r j))
        else Binary64.ler t i j)
    (fun s i =>
      if i ≠ r then
        (List.range colunas).foldl
          (fun u j => Binary64.escrever u i j
            (Double.sub (Binary64.ler u i j)
              (Double.mul (Binary64.ler s i c) (Binary64.ler u r j)))) s
      else s) t linhas
    ⟨hd, fun i j => by simp⟩ ?_
  intro k hk s hs
  by_cases hkr : k ≠ r
  · simp only [if_pos hkr]
    obtain ⟨hd1, h1⟩ :=
      pivotear_double_laco_interno s linhas colunas k r (Binary64.ler s k c) hs.1 hk
    refine ⟨hd1, fun i j => ?_⟩
    rw [h1 i j, hs.2 k j, hs.2 k c, hs.2 r j, hs.2 i j,
      if_neg (show ¬ (k < k ∧ k ≠ r ∧ j < colunas) from fun h => Nat.lt_irrefl k h.1),
      if_neg (show ¬ (k < k ∧ k ≠ r ∧ c < colunas) from fun h => Nat.lt_irrefl k h.1),
      if_neg (show ¬ (r < k ∧ r ≠ r ∧ j < colunas) from fun h => h.2.1 rfl)]
    by_cases h : i = k ∧ j < colunas
    · rw [if_pos h, if_pos ⟨by omega, by omega, h.2⟩, h.1]
    · rw [if_neg h]
      by_cases h2 : i < k ∧ i ≠ r ∧ j < colunas
      · rw [if_pos h2, if_pos ⟨by omega, h2.2.1, h2.2.2⟩]
      · rw [if_neg h2, if_neg (fun h3 => by
          rcases Nat.lt_succ_iff_lt_or_eq.mp h3.1 with hlt | heq
          · exact h2 ⟨hlt, h3.2.1, h3.2.2⟩
          · exact h ⟨heq, h3.2.2⟩)]
  · have hkr2 : k = r := not_not.mp hkr
    simp only [if_neg hkr]
    refine ⟨hs.1, fun i j => ?_⟩
    rw [hs.2 i j]
    by_cases h2 : i < k ∧ i ≠ r ∧ j < colunas
    · rw [if_pos h2, if_pos ⟨by omega, h2.2.1, h2.2.2⟩]
    · rw [if_neg h2, if_neg (fun h3 => by
        rcases Nat.lt_succ_iff_lt_or_eq.mp h3.1 with hlt | heq
        · exact h2 ⟨hlt, h3.2.1, h3.2.2⟩
        · exact h3.2.1 (heq.trans hkr2))]

/-- The tableau `pivotear` leaves, entry by entry, in the operations of
`double`. -/
theorem pivotear_double_forma (t : Binary64.Tabela) (linhas colunas r c : Nat)
    (hd : Binary64.Dim t linhas colunas) (hr : r < linhas) :
    Binary64.Dim (Binary64.Benchmark.pivotear t linhas colunas r c) linhas colunas ∧
    ∀ i j, i < linhas → j < colunas →
      Binary64.ler (Binary64.Benchmark.pivotear t linhas colunas r c) i j
        = if i = r then Double.div (Binary64.ler t r j) (Binary64.ler t r c)
          else Double.sub (Binary64.ler t i j)
            (Double.mul (Binary64.ler t i c)
              (Double.div (Binary64.ler t r j) (Binary64.ler t r c))) := by
  unfold Binary64.Benchmark.pivotear
  simp only []
  obtain ⟨hd1, h1⟩ := pivotear_double_laco1 t linhas colunas r (Binary64.ler t r c) hd hr
  obtain ⟨hd2, h2⟩ := pivotear_double_laco2 _ linhas colunas r c hd1
  refine ⟨hd2, fun i j hi hj => ?_⟩
  rw [h2 i j]
  by_cases hir : i = r
  · rw [if_neg (fun h => h.2.1 hir), if_pos hir, h1 i j, if_pos ⟨hir, hj⟩]
  · rw [if_pos ⟨hi, hir, hj⟩, if_neg hir, h1 i j, h1 i c, h1 r j,
      if_neg (fun h => hir h.1), if_neg (fun h => hir h.1), if_pos ⟨rfl, hj⟩]

theorem binary64_main_eq :
    Binary64.Main.encontrar_coluna_pivo_correto = Binary64.Benchmark.encontrar_coluna_pivo ∧
    Binary64.Main.encontrar_linha_pivo_correto = Binary64.Benchmark.encontrar_linha_pivo ∧
    Binary64.Main.pivotear = Binary64.Benchmark.pivotear := ⟨rfl, rfl, rfl⟩

/-! ## The comparisons of `double` -/

theorem double_lt_irrefl (a : Double) : Double.lt a a = false := by
  cases a <;> simp [Double.lt, Double.e_nan, Double.valor, Double.negativo]

theorem double_lt_trans {a b c : Double} (h1 : Double.lt a b = true)
    (h2 : Double.lt b c = true) : Double.lt a c = true := by
  cases a <;> cases b <;> cases c <;>
    simp [Double.lt, Double.e_nan, Double.valor, Double.negativo] at h1 h2 ⊢ <;>
    linarith

theorem double_le_lt_trans {a b c : Double} (h1 : Double.le a b = true)
    (h2 : Double.lt b c = true) : Double.lt a c = true := by
  cases a <;> cases b <;> cases c <;>
    simp [Double.lt, Double.le, Double.e_nan, Double.valor, Double.negativo] at h1 h2 ⊢ <;>
    linarith

/-- A `double` below another is not NaN, and neither is the other. -/
theorem double_lt_nao_nan {a b : Double} (h : Double.lt a b = true) :
    a ≠ Double.nan ∧ b ≠ Double.nan := by
  cases a <;> cases b <;> simp [Double.lt, Double.e_nan] at h ⊢

/-! ## Scans for a minimum over `double` values -/

/-- A scan that keeps the smallest key seen so far below a starting bound,
and the index where it was first seen, in the comparisons of `double`. -/
theorem varredura_double_inv (ok : Nat → Prop) [DecidablePred ok] (chave : Nat → Double)
    (lim : Double) (k : Nat) :
    ((((List.range k).foldl
        (fun (st : Double × Int) j =>
          if ok j ∧ Double.lt (chave j) st.1 = true then (chave j, (j : Int)) else st)
        (lim, (-1 : Int))).2 = -1 ∧
      ((List.range k).foldl
        (fun (st : Double × Int) j =>
          if ok j ∧ Double.lt (chave j) st.1 = true then (chave j, (j : Int)) else st)
        (lim, (-1 : Int))).1 = lim ∧
      ∀ j, j < k → ok j → Double.lt (chave j) lim = false) ∨
    (∃ b, b < k ∧
      ((List.range k).foldl
        (fun (st : Double × Int) j =>
          if ok j ∧ Double.lt (chave j) st.1 = true then (chave j, (j : Int)) else st)
        (lim, (-1 : Int))).2 = (b : Int) ∧
      ((List.range k).foldl
        (fun (st : Double × Int) j =>
          if ok j ∧ Double.lt (chave j) st.1 = true then (chave j, (j : Int)) else st)
        (lim, (-1 : Int))).1 = chave b ∧
      ok b ∧ Double.lt (chave b) lim = true ∧
      (∀ j, j < k → ok j → Double.lt (chave j) (chave b) = false) ∧
      (∀ j, j < b → ok j → Double.le (chave j) (chave b) = false))) := by
  induction k with
  | zero =>
    left
    exact ⟨rfl, rfl, fun j hj => absurd hj (Nat.not_lt_zero j)⟩
  | succ k ih =>
    rw [foldl_range_succ]
    rcases ih with ⟨h2, h1, hall⟩ | ⟨b, hb, h2, h1, hokb, hblim, hmin, hfirst⟩
    · by_cases hc : ok k ∧ Double.lt (chave k) lim = true
      · right
        refine ⟨k, Nat.lt_succ_self k, ?_, ?_, hc.1, hc.2, ?_, ?_⟩
        · rw [h1, if_pos hc]
        · rw [h1, if_pos hc]
        · intro j hj hokj
          rcases Nat.lt_succ_iff_lt_or_eq.mp hj with hlt | heq
          · rw [Bool.eq_false_iff]
            intro h
            have := double_lt_trans h hc.2
            rw [hall j hlt hokj] at this
            exact Bool.noConfusion this
          · rw [heq]; exact double_lt_irrefl _
        · intro j hj hokj
          rw [Bool.eq_false_iff]
          intro h
          have := double_le_lt_trans h hc.2
          rw [hall j hj hokj] at this
          exact Bool.noConfusion this
      · left
        refine ⟨?_, ?_, ?_⟩
        · rw [h1, if_neg hc]; exact h2
        · rw [h1, if_neg hc]; exact h1
        · intro j hj hokj
          rcases Nat.lt_succ_iff_lt_or_eq.mp hj with hlt | heq
          · exact hall j hlt hokj
          · subst heq
            rw [Bool.eq_false_iff]
            exact fun h => hc ⟨hokj, h⟩
    · right
      by_cases hc : ok k ∧ Double.lt (chave k) (chave b) = true
      · refine ⟨k, Nat.lt_succ_self k, ?_, ?_, hc.1, double_lt_trans hc.2 hblim, ?_, ?_⟩
        · rw [h1, if_pos hc]
        · rw [h1, if_pos hc]
        · intro j hj hokj
          rcases Nat.lt_succ_iff_lt_or_eq.mp hj with hlt | heq
          · rw [Bool.eq_false_iff]
            intro h
            have := double_lt_trans h hc.2
            rw [hmin j hlt hokj] at this
            exact Bool.noConfusion this
          · rw [heq]; exact double_lt_irrefl _
        · intro j hj hokj
          rw [Bool.eq_false_iff]
          intro h
          have := double_le_lt_trans h hc.2
          rw [hmin j hj hokj] at this
          exact Bool.noConfusion this
      · refine ⟨b, Nat.lt_succ_of_lt hb, ?_, ?_, hokb, hblim, ?_, hfirst⟩
        · rw [h1, if_neg hc]; exact h2
        · rw [h1, if_neg hc]; exact h1
        · intro j hj hokj
          rcases Nat.lt_succ_iff_lt_or_eq.mp hj with hlt | heq
          · exact hmin j hlt hokj
          · subst heq
            rw [Bool.eq_false_iff]
            exact fun h => hc ⟨hokj, h⟩

theorem encontrar_coluna_pivo_double_varredura (tabela : Binary64.Tabela)
    (linhas colunas : Nat) :
    Binary64.Benchmark.encontrar_coluna_pivo tabela linhas colunas =
      ((List.range (colunas - 1)).foldl
        (fun (st : Double × Int) j =>
          if True ∧ Double.lt (Binary64.ler tabela (linhas - 1) j) st.1 = true
          then (Binary64.ler tabela (linhas - 1) j, (j : Int))
          else st)
        (Double.finito 0, (-1 : Int))).2 := by
  unfold Binary64.Benchmark.encontrar_coluna_pivo
  simp only [true_and]

theorem encontrar_linha_pivo_double_varredura (tabela : Binary64.Tabela)
    (linhas colunas coluna_pivo : Nat) :
    Binary64.Benchmark.encontrar_linha_pivo tabela linhas colunas coluna_pivo =
      ((List.range (linhas - 1)).foldl
        (fun (st : Double × Int) i =>
          if Double.gt (Binary64.ler tabela i coluna_pivo) (Double.finito 0) = true ∧
              Double.lt (Double.div (Binary64.ler tabela i (colunas - 1))
                (Binary64.ler tabela i coluna_pivo)) st.1 = true
          then (Double.div (Binary64.ler tabela i (colunas - 1))
                (Binary64.ler tabela i coluna_pivo), (i : Int))
          else st)
        (Binary64.DBL_MAX, (-1 : Int))).2 := by
  unfold Binary64.Benchmark.encontrar_linha_pivo
  congr 2
  funext st i
  by_cases h1 : Double.gt (Binary64.ler tabela i coluna_pivo) (Double.finito 0) = true
  · by_cases h2 : Double.lt (Double.div (Binary64.ler tabela i (colunas - 1))
        (Binary64.ler tabela i coluna_pivo)) st.1 = true
    · simp [h1, h2]
    · simp [h1, h2]
  · simp [h1]

/-- What `encontrar_coluna_pivo` returns on `double` values. -/
theorem encontrar_coluna_pivo_double_casos (tabela : Binary64.Tabela) (linhas colunas : Nat) :
    (Binary64.Benchmark.encontrar_coluna_pivo tabela linhas colunas = -1 ∧
      ∀ j, j < colunas - 1 →
        Double.lt (Binary64.ler tabela (linhas - 1) j) (Double.finito 0) = false) ∨
    (∃ b, b < colunas - 1 ∧
      Binary64.Benchmark.encontrar_coluna_pivo tabela linhas colunas = (b : Int) ∧
      Double.lt (Binary64.ler tabela (linhas - 1) b) (Double.finito 0) = true ∧
      (∀ j, j < colunas - 1 →
        Double.lt (Binary64.ler tabela (linhas - 1) j) (Binary64.ler tabela (linhas - 1) b)
          = false) ∧
      (∀ j, j < b →
        Double.le (Binary64.ler tabela (linhas - 1) j) (Binary64.ler tabela (linhas - 1) b)
          = false)) := by
  rw [encontrar_coluna_pivo_double_varredura]
  rcases varredura_double_inv (fun _ => True) (fun j => Binary64.ler tabela (linhas - 1) j)
    (Double.finito 0) (colunas - 1) with
    ⟨h2, _, hall⟩ | ⟨b, hb, h2, _, _, hneg, hmin, hfirst⟩
  · left
    exact ⟨h2, fun j hj => hall j hj trivial⟩
  · right
    exact ⟨b, hb, h2, hneg, fun j hj => hmin j hj trivial, fun j hj => hfirst j hj trivial⟩

/-- What `encontrar_linha_pivo` returns on `double` values; the ratio of a row
is the `double` quotient the function computes. -/
theorem encontrar_linha_pivo_double_casos (tabela : Binary64.Tabela)
    (linhas colunas coluna_pivo : Nat) :
    (Binary64.Benchmark.encontrar_linha_pivo tabela linhas colunas coluna_pivo = -1 ∧
      ∀ i, i < linhas - 1 →
        Double.gt (Binary64.ler tabela i coluna_pivo) (Double.finito 0) = true →
        Double.lt (Double.div (Binary64.ler tabela i (colunas - 1))
          (Binary64.ler tabela i coluna_pivo)) Binary64.DBL_MAX = false) ∨
    (∃ b, b < linhas - 1 ∧
      Binary64.Benchmark.encontrar_linha_pivo tabela linhas colunas coluna_pivo = (b : Int) ∧
      Double.gt (Binary64.ler tabela b coluna_pivo) (Double.finito 0) = true ∧
      Double.lt (Double.div (Binary64.ler tabela b (colunas - 1))
        (Binary64.ler tabela b coluna_pivo)) Binary64.DBL_MAX = true ∧
      (∀ i, i < linhas - 1 →
        Double.gt (Binary64.ler tabela i coluna_pivo) (Double.finito 0) = true →
        Double.lt
          (Double.div (Binary64.ler tabela i (colunas - 1)) (Binary64.ler tabela i coluna_pivo))
          (Double.div (Binary64.ler tabela b (colunas - 1)) (Binary64.ler tabela b coluna_pivo))
          = false) ∧
      (∀ i, i < b →
        Double.gt (Binary64.ler tabela i coluna_pivo) (Double.finito 0) = true →
        Double.le
          (Double.div (Binary64.ler tabela i (colunas - 1)) (Binary64.ler tabela i coluna_pivo))
          (Double.div (Binary64.ler tabela b (colunas - 1)) (Binary64.ler tabela b coluna_pivo))
          = false)) := by
  rw [encontrar_linha_pivo_double_varredura]
  rcases varredura_double_inv
    (fun i => Double.gt (Binary64.ler tabela i coluna_pivo) (Double.finito 0) = true)
    (fun i => Double.div (Binary64.ler tabela i (colunas - 1))
      (Binary64.ler tabela i coluna_pivo)) Binary64.DBL_MAX (linhas - 1) with
    ⟨h2, _, hall⟩ | ⟨b, hb, h2, _, hok, hlim, hmin, hfirst⟩
  · left
    exact ⟨h2, hall⟩
  · right
    exact ⟨b, hb, h2, hok, hlim, hmin, hfirst⟩

/-! ## The tableau the drivers leave, on `double` values -/

/-- What holds of the tableau the capped driver leaves on its "no entering
column" exit and on its `return -1` exit, and when it returns -1. -/
theorem simplex_laco_double_final (linhas colunas : Nat) (restantes : Nat) :
    ∀ (t : Binary64.Tabela) (it pv : Nat),
    ((Binary64.Benchmark.simplex_laco linhas colunas restantes t it pv).estado
        = Benchmark.Estado.otimo →
      ∀ j, j < colunas - 1 →
        Double.lt
          (Binary64.ler (Binary64.Benchmark.simplex_laco linhas colunas restantes t it pv).tabela
            (linhas - 1) j)
          (Double.finito 0) = false) ∧
    ((Binary64.Benchmark.simplex_laco linhas colunas restantes t it pv).retorno = -1 ↔
      (Binary64.Benchmark.simplex_laco linhas colunas restantes t it pv).estado
        = Benchmark.Estado.ilimitado) ∧
    ((Binary64.Benchmark.simplex_laco linhas colunas restantes t it pv).estado
        = Benchmark.Estado.ilimitado →
      ∃ c, c < colunas - 1 ∧
        Double.lt
          (Binary64.ler (Binary64.Benchmark.simplex_laco linhas colunas restantes t it pv).tabela
            (linhas - 1) c)
          (Double.finito 0) = true ∧
        ∀ i, i < linhas - 1 →
          Double.gt
            (Binary64.ler
              (Binary64.Benchmark.simplex_laco linhas colunas restantes t it pv).tabela i c)
            (Double.finito 0) = true →
          Double.lt
            (Double.div
              (Binary64.ler
                (Binary64.Benchmark.simplex_laco linhas colunas restantes t it pv).tabela i
                (colunas - 1))
              (Binary64.ler
                (Binary64.Benchmark.simplex_laco linhas colunas restantes t it pv).tabela i c))
            Binary64.DBL_MAX = false) := by
  induction restantes with
  | zero =>
    intro t it pv
    simp only [Binary64.Benchmark.simplex_laco]
    refine ⟨fun h => absurd h (by decide), ⟨fun h => ?_, fun h => absurd h (by decide)⟩,
      fun h => absurd h (by decide)⟩
    omega
  | succ k ih =>
    intro t it pv
    unfold Binary64.Benchmark.simplex_laco
    simp only []
    rcases encontrar_coluna_pivo_double_casos t linhas colunas with
      ⟨h1, hall⟩ | ⟨c, hc, hce, hneg, _, _⟩
    · rw [if_pos h1]
      refine ⟨fun _ => hall, ⟨fun h => ?_, fun h => ?_⟩, fun h => ?_⟩
      · simp only [] at h
        omega
      · exact absurd (show Benchmark.Estado.otimo = Benchmark.Estado.ilimitado from h)
          (by decide)
      · exact absurd (show Benchmark.Estado.otimo = Benchmark.Estado.ilimitado from h)
          (by decide)
    · have h1 : Binary64.Benchmark.encontrar_coluna_pivo t linhas colunas ≠ -1 := by
        rw [hce]; omega
      rw [if_neg h1]
      by_cases h2 : Binary64.Benchmark.encontrar_linha_pivo t linhas colunas
          (Binary64.Benchmark.encontrar_coluna_pivo t linhas colunas).toNat = -1
      · rw [if_pos h2]
        refine ⟨fun h =>
            absurd (show Benchmark.Estado.ilimitado = Benchmark.Estado.otimo from h) (by decide),
          ⟨fun _ => rfl, fun _ => rfl⟩, fun _ => ⟨c, hc, hneg, ?_⟩⟩
        rw [hce, Int.toNat_ofNat] at h2
        rcases encontrar_linha_pivo_double_casos t linhas colunas c with
          ⟨_, hno⟩ | ⟨r, _, hre, _, _, _, _⟩
        · exact hno
        · rw [hre] at h2
          omega
      · rw [if_neg h2]
        exact ih _ _ _

/-- What holds of the tableau the uncapped driver leaves on each of its two
exits. -/
theorem simplex_main_double_final (linhas colunas : Nat) (rodadas : Nat) :
    ∀ (t tf : Binary64.Tabela),
    (Binary64.Main.simplex linhas colunas rodadas t = some (tf, Main.Parada.otima) →
      ∀ j, j < colunas - 1 →
        Double.lt (Binary64.ler tf (linhas - 1) j) (Double.finito 0) = false) ∧
    (Binary64.Main.simplex linhas colunas rodadas t = some (tf, Main.Parada.ilimitado) →
      ∃ c, c < colunas - 1 ∧
        Double.lt (Binary64.ler tf (linhas - 1) c) (Double.finito 0) = true ∧
        ∀ i, i < linhas - 1 →
          Double.gt (Binary64.ler tf i c) (Double.finito 0) = true →
          Double.lt (Double.div (Binary64.ler tf i (colunas - 1)) (Binary64.ler tf i c))
            Binary64.DBL_MAX = false) := by
  induction rodadas with
  | zero =>
    intro t tf
    simp [Binary64.Main.simplex]
  | succ k ih =>
    intro t tf
    unfold Binary64.Main.simplex
    simp only []
    rw [binary64_main_eq.1, binary64_main_eq.2.1, binary64_main_eq.2.2]
    rcases encontrar_coluna_pivo_double_casos t linhas colunas with
      ⟨h1, hall⟩ | ⟨c, hc, hce, hneg, _, _⟩
    · rw [if_pos h1]
      constructor
      · intro h
        have := congrArg Prod.fst (Option.some.inj h)
        simp only [] at this
        rw [← this]
        exact hall
      · intro h
        have := congrArg Prod.snd (Option.some.inj h)
        simp at this
    · have h1 : Binary64.Benchmark.encontrar_coluna_pivo t linhas colunas ≠ -1 := by
        rw [hce]; omega
      rw [if_neg h1]
      by_cases h2 : Binary64.Benchmark.encontrar_linha_pivo t linhas colunas
          (Binary64.Benchmark.encontrar_coluna_pivo t linhas colunas).toNat = -1
      · rw [if_pos h2]
        constructor
        · intro h
          have := congrArg Prod.snd (Option.some.inj h)
          simp at this
        · intro h
          have := congrArg Prod.fst (Option.some.inj h)
          simp only [] at this
          rw [← this]
          refine ⟨c, hc, hneg, ?_⟩
          rw [hce, Int.toNat_ofNat] at h2
          rcases encontrar_linha_pivo_double_casos t linhas colunas c with
            ⟨_, hno⟩ | ⟨r, _, hre, _, _, _, _⟩
          · exact hno
          · rw [hre] at h2
            omega
      · rw [if_neg h2]
        exact ih _ tf

/-! ## The sign of a rounded result -/

/-- The `double` delivered by an operation is never NaN. -/
theorem de_exato_nao_nan (q : ℚ) (s : Bool) : (Double.de_exato q s).e_nan = false := by
  unfold Double.de_exato Double.zero
  split_ifs <;> rfl

/-! ## Operations of `double` that do not round -/

theorem arredondar_um : Double.arredondar 1 = 1 := by decide!

theorem de_exato_zero (s : Bool) : Double.de_exato 0 s = Double.zero s := by
  have h1 : ¬ ((2 : ℚ) ^ 1024 ≤ 0) := not_le.mpr (by positivity)
  have h2 : ¬ ((0 : ℚ) ≤ -(2 ^ 1024)) := by
    have : (0 : ℚ) < 2 ^ 1024 := by positivity
    intro h
    linarith
  have h0 : Double.arredondar 0 = 0 := by simp [Double.arredondar]
  unfold Double.de_exato
  rw [h0, if_neg h1, if_neg h2, if_pos rfl]
  simp

/-- A finite non-zero `double` divided by itself is 1. -/
theorem double_div_self {a : Double} {p : ℚ} (ha : a.valor = some p) (hp : p ≠ 0) :
    Double.div a a = Double.finito 1 := by
  cases a with
  | finito q =>
    have hq : q = p := by simpa [Double.valor] using ha
    subst hq
    simp only [Double.div, Double.e_nan, Double.valor, Bool.or_self, Bool.false_eq_true,
      if_false, if_neg hp, div_self hp]
    unfold Double.de_exato
    rw [arredondar_um]
    norm_num
  | zero_neg =>
    exfalso
    apply hp
    simpa [Double.valor] using ha.symm
  | inf_pos => simp [Double.valor] at ha
  | inf_neg => simp [Double.valor] at ha
  | nan => simp [Double.valor] at ha

/-- A finite `double` times 1 is itself. -/
theorem double_mul_um {a : Double} (ha : a.finita = true) :
    Double.mul a (Double.finito 1) = a := by
  cases a with
  | finito q =>
    simp only [Double.finita, Bool.and_eq_true, decide_eq_true_eq] at ha
    obtain ⟨h1, h2⟩ := ha
    have h3 := abs_lt.mp h2
    simp only [Double.mul, Double.e_nan, Double.valor, Bool.or_self, Bool.false_eq_true,
      if_false, mul_one]
    unfold Double.de_exato
    rw [h1, if_neg (not_le.mpr h3.2), if_neg (not_le.mpr h3.1)]
    by_cases h0 : q = 0
    · subst h0
      simp [Double.zero, Double.negativo]
    · rw [if_neg h0]
  | zero_neg =>
    simp only [Double.mul, Double.e_nan, Double.valor, Bool.or_self, Bool.false_eq_true,
      if_false, mul_one]
    rw [de_exato_zero]
    simp [Double.zero, Double.negativo]
  | inf_pos => simp [Double.finita] at ha
  | inf_neg => simp [Double.finita] at ha
  | nan => simp [Double.finita] at ha

/-- A finite `double` minus itself is `+0.0`. -/
theorem double_sub_self {a : Double} (ha : a.finita = true) :
    Double.sub a a = Double.finito 0 := by
  cases a with
  | finito q =>
    simp only [Double.sub, Double.e_nan, Double.valor, Bool.or_self, Bool.false_eq_true,
      if_false, sub_self]
    rw [de_exato_zero]
    simp [Double.zero]
  | zero_neg =>
    simp only [Double.sub, Double.e_nan, Double.valor, Bool.or_self, Bool.false_eq_true,
      if_false, sub_self]
    rw [de_exato_zero]
    simp [Double.zero, Double.negativo]
  | inf_pos => simp [Double.finita] at ha
  | inf_neg => simp [Double.finita] at ha
  | nan => simp [Double.finita] at ha

theorem double_finita_valor {a : Double} (ha : a.finita = true) :
    a.valor = some a.racional := by
  cases a <;> simp [Double.finita, Double.valor, Double.racional] at ha ⊢

theorem double_exato_racional {d : Double} {q : ℚ} (h : Double.Exato d q) :
    d.racional = q := by
  unfold Double.Exato at h
  simp [Double.racional, h]

/-! ## The last column after one step, on `double` values -/

/-- The product of two finite `double` values. -/
theorem double_mul_finitos {a b : Double} {x y : ℚ} (ha : a.valor = some x)
    (hb : b.valor = some y) :
    Double.mul a b = Double.de_exato (x * y) (xor a.negativo b.negativo) := by
  cases a <;> simp [Double.valor] at ha <;> subst ha <;>
    cases b <;> simp [Double.valor] at hb <;> subst hb <;>
    simp [Double.mul, Double.e_nan, Double.valor]

/-- The difference of two finite `double` values. -/
theorem double_sub_finitos {a b : Double} {x y : ℚ} (ha : a.valor = some x)
    (hb : b.valor = some y) :
    Double.sub a b = Double.de_exato (x - y) (a.negativo && !b.negativo) := by
  cases a <;> simp [Double.valor] at ha <;> subst ha <;>
    cases b <;> simp [Double.valor] at hb <;> subst hb <;>
    simp [Double.sub, Double.e_nan, Double.valor]

/-- One exact Gauss-Jordan step keeps the solutions of the homogeneous
equations of the rows. -/
theorem solucoes_passo_exato (x y : Nat → Nat → ℚ) (linhas colunas r c : Nat) (v : Nat → ℚ)
    (hr : r < linhas) (hp : x r c ≠ 0)
    (h1 : ∀ j, j < colunas → y r j = x r j / x r c)
    (h2 : ∀ i j, i < linhas → i ≠ r → j < colunas → y i j = x i j - x i c * (x r j / x r c)) :
    (∀ i, i < linhas → ∑ j ∈ Finset.range colunas, y i j * v j = 0) ↔
      (∀ i, i < linhas → ∑ j ∈ Finset.range colunas, x i j * v j = 0) := by
  have hyr : ∑ j ∈ Finset.range colunas, y r j * v j
      = (∑ j ∈ Finset.range colunas, x r j * v j) / x r c := by
    rw [Finset.sum_div]
    apply Finset.sum_congr rfl
    intro j hj
    rw [h1 j (Finset.mem_range.mp hj)]
    ring
  have hyi : ∀ i, i < linhas → i ≠ r →
      ∑ j ∈ Finset.range colunas, y i j * v j
        = (∑ j ∈ Finset.range colunas, x i j * v j)
          - x i c * ((∑ j ∈ Finset.range colunas, x r j * v j) / x r c) := by
    intro i hi hir
    rw [Finset.sum_div, Finset.mul_sum, ← Finset.sum_sub_distrib]
    apply Finset.sum_congr rfl
    intro j hj
    rw [h2 i j hi hir (Finset.mem_range.mp hj)]
    ring
  constructor
  · intro h
    have hrr : ∑ j ∈ Finset.range colunas, x r j * v j = 0 := by
      have := h r hr
      rw [hyr] at this
      rcases div_eq_zero_iff.mp this with h0 | h0
      · exact h0
      · exact absurd h0 hp
    intro i hi
    by_cases hir : i = r
    · rw [hir]; exact hrr
    · have := h i hi
      rw [hyi i hi hir, hrr] at this
      simpa using this
  · intro h i hi
    by_cases hir : i = r
    · rw [hir, hyr, h r hr]; simp
    · rw [hyi i hi hir, h r hr, h i hi]; simp

/-- The values `pivotear` leaves when no operation of it rounds. -/
theorem pivotear_double_exato (t : Binary64.Tabela) (linhas colunas r c : Nat)
    (hd : Binary64.Dim t linhas colunas) (hr : r < linhas)
    (hex : Binary64.SemArredondamento t linhas colunas r c) :
    (∀ j, j < colunas →
      (Binary64.ler (Binary64.Benchmark.pivotear t linhas colunas r c) r j).racional
        = (Binary64.ler t r j).racional / (Binary64.ler t r c).racional) ∧
    (∀ i j, i < linhas → i ≠ r → j < colunas →
      (Binary64.ler (Binary64.Benchmark.pivotear t linhas colunas r c) i j).racional
        = (Binary64.ler t i j).racional
          - (Binary64.ler t i c).racional
            * ((Binary64.ler t r j).racional / (Binary64.ler t r c).racional)) := by
  obtain ⟨_, h1⟩ := pivotear_double_forma t linhas colunas r c hd hr
  constructor
  · intro j hj
    rw [h1 r j hr hj, if_pos rfl]
    exact double_exato_racional (hex.1 j hj)
  · intro i j hi hir hj
    rw [h1 i j hi hj, if_neg hir]
    exact double_exato_racional (hex.2 i j hi hir hj)

/-! ## Integers that `double` represents -/

theorem log2_laco_spec (k : Nat) : ∀ n, 1 ≤ n → n ≤ k →
    2 ^ Double.log2_laco k n ≤ n ∧ n < 2 ^ (Double.log2_laco k n + 1) := by
  induction k with
  | zero =>
    intro n h1 h2
    omega
  | succ k ih =>
    intro n h1 h2
    unfold Double.log2_laco
    by_cases hn : n < 2
    · rw [if_pos hn]
      have : n = 1 := by omega
      subst this
      simp
    · rw [if_neg hn]
      have hk : n / 2 ≤ k := by omega
      obtain ⟨ha, hb⟩ := ih (n / 2) (by omega) hk
      constructor
      · rw [pow_succ]
        omega
      · rw [pow_succ]
        omega

theorem log2_spec (n : Nat) (h : 1 ≤ n) :
    2 ^ Double.log2 n ≤ n ∧ n < 2 ^ (Double.log2 n + 1) :=
  log2_laco_spec n n h (le_refl n)

theorem inteiro_par_inteiro (w : Int) : Double.inteiro_par (w : ℚ) = w := by
  have hf : Rat.floor (w : ℚ) = w := by
    apply le_antisymm
    · have h : ((Rat.floor (w : ℚ) : Int) : ℚ) ≤ (w : ℚ) := Rat.le_floor.mp le_rfl
      exact_mod_cast h
    · exact Rat.le_floor.mpr le_rfl
  unfold Double.inteiro_par
  simp only [hf, sub_self]
  rw [if_pos (by norm_num)]

theorem pot2_nonpos (e : Int) (he : e ≤ 0) : Double.pot2 e = 1 / (2 : ℚ) ^ (-e).toNat := by
  unfold Double.pot2
  by_cases h : 0 ≤ e
  · have : e = 0 := le_antisymm he h
    subst this
    simp
  · rw [if_neg h]

theorem pot2_nonneg (e : Int) (he : 0 ≤ e) : Double.pot2 e = (2 : ℚ) ^ e.toNat := by
  unfold Double.pot2
  rw [if_pos he]

/-- The binary exponent of a non-zero integer is the binary logarithm of its
absolute value. -/
theorem expoente_inteiro (z : Int) (hz : z ≠ 0) :
    Double.expoente (z : ℚ) = (Double.log2 z.natAbs : Int) := by
  have ha : 1 ≤ z.natAbs := Int.natAbs_pos.mpr hz
  obtain ⟨h1, _⟩ := log2_spec z.natAbs ha
  have hl1 : Double.log2 1 = 0 := by decide
  unfold Double.expoente
  simp only [Rat.num_intCast, Rat.den_intCast, hl1, Nat.cast_zero, sub_zero]
  rw [if_neg]
  rw [pot2_nonneg _ (Int.natCast_nonneg _), Int.toNat_natCast, not_lt]
  have habs : |(z : ℚ)| = (z.natAbs : ℚ) := by
    rw [← Int.cast_abs, Int.abs_eq_natAbs, Int.cast_natCast]
  rw [habs]
  exact_mod_cast h1

/-- Rounding leaves an integer below `2^53` in absolute value as it is. -/
theorem arredondar_inteiro (z : Int) (hz : z.natAbs < 2 ^ 53) :
    Double.arredondar (z : ℚ) = (z : ℚ) := by
  by_cases h0 : z = 0
  · subst h0
    simp [Double.arredondar]
  · have ha : 1 ≤ z.natAbs := Int.natAbs_pos.mpr h0
    obtain ⟨h1, _⟩ := log2_spec z.natAbs ha
    have hL : Double.log2 z.natAbs ≤ 52 := by
      by_contra hcon
      have : (2 : Nat) ^ 53 ≤ 2 ^ Double.log2 z.natAbs :=
        Nat.pow_le_pow_right (by decide) (by omega)
      omega
    have hq : (z : ℚ) ≠ 0 := by exact_mod_cast h0
    unfold Double.arredondar
    rw [if_neg hq]
    simp only []
    rw [expoente_inteiro z h0]
    have hmax : max (Double.log2 z.natAbs : Int) (-1022) = (Double.log2 z.natAbs : Int) := by
      apply max_eq_left
      omega
    rw [hmax]
    have hk : ((Double.log2 z.natAbs : Int) - 52) ≤ 0 := by omega
    rw [pot2_nonpos _ hk]
    have hw : (z : ℚ) / (1 / (2 : ℚ) ^ (-((Double.log2 z.natAbs : Int) - 52)).toNat)
        = ((z * 2 ^ (-((Double.log2 z.natAbs : Int) - 52)).toNat : Int) : ℚ) := by
      push_cast
      field_simp
    rw [hw, inteiro_par_inteiro]
    push_cast
    field_simp

theorem de_exato_inteiro (z : Int) (hz : z.natAbs < 2 ^ 53) (s : Bool) :
    Double.de_exato (z : ℚ) s = if z = 0 then Double.zero s else Double.finito (z : ℚ) := by
  have habs : |(z : ℚ)| < 2 ^ 53 := by
    rw [← Int.cast_abs, Int.abs_eq_natAbs, Int.cast_natCast]
    exact_mod_cast hz
  have hlt := abs_lt.mp habs
  have h53 : (2 : ℚ) ^ 53 < 2 ^ 1024 := by norm_num
  unfold Double.de_exato
  rw [arredondar_inteiro z hz, if_neg (by linarith), if_neg (by linarith)]
  by_cases h0 : z = 0
  · subst h0
    simp
  · have hq : (z : ℚ) ≠ 0 := by exact_mod_cast h0
    rw [if_neg hq, if_neg h0]

/-- An integer below `2^53` in absolute value is a finite `double`. -/
theorem finita_inteiro (z : Int) (hz : z.natAbs < 2 ^ 53) :
    (Double.finito (z : ℚ)).finita = true := by
  have habs : |(z : ℚ)| < 2 ^ 53 := by
    rw [← Int.cast_abs, Int.abs_eq_natAbs, Int.cast_natCast]
    exact_mod_cast hz
  have h53 : (2 : ℚ) ^ 53 < 2 ^ 1024 := by norm_num
  simp only [Double.finita, Bool.and_eq_true, decide_eq_true_eq]
  exact ⟨arredondar_inteiro z hz, lt_trans habs h53⟩

/-- A finite `double` divided by 1 is itself. -/
theorem double_div_um {a : Double} (ha : a.finita = true) :
    Double.div a (Double.finito 1) = a := by
  have h := double_mul_um ha
  cases a with
  | finito q =>
    simp only [Double.mul, Double.e_nan, Double.valor, Bool.or_self, Bool.false_eq_true,
      if_false, mul_one] at h
    simp only [Double.div, Double.e_nan, Double.valor, Bool.or_self, Bool.false_eq_true,
      if_false, div_one, one_ne_zero]
    exact h
  | zero_neg =>
    simp only [Double.mul, Double.e_nan, Double.valor, Bool.or_self, Bool.false_eq_true,
      if_false, mul_one] at h
    simp only [Double.div, Double.e_nan, Double.valor, Bool.or_self, Bool.false_eq_true,
      if_false, div_one, one_ne_zero]
    exact h
  | inf_pos => simp [Double.finita] at ha
  | inf_neg => simp [Double.finita] at ha
  | nan => simp [Double.finita] at ha

/-- On integers whose product and whose difference stay below `2^53` in
absolute value, `y - m * x` in `double` is the exact result. -/
theorem double_sub_mul_inteiros (y m x : Int) (hp : (m * x).natAbs < 2 ^ 53)
    (hd : (y - m * x).natAbs < 2 ^ 53) :
    Double.sub (Double.finito (y : ℚ)) (Double.mul (Double.finito (m : ℚ)) (Double.finito (x : ℚ)))
      = Double.finito ((y : ℚ) - (m : ℚ) * (x : ℚ)) := by
  have hmul : Double.mul (Double.finito (m : ℚ)) (Double.finito (x : ℚ))
      = Double.de_exato ((m * x : Int) : ℚ)
          (xor (Double.finito (m : ℚ)).negativo (Double.finito (x : ℚ)).negativo) := by
    rw [double_mul_finitos (show (Double.finito (m : ℚ)).valor = some (m : ℚ) from rfl)
      (show (Double.finito (x : ℚ)).valor = some (x : ℚ) from rfl)]
    push_cast
    rfl
  rw [hmul, de_exato_inteiro _ hp]
  have hcast : ((y : ℚ) - (m : ℚ) * (x : ℚ)) = ((y - m * x : Int) : ℚ) := by push_cast; rfl
  by_cases h0 : m * x = 0
  · rw [if_pos h0]
    have hv : (Double.zero (xor (Double.finito (m : ℚ)).negativo
        (Double.finito (x : ℚ)).negativo)).valor = some ((m * x : Int) : ℚ) := by
      rw [h0]
      unfold Double.zero
      split_ifs <;> simp [Double.valor]
    rw [double_sub_finitos (show (Double.finito (y : ℚ)).valor = some (y : ℚ) from rfl) hv]
    have hcast2 : ((y : ℚ) - ((m * x : Int) : ℚ)) = ((y - m * x : Int) : ℚ) := by push_cast; rfl
    rw [hcast2, de_exato_inteiro _ hd, hcast]
    by_cases hy : y - m * x = 0
    · rw [if_pos hy, hy]
      have hy0 : y = 0 := by omega
      subst hy0
      simp [Double.zero, Double.negativo]
    · rw [if_neg hy]
  · rw [if_neg h0]
    rw [double_sub_finitos (show (Double.finito (y : ℚ)).valor = some (y : ℚ) from rfl)
      (show (Double.finito ((m * x : Int) : ℚ)).valor = some ((m * x : Int) : ℚ) from rfl)]
    have hcast2 : ((y : ℚ) - ((m * x : Int) : ℚ)) = ((y - m * x : Int) : ℚ) := by push_cast; rfl
    rw [hcast2, de_exato_inteiro _ hd, hcast]
    by_cases hy : y - m * x = 0
    · rw [if_pos hy, hy]
      have hyq : (y : ℚ) = ((m * x : Int) : ℚ) := by
        have : y = m * x := by omega
        rw [this]
      by_cases hneg : (y : ℚ) < 0
      · have h1 : ((m * x : Int) : ℚ) < 0 := by rw [← hyq]; exact hneg
        have h2 : (m : ℚ) * (x : ℚ) < 0 := by exact_mod_cast h1
        simp [Double.zero, Double.negativo, hneg, h2]
      · simp [Double.zero, Double.negativo, hneg]
    · rw [if_neg hy]

/-! ## One step on a tableau of integers with pivot 1 -/

theorem ler_de_racionais (t : Tabela) (i j : Nat) :
    Binary64.ler (Binary64.de_racionais t) i j = Double.finito (ler t i j) := by
  unfold Binary64.ler Binary64.de_racionais ler
  simp only [List.getD_eq_getElem?_getD, List.getElem?_map]
  cases hti : t[i]? with
  | none => simp
  | some linha =>
    simp only [Option.map_some', Option.getD_some, List.getElem?_map]
    cases hlj : linha[j]? with
    | none => simp
    | some v => simp

theorem dim_de_racionais {t : Tabela} {linhas colunas : Nat} (h : Dim t linhas colunas) :
    Binary64.Dim (Binary64.de_racionais t) linhas colunas := by
  refine ⟨by simp [Binary64.de_racionais]; exact h.1, ?_⟩
  intro linha hl
  unfold Binary64.de_racionais at hl
  obtain ⟨l0, hl0, rfl⟩ := List.mem_map.mp hl
  rw [List.length_map]
  exact h.2 l0 hl0

/-- On a tableau of integers with pivot 1, where the products and the
differences of the step stay below `2^53` in absolute value, `pivotear` on
`double` values leaves the tableau that `pivotear` in exact arithmetic
leaves: no operation of the step rounds. -/
theorem passo_inteiros (t : Tabela) (linhas colunas r c : Nat) (z : Nat → Nat → Int)
    (hd : Dim t linhas colunas) (hr : r < linhas) (hc : c < colunas)
    (hz : ∀ i j, i < linhas → j < colunas → ler t i j = (z i j : ℚ))
    (hp : z r c = 1)
    (hlim : ∀ i j, i < linhas → j < colunas →
      (z r j).natAbs < 2 ^ 53 ∧ (z i c * z r j).natAbs < 2 ^ 53 ∧
        (z i j - z i c * z r j).natAbs < 2 ^ 53) :
    ∀ i j, i < linhas → j < colunas →
      Binary64.ler
          (Binary64.Benchmark.pivotear (Binary64.de_racionais t) linhas colunas r c) i j
        = Double.finito (ler (Benchmark.pivotear t linhas colunas r c) i j) := by
  intro i j hi hj
  obtain ⟨_, h1⟩ := pivotear_double_forma (Binary64.de_racionais t) linhas colunas r c
    (dim_de_racionais hd) hr
  obtain ⟨_, h2⟩ := pivotear_forma t linhas colunas r c hd hr
  have hpq : ler t r c = 1 := by rw [hz r c hr hc, hp]; norm_num
  have hdiv : Double.div (Double.finito (ler t r j)) (Double.finito (ler t r c))
      = Double.finito (ler t r j) := by
    rw [hpq, hz r j hr hj]
    exact double_div_um (finita_inteiro _ (hlim i j hi hj).1)
  rw [h1 i j hi hj, h2 i j hi hj]
  simp only [ler_de_racionais]
  by_cases hir : i = r
  · rw [if_pos hir, if_pos hir, hdiv, hpq, div_one]
  · rw [if_neg hir, if_neg hir, hdiv, hpq, div_one, hz i j hi hj, hz i c hi hc, hz r j hr hj]
    exact double_sub_mul_inteiros _ _ _ (hlim i j hi hj).2.1 (hlim i j hi hj).2.2

/-- On finite values the entering column is the same in both models: the scan
only compares entries. -/
theorem encontrar_coluna_pivo_de_racionais (t : Tabela) (linhas colunas : Nat) :
    Binary64.Benchmark.encontrar_coluna_pivo (Binary64.de_racionais t) linhas colunas
      = Benchmark.encontrar_coluna_pivo t linhas colunas := by
  unfold Binary64.Benchmark.encontrar_coluna_pivo Benchmark.encontrar_coluna_pivo
  have h : ∀ k,
      (List.range k).foldl
        (fun (st : Double × Int) j =>
          if Double.lt (Binary64.ler (Binary64.de_racionais t) (linhas - 1) j) st.1 = true
          then (Binary64.ler (Binary64.de_racionais t) (linhas - 1) j, (j : Int))
          else st)
        (Double.finito 0, (-1 : Int))
      = (Double.finito
          ((List.range k).foldl
            (fun (st : ℚ × Int) j =>
              if ler t (linhas - 1) j < st.1 then (ler t (linhas - 1) j, (j : Int)) else st)
            ((0 : ℚ), (-1 : Int))).1,
        ((List.range k).foldl
            (fun (st : ℚ × Int) j =>
              if ler t (linhas - 1) j < st.1 then (ler t (linhas - 1) j, (j : Int)) else st)
            ((0 : ℚ), (-1 : Int))).2) := by
    intro k
    induction k with
    | zero => rfl
    | succ k ih =>
      rw [foldl_range_succ, foldl_range_succ, ih, ler_de_racionais]
      have hlt : ∀ a b : ℚ, (Double.lt (Double.finito a) (Double.finito b) = true) ↔ a < b := by
        intro a b
        simp [Double.lt, Double.e_nan, Double.valor]
      by_cases hc : ler t (linhas - 1) k
          < ((List.range k).foldl
            (fun (st : ℚ × Int) j =>
              if ler t (linhas - 1) j < st.1 then (ler t (linhas - 1) j, (j : Int)) else st)
            ((0 : ℚ), (-1 : Int))).1
      · rw [if_pos ((hlt _ _).mpr hc), if_pos hc]
      · rw [if_neg (fun h => hc ((hlt _ _).mp h)), if_neg hc]
  rw [h]

/-! ## The claims of the specification -/

/-- C1, evaluated at `m = n = 2`, `supply = demand = [1, 1]`,
`cost = [[1, 2], [2, 1]]`: both drivers stop on "no entering column" and the
total cost read out is -4, while the cheapest feasible shipment matrix costs 2
(every feasible matrix costs at least 2 and the identity matrix costs 2). -/
theorem C1_custo_minimo_diverge :
    Main.simplex 5 9 3
        (Main.construir_tabela_transporte (fun _ => 1) (fun _ => 1) custos_diagonal 2 2).1
      = some ([[1, 1, 0, 0, 1, 0, 0, 0, 1], [0, 0, 1, 1, 0, 1, 0, 0, 1],
          [1, 0, 0, -1, 0, -1, 1, 0, 0], [-1, 0, 0, 1, -1, 0, 0, 1, 0],
          [1, 0, 0, 1, 2, 2, 0, 0, 4]], Main.Parada.otima) ∧
    (Main.extrair_solucao [[1, 1, 0, 0, 1, 0, 0, 0, 1], [0, 0, 1, 1, 0, 1, 0, 0, 1],
          [1, 0, 0, -1, 0, -1, 1, 0, 0], [-1, 0, 0, 1, -1, 0, 0, 1, 0],
          [1, 0, 0, 1, 2, 2, 0, 0, 4]] 5 9 2 2).2 = -4 ∧
    Benchmark.encontrar_coluna_pivo
        (Benchmark.simplex
          (Benchmark.construir_tabela_transporte (fun _ => 1) (fun _ => 1) custos_diagonal 2 2).1
          5 9 1000000).tabela 5 9 = -1 ∧
    Benchmark.extrair_solucao
        (Benchmark.simplex
          (Benchmark.construir_tabela_transporte (fun _ => 1) (fun _ => 1) custos_diagonal 2 2).1
          5 9 1000000).tabela 5 9 2 2 = -4 ∧
    (∀ x00 x01 x10 x11 : ℚ, 0 ≤ x00 → 0 ≤ x01 → 0 ≤ x10 → 0 ≤ x11 →
      x00 + x01 = 1 → x10 + x11 = 1 → x00 + x10 = 1 → x01 + x11 = 1 →
      2 ≤ (custos_diagonal 0 0 : ℚ) * x00 + (custos_diagonal 0 1 : ℚ) * x01
        + (custos_diagonal 1 0 : ℚ) * x10 + (custos_diagonal 1 1 : ℚ) * x11) ∧
    (custos_diagonal 0 0 : ℚ) * 1 + (custos_diagonal 0 1 : ℚ) * 0
        + (custos_diagonal 1 0 : ℚ) * 0 + (custos_diagonal 1 1 : ℚ) * 1 = 2 := by
  refine ⟨by decide!, by decide!, by decide!, by decide!, ?_, by decide!⟩
  intro x00 x01 x10 x11 h1 h2 h3 h4 h5 h6 h7 h8
  have e1 : (custos_diagonal 0 0 : ℚ) = 1 := by decide!
  have e2 : (custos_diagonal 0 1 : ℚ) = 2 := by decide!
  have e3 : (custos_diagonal 1 0 : ℚ) = 2 := by decide!
  have e4 : (custos_diagonal 1 1 : ℚ) = 1 := by decide!
  rw [e1, e2, e3, e4]
  linarith

/-- C2: for a balanced instance with positive supplies, demands and costs, if
the simplex loop of `main.c` on the built tableau stops on "no entering
column", the shipment values `extrair_solucao` returns, read as
`x[i][j] = valores[i*n+j]`, have `supply[i]` as the sum of row `i` and
`demand[j]` as the sum of column `j`. -/
theorem C2_somas_de_linhas_e_colunas (oferta demanda : Nat → Int) (custos : Nat → Nat → Int)
    (m n : Nat) (hm : 1 ≤ m) (hn : 1 ≤ n)
    (hof : ∀ i, i < m → 0 < oferta i) (hde : ∀ j, j < n → 0 < demanda j)
    (hcu : ∀ i, i < m → ∀ j, j < n → 0 < custos i j)
    (hbal : ∑ i ∈ Finset.range m, oferta i = ∑ j ∈ Finset.range n, demanda j)
    (rodadas : Nat) (tf : Tabela)
    (hfim : Main.simplex (m + n + 1) (m * n + m + n + 1) rodadas
        (Main.construir_tabela_transporte oferta demanda custos m n).1
      = some (tf, Main.Parada.otima)) :
    (∀ i, i < m →
      ∑ j ∈ Finset.range n,
        (Main.extrair_solucao tf (m + n + 1) (m * n + m + n + 1) m n).1.getD (i * n + j) 0
        = (oferta i : ℚ)) ∧
    (∀ j, j < n →
      ∑ i ∈ Finset.range m,
        (Main.extrair_solucao tf (m + n + 1) (m * n + m + n + 1) m n).1.getD (i * n + j) 0
        = (demanda j : ℚ)) := by
  have _ := hm
  rw [construir_main_eq] at hfim
  obtain ⟨hd, ht0⟩ := construir_forma oferta demanda custos m n hn
  have hinv0 := invariante_inicial oferta demanda custos m n _ hd ht0
    (fun i hi => le_of_lt (hof i hi)) (fun j hj => le_of_lt (hde j hj))
  obtain ⟨hinv, hopt⟩ := simplex_main_invariante _ (m + n + 1) (m * n + m + n + 1) (by omega)
    rodadas _ tf hinv0 hfim
  exact somas_extraidas oferta demanda custos m n _ tf ht0 hbal hcu hinv hopt

/-- C2 at the instance `m = 1`, `n = 1`, `supply = [10]`, `demand = [10]`,
`cost = [[5]]`, where two rounds of the loop reach "no entering column". -/
theorem C2_somas_de_linhas_e_colunas_witness :
    (∀ i, i < 1 →
      ∑ j ∈ Finset.range 1,
        (Main.extrair_solucao [[1, 1, 0, 10], [0, -1, 1, 0], [0, 5, 0, 50]]
          (1 + 1 + 1) (1 * 1 + 1 + 1 + 1) 1 1).1.getD (i * 1 + j) 0
        = (((fun _ => 10 : Nat → Int) i : Int) : ℚ)) ∧
    (∀ j, j < 1 →
      ∑ i ∈ Finset.range 1,
        (Main.extrair_solucao [[1, 1, 0, 10], [0, -1, 1, 0], [0, 5, 0, 50]]
          (1 + 1 + 1) (1 * 1 + 1 + 1 + 1) 1 1).1.getD (i * 1 + j) 0
        = (((fun _ => 10 : Nat → Int) j : Int) : ℚ)) :=
  C2_somas_de_linhas_e_colunas (fun _ => 10) (fun _ => 10) (fun _ _ => 5) 1 1
    (by decide) (by decide) (fun _ _ => show (0 : Int) < 10 by decide)
    (fun _ _ => show (0 : Int) < 10 by decide)
    (fun _ _ _ _ => show (0 : Int) < 5 by decide) (by decide) 2
    [[1, 1, 0, 10], [0, -1, 1, 0], [0, 5, 0, 50]] (by decide!)

/-- C3, evaluated at `m = n = 1`, `supply = [10]`, `demand = [10]`,
`cost = [[5]]`: the driver stops on "no entering column", the shipment read
out is 10 and the total cost read out is -50, not `10 * 5 = 50`. -/
theorem C3_custo_total_diverge :
    Main.simplex 3 4 2
        (Main.construir_tabela_transporte (fun _ => 10) (fun _ => 10) (fun _ _ => 5) 1 1).1
      = some ([[1, 1, 0, 10], [0, -1, 1, 0], [0, 5, 0, 50]], Main.Parada.otima) ∧
    (Main.extrair_solucao [[1, 1, 0, 10], [0, -1, 1, 0], [0, 5, 0, 50]] 3 4 1 1).1 = [10] ∧
    (Main.extrair_solucao [[1, 1, 0, 10], [0, -1, 1, 0], [0, 5, 0, 50]] 3 4 1 1).2 = -50 ∧
    (Main.extrair_solucao [[1, 1, 0, 10], [0, -1, 1, 0], [0, 5, 0, 50]] 3 4 1 1).2 ≠
      (Main.extrair_solucao [[1, 1, 0, 10], [0, -1, 1, 0], [0, 5, 0, 50]] 3 4 1 1).1.getD 0 0
        * (((fun _ _ => 5 : Nat → Nat → Int) 0 0 : Int) : ℚ) := by
  refine ⟨by decide!, by decide!, by decide!, by decide!⟩

/-- C4: for `m ≥ 1` and `n ≥ 1` the builder (of either file) reports
`rows = m + n + 1` and `cols = m*n + m + n + 1`, and the matrix it returns has
exactly that many rows, each of exactly that many entries. -/
theorem C4_construir_dimensoes (oferta demanda : Nat → Int) (custos : Nat → Nat → Int)
    (m n : Nat) (hm : 1 ≤ m) (hn : 1 ≤ n) :
    ((Benchmark.construir_tabela_transporte oferta demanda custos m n).2.1 = m + n + 1 ∧
      (Benchmark.construir_tabela_transporte oferta demanda custos m n).2.2
        = m * n + m + n + 1 ∧
      Dim (Benchmark.construir_tabela_transporte oferta demanda custos m n).1
        (m + n + 1) (m * n + m + n + 1)) ∧
    ((Main.construir_tabela_transporte oferta demanda custos m n).2.1 = m + n + 1 ∧
      (Main.construir_tabela_transporte oferta demanda custos m n).2.2
        = m * n + m + n + 1 ∧
      Dim (Main.construir_tabela_transporte oferta demanda custos m n).1
        (m + n + 1) (m * n + m + n + 1)) := by
  have _ := hm
  rw [construir_main_eq]
  exact ⟨⟨rfl, rfl, (construir_forma oferta demanda custos m n hn).1⟩,
    ⟨rfl, rfl, (construir_forma oferta demanda custos m n hn).1⟩⟩

/-- C4 at the instance `m = 1`, `n = 1`, `supply = [10]`, `demand = [10]`,
`cost = [[5]]`. -/
theorem C4_construir_dimensoes_witness :
    ((Benchmark.construir_tabela_transporte (fun _ => 10) (fun _ => 10) (fun _ _ => 5) 1 1).2.1
        = 1 + 1 + 1 ∧
      (Benchmark.construir_tabela_transporte (fun _ => 10) (fun _ => 10) (fun _ _ => 5) 1 1).2.2
        = 1 * 1 + 1 + 1 + 1 ∧
      Dim (Benchmark.construir_tabela_transporte (fun _ => 10) (fun _ => 10) (fun _ _ => 5) 1 1).1
        (1 + 1 + 1) (1 * 1 + 1 + 1 + 1)) ∧
    ((Main.construir_tabela_transporte (fun _ => 10) (fun _ => 10) (fun _ _ => 5) 1 1).2.1
        = 1 + 1 + 1 ∧
      (Main.construir_tabela_transporte (fun _ => 10) (fun _ => 10) (fun _ _ => 5) 1 1).2.2
        = 1 * 1 + 1 + 1 + 1 ∧
      Dim (Main.construir_tabela_transporte (fun _ => 10) (fun _ => 10) (fun _ _ => 5) 1 1).1
        (1 + 1 + 1) (1 * 1 + 1 + 1 + 1)) :=
  C4_construir_dimensoes (fun _ => 10) (fun _ => 10) (fun _ _ => 5) 1 1 (by decide) (by decide)

/-- C5: for `m, n ≥ 1` the tableau the builder returns holds 1 at the shipment
columns `i*n+j` and at the auxiliary column `m*n+i` of supply row `i`, 1 at
the shipment columns `i*n+j` and at the auxiliary column `m*n+m+j` of demand
row `m+j`, `supply[i]` and `demand[j]` in the last column of those rows,
`-cost[i][j]` at column `i*n+j` of the last row, and 0 at every other
position. -/
theorem C5_construir_entradas (oferta demanda : Nat → Int) (custos : Nat → Nat → Int)
    (m n : Nat) (hm : 1 ≤ m) (hn : 1 ≤ n) :
    (∀ i j, i < m → j < n →
      ler (Benchmark.construir_tabela_transporte oferta demanda custos m n).1 i (i * n + j) = 1) ∧
    (∀ i, i < m →
      ler (Benchmark.construir_tabela_transporte oferta demanda custos m n).1 i (m * n + i) = 1) ∧
    (∀ i j, i < m → j < n →
      ler (Benchmark.construir_tabela_transporte oferta demanda custos m n).1 (m + j) (i * n + j)
        = 1) ∧
    (∀ j, j < n →
      ler (Benchmark.construir_tabela_transporte oferta demanda custos m n).1 (m + j)
        (m * n + m + j) = 1) ∧
    (∀ i, i < m →
      ler (Benchmark.construir_tabela_transporte oferta demanda custos m n).1 i
        ((Benchmark.construir_tabela_transporte oferta demanda custos m n).2.2 - 1)
        = (oferta i : ℚ)) ∧
    (∀ j, j < n →
      ler (Benchmark.construir_tabela_transporte oferta demanda custos m n).1 (m + j)
        ((Benchmark.construir_tabela_transporte oferta demanda custos m n).2.2 - 1)
        = (demanda j : ℚ)) ∧
    (∀ i j, i < m → j < n →
      ler (Benchmark.construir_tabela_transporte oferta demanda custos m n).1
        ((Benchmark.construir_tabela_transporte oferta demanda custos m n).2.1 - 1) (i * n + j)
        = -(custos i j : ℚ)) ∧
    (∀ r c, r < m + n + 1 → c < m * n + m + n + 1 →
      (¬ ∃ i j, i < m ∧ j < n ∧ r = i ∧ c = i * n + j) →
      (¬ ∃ i, i < m ∧ r = i ∧ c = m * n + i) →
      (¬ ∃ i j, i < m ∧ j < n ∧ r = m + j ∧ c = i * n + j) →
      (¬ ∃ j, j < n ∧ r = m + j ∧ c = m * n + m + j) →
      (¬ ∃ i, i < m ∧ r = i ∧ c = m * n + m + n) →
      (¬ ∃ j, j < n ∧ r = m + j ∧ c = m * n + m + n) →
      (¬ ∃ i j, i < m ∧ j < n ∧ r = m + n ∧ c = i * n + j) →
      ler (Benchmark.construir_tabela_transporte oferta demanda custos m n).1 r c = 0) := by
  have _ := hm
  have hn0 : 0 < n := hn
  have hf := (construir_forma oferta demanda custos m n hn0).2
  rw [construir_linhas_colunas]
  simp only [Nat.add_sub_cancel]
  refine ⟨?_, ?_, ?_, ?_, ?_, ?_, ?_, ?_⟩
  · intro i j hi hj
    have h1 := idx_lt hi hj
    have h2 := (div_mod_unique n i j _ hj).mp rfl
    rw [hf, entrada_spec_oferta _ _ _ _ _ _ _ hi, if_pos h1, if_pos h2.1]
  · intro i hi
    rw [hf, entrada_spec_oferta _ _ _ _ _ _ _ hi, if_neg (by omega), if_pos rfl]
  · intro i j hi hj
    have h1 := idx_lt hi hj
    have h2 := (div_mod_unique n i j _ hj).mp rfl
    rw [hf, entrada_spec_demanda _ _ _ _ _ _ _ (by omega) (by omega), if_pos h1,
      if_pos (by omega)]
  · intro j hj
    rw [hf, entrada_spec_demanda _ _ _ _ _ _ _ (by omega) (by omega), if_neg (by omega),
      if_pos (by omega)]
  · intro i hi
    rw [hf, entrada_spec_oferta _ _ _ _ _ _ _ hi, if_neg (by omega), if_neg (by omega),
      if_pos rfl]
  · intro j hj
    rw [hf, entrada_spec_demanda _ _ _ _ _ _ _ (by omega) (by omega), if_neg (by omega),
      if_neg (by omega), if_pos rfl, Nat.add_sub_cancel_left]
  · intro i j hi hj
    have h1 := idx_lt hi hj
    have h2 := (div_mod_unique n i j _ hj).mp rfl
    rw [hf, entrada_spec_objetivo, if_pos h1, h2.1, h2.2]
  · intro r c hr hc n1 n2 n3 n4 n5 n6 n7
    have hlink : c < m * n ↔ c / n < m := (Nat.div_lt_iff_lt_mul hn0).symm
    have hmod : c % n < n := Nat.mod_lt _ hn0
    have hdm : c = c / n * n + c % n := (div_mod_unique n _ _ c hmod).mpr ⟨rfl, rfl⟩
    rw [hf]
    by_cases h1 : r < m
    · rw [entrada_spec_oferta _ _ _ _ _ _ _ h1]
      by_cases hc1 : c < m * n
      · rw [if_pos hc1, if_neg]
        intro hq
        exact n1 ⟨r, c % n, h1, hmod, rfl, by rw [← hq]; exact hdm⟩
      · rw [if_neg hc1, if_neg (fun h => n2 ⟨r, h1, rfl, h⟩), if_neg (fun h => n5 ⟨r, h1, rfl, h⟩)]
    · by_cases h2 : r < m + n
      · rw [entrada_spec_demanda _ _ _ _ _ _ _ (by omega) h2]
        by_cases hc1 : c < m * n
        · rw [if_pos hc1, if_neg]
          intro hq
          exact n3 ⟨c / n, r - m, by omega, by omega, by omega, by rw [← hq]; exact hdm⟩
        · rw [if_neg hc1, if_neg (fun h => n4 ⟨r - m, by omega, by omega, h⟩),
            if_neg (fun h => n6 ⟨r - m, by omega, by omega, h⟩)]
      · have h3 : r = m + n := by omega
        subst h3
        rw [entrada_spec_objetivo, if_neg]
        intro hc1
        exact n7 ⟨c / n, c % n, by omega, hmod, rfl, hdm⟩

/-- C5 at the instance `m = 1`, `n = 1`, `supply = [10]`, `demand = [10]`,
`cost = [[5]]`: the shipment entry of the objective row is `-5`. -/
theorem C5_construir_entradas_witness :
    ler (Benchmark.construir_tabela_transporte (fun _ => 10) (fun _ => 10) (fun _ _ => 5) 1 1).1
        ((Benchmark.construir_tabela_transporte (fun _ => 10) (fun _ => 10)
          (fun _ _ => 5) 1 1).2.1 - 1) (0 * 1 + 0)
      = -(((fun _ _ => 5 : Nat → Nat → Int) 0 0 : Int) : ℚ) :=
  (C5_construir_entradas (fun _ => 10) (fun _ => 10) (fun _ _ => 5) 1 1
    (by decide) (by decide)).2.2.2.2.2.2.1 0 0 (by decide) (by decide)

/-- C6: `encontrar_coluna_pivo` (and `encontrar_coluna_pivo_correto` of
`main.c`) returns -1 exactly when no entry of the last row in columns
`0..cols-2` is negative; otherwise it returns a column `c` in `0..cols-2`
whose entry is negative, is the minimum of the last row over `0..cols-2`, and
is strictly below every entry to its left (so `c` is the lowest such index).
Every index it returns is below `cols-1`: the last column is never returned. -/
theorem C6_encontrar_coluna_pivo (tabela : Tabela) (linhas colunas : Nat) :
    ((Benchmark.encontrar_coluna_pivo tabela linhas colunas = -1 ↔
        ∀ j, j < colunas - 1 → ¬ ler tabela (linhas - 1) j < 0) ∧
      (Benchmark.encontrar_coluna_pivo tabela linhas colunas ≠ -1 →
        ∃ c, c < colunas - 1 ∧
          Benchmark.encontrar_coluna_pivo tabela linhas colunas = (c : Int) ∧
          ler tabela (linhas - 1) c < 0 ∧
          (∀ j, j < colunas - 1 → ler tabela (linhas - 1) c ≤ ler tabela (linhas - 1) j) ∧
          (∀ j, j < c → ler tabela (linhas - 1) c < ler tabela (linhas - 1) j)) ∧
      (∀ c : Nat, Benchmark.encontrar_coluna_pivo tabela linhas colunas = (c : Int) →
        c < colunas - 1)) ∧
    Main.encontrar_coluna_pivo_correto tabela linhas colunas
      = Benchmark.encontrar_coluna_pivo tabela linhas colunas := by
  refine ⟨?_, rfl⟩
  rcases encontrar_coluna_pivo_casos tabela linhas colunas with
    ⟨h2, hall⟩ | ⟨b, hb, h2, hneg, hmin, hfirst⟩
  · refine ⟨⟨fun _ => hall, fun _ => h2⟩, fun h => absurd h2 h, ?_⟩
    intro c hc
    rw [h2] at hc
    omega
  · refine ⟨⟨?_, ?_⟩, fun _ => ⟨b, hb, h2, hneg, hmin, hfirst⟩, ?_⟩
    · intro h
      rw [h2] at h
      omega
    · intro h
      exact absurd hneg (h b hb)
    · intro c hc
      rw [h2] at hc
      have : b = c := by exact_mod_cast hc
      omega

/-- C7, refuted as stated. On the 2-by-2 tableau with rows `[1, DBL_MAX]` and
`[0, 0]` and entering column 0, row 0 has a strictly positive coefficient and
`encontrar_linha_pivo` still returns -1: the ratio `DBL_MAX / 1` is not below
the starting value `DBL_MAX` of `menor`. On the 3-by-2 tableau with rows
`[3, 1]`, `[1, 6004799503160661 / 2^54]` (the `double` nearest to 1/3) and
`[-1, 0]` it returns row 0, whose ratio 1/3 is not the minimum: the ratio of
row 1 is smaller, and the two quotients the function computes are the same
`double`. -/
theorem C7_encontrar_linha_pivo_counterexample :
    ¬ (Binary64.Benchmark.encontrar_linha_pivo
          (Binary64.de_racionais [[1, DBL_MAX], [0, 0]]) 2 2 0 = -1 ↔
        ∀ i, i < 2 - 1 →
          ¬ Double.gt (Binary64.ler (Binary64.de_racionais [[1, DBL_MAX], [0, 0]]) i 0)
            (Double.finito 0) = true) ∧
    Binary64.Benchmark.encontrar_linha_pivo
        (Binary64.de_racionais
          [[3, 1], [1, 6004799503160661 / 18014398509481984], [-1, 0]]) 3 2 0 = 0 ∧
    Double.gt
      (Binary64.ler
        (Binary64.de_racionais
          [[3, 1], [1, 6004799503160661 / 18014398509481984], [-1, 0]]) 1 0)
      (Double.finito 0) = true ∧
    ler [[3, 1], [1, 6004799503160661 / 18014398509481984], [-1, 0]] 1 1
        / ler [[3, 1], [1, 6004799503160661 / 18014398509481984], [-1, 0]] 1 0
      < ler [[3, 1], [1, 6004799503160661 / 18014398509481984], [-1, 0]] 0 1
        / ler [[3, 1], [1, 6004799503160661 / 18014398509481984], [-1, 0]] 0 0 := by
  refine ⟨?_, by decide!, by decide!, by decide!⟩
  have h1 : Binary64.Benchmark.encontrar_linha_pivo
      (Binary64.de_racionais [[1, DBL_MAX], [0, 0]]) 2 2 0 = -1 := by decide!
  have h2 : Double.gt (Binary64.ler (Binary64.de_racionais [[1, DBL_MAX], [0, 0]]) 0 0)
      (Double.finito 0) = true := by decide!
  intro h
  exact (h.mp h1) 0 (by decide) h2

/-- C7, amended: with the ratio of a row read as the `double` quotient
`tabela[r][cols-1] / tabela[r][c]` the function computes, and `<`, `<=`, `>`
as the comparisons of `double`, `encontrar_linha_pivo` (and
`encontrar_linha_pivo_correto` of `main.c`) returns -1 exactly when no row in
`0..rows-2` has both a strictly positive coefficient in the entering column
and a ratio strictly below `DBL_MAX`; otherwise it returns a row `r` in
`0..rows-2` with a strictly positive coefficient and a ratio below `DBL_MAX`
such that no row of `0..rows-2` with a strictly positive coefficient has a
ratio below that of `r`, and no such row above `r` has a ratio below or equal
to it (so `r` is the lowest such index). Every index it returns is below
`rows-1`: the objective row is never returned. -/
theorem C7_encontrar_linha_pivo (tabela : Binary64.Tabela) (linhas colunas coluna_pivo : Nat) :
    ((Binary64.Benchmark.encontrar_linha_pivo tabela linhas colunas coluna_pivo = -1 ↔
        ∀ i, i < linhas - 1 →
          Double.gt (Binary64.ler tabela i coluna_pivo) (Double.finito 0) = true →
          Double.lt
            (Double.div (Binary64.ler tabela i (colunas - 1)) (Binary64.ler tabela i coluna_pivo))
            Binary64.DBL_MAX = false) ∧
      (Binary64.Benchmark.encontrar_linha_pivo tabela linhas colunas coluna_pivo ≠ -1 →
        ∃ r, r < linhas - 1 ∧
          Binary64.Benchmark.encontrar_linha_pivo tabela linhas colunas coluna_pivo = (r : Int) ∧
          Double.gt (Binary64.ler tabela r coluna_pivo) (Double.finito 0) = true ∧
          Double.lt
            (Double.div (Binary64.ler tabela r (colunas - 1)) (Binary64.ler tabela r coluna_pivo))
            Binary64.DBL_MAX = true ∧
          (∀ i, i < linhas - 1 →
            Double.gt (Binary64.ler tabela i coluna_pivo) (Double.finito 0) = true →
            Double.lt
              (Double.div (Binary64.ler tabela i (colunas - 1))
                (Binary64.ler tabela i coluna_pivo))
              (Double.div (Binary64.ler tabela r (colunas - 1))
                (Binary64.ler tabela r coluna_pivo)) = false) ∧
          (∀ i, i < r →
            Double.gt (Binary64.ler tabela i coluna_pivo) (Double.finito 0) = true →
            Double.le
              (Double.div (Binary64.ler tabela i (colunas - 1))
                (Binary64.ler tabela i coluna_pivo))
              (Double.div (Binary64.ler tabela r (colunas - 1))
                (Binary64.ler tabela r coluna_pivo)) = false)) ∧
      (∀ r : Nat,
        Binary64.Benchmark.encontrar_linha_pivo tabela linhas colunas coluna_pivo = (r : Int) →
        r < linhas - 1)) ∧
    Binary64.Main.encontrar_linha_pivo_correto tabela linhas colunas coluna_pivo
      = Binary64.Benchmark.encontrar_linha_pivo tabela linhas colunas coluna_pivo := by
  refine ⟨?_, rfl⟩
  rcases encontrar_linha_pivo_double_casos tabela linhas colunas coluna_pivo with
    ⟨h2, hall⟩ | ⟨b, hb, h2, hpos, hlim, hmin, hfirst⟩
  · refine ⟨⟨fun _ => hall, fun _ => h2⟩, fun h => absurd h2 h, ?_⟩
    intro r hr
    rw [h2] at hr
    omega
  · refine ⟨⟨?_, ?_⟩, fun _ => ⟨b, hb, h2, hpos, hlim, hmin, hfirst⟩, ?_⟩
    · intro h
      rw [h2] at h
      omega
    · intro h
      have := h b hb hpos
      rw [hlim] at this
      exact Bool.noConfusion this
    · intro r hr
      rw [h2] at hr
      have : b = r := by exact_mod_cast hr
      omega

/-- C8, refuted as stated: on the 2-by-2 tableau with rows `[3, 1]` and
`[1, 1]` and the pivot position `(0, 0)`, `pivotear` leaves in row 0, column 1
the `double` `6004799503160661 / 2^54`, which is not the quotient 1/3, and in
row 1, column 1 the `double` `6004799503160662 / 2^53`, which is not 1 minus
1 times the entry it left in row 0, column 1. And on the 1-by-2 tableau with
the row `[+inf, 1]`, whose entry at `(0, 0)` is not zero, it leaves NaN at
`(0, 0)`, not 1. -/
theorem C8_pivotear_counterexample :
    Binary64.ler (Binary64.Benchmark.pivotear (Binary64.de_racionais [[3, 1], [1, 1]]) 2 2 0 0)
        0 1 = Double.finito (6004799503160661 / 18014398509481984) ∧
    (6004799503160661 / 18014398509481984 : ℚ)
      ≠ ler [[3, 1], [1, 1]] 0 1 / ler [[3, 1], [1, 1]] 0 0 ∧
    Binary64.ler (Binary64.Benchmark.pivotear (Binary64.de_racionais [[3, 1], [1, 1]]) 2 2 0 0)
        1 1 = Double.finito (6004799503160662 / 9007199254740992) ∧
    (6004799503160662 / 9007199254740992 : ℚ)
      ≠ ler [[3, 1], [1, 1]] 1 1
        - ler [[3, 1], [1, 1]] 1 0 * (6004799503160661 / 18014398509481984) ∧
    Binary64.ler
        (Binary64.Benchmark.pivotear [[Double.inf_pos, Double.finito 1]] 1 2 0 0) 0 0
      = Double.nan := by
  refine ⟨by decide!, by decide!, by decide!, by decide!, by decide!⟩

/-- C8, amended: for a tableau of `linhas` rows and `colunas` columns of finite
`double` values and a pivot position `(r, c)` in it with `T[r][c] ≠ 0`,
`pivotear` (of either file) leaves in every column `j` (the last included)
`T'[r][j] = T[r][j] / T[r][c]` and, in every row `i ≠ r` (the last included),
`T'[i][j] = T[i][j] - T[i][c] * T'[r][j]`, where `/`, `*` and `-` are the
operations of `double`, each rounding its exact result to the nearest
`double`; and `T'[r][c] = 1` and `T'[i][c] = 0` for `i ≠ r` hold exactly. -/
theorem C8_pivotear (t : Binary64.Tabela) (linhas colunas r c i j : Nat)
    (hd : Binary64.Dim t linhas colunas) (hr : r < linhas) (hc : c < colunas)
    (hfin : ∀ k l, k < linhas → l < colunas → (Binary64.ler t k l).finita = true)
    (hp : (Binary64.ler t r c).racional ≠ 0) (hi : i < linhas) (hj : j < colunas) :
    Binary64.ler (Binary64.Benchmark.pivotear t linhas colunas r c) r j
      = Double.div (Binary64.ler t r j) (Binary64.ler t r c) ∧
    (i ≠ r → Binary64.ler (Binary64.Benchmark.pivotear t linhas colunas r c) i j
      = Double.sub (Binary64.ler t i j)
          (Double.mul (Binary64.ler t i c)
            (Binary64.ler (Binary64.Benchmark.pivotear t linhas colunas r c) r j))) ∧
    Binary64.ler (Binary64.Benchmark.pivotear t linhas colunas r c) r c = Double.finito 1 ∧
    (i ≠ r → Binary64.ler (Binary64.Benchmark.pivotear t linhas colunas r c) i c
      = Double.finito 0) ∧
    Binary64.Dim (Binary64.Benchmark.pivotear t linhas colunas r c) linhas colunas ∧
    Binary64.Main.pivotear t linhas colunas r c
      = Binary64.Benchmark.pivotear t linhas colunas r c := by
  obtain ⟨hd1, h1⟩ := pivotear_double_forma t linhas colunas r c hd hr
  have hpp := double_div_self (double_finita_valor (hfin r c hr hc)) hp
  refine ⟨?_, ?_, ?_, ?_, hd1, rfl⟩
  · rw [h1 r j hr hj, if_pos rfl]
  · intro hir
    rw [h1 i j hi hj, if_neg hir, h1 r j hr hj, if_pos rfl]
  · rw [h1 r c hr hc, if_pos rfl, hpp]
  · intro hir
    rw [h1 i c hi hc, if_neg hir, hpp, double_mul_um (hfin i c hi hc),
      double_sub_self (hfin i c hi hc)]

/-- C8 at the tableau with rows `[2, 4]` and `[1, 3]`, pivot position `(0, 0)`,
read at row 1, column 1. -/
theorem C8_pivotear_witness :
    Binary64.ler
        (Binary64.Benchmark.pivotear (Binary64.de_racionais [[2, 4], [1, 3]]) 2 2 0 0) 0 1
      = Double.div (Binary64.ler (Binary64.de_racionais [[2, 4], [1, 3]]) 0 1)
          (Binary64.ler (Binary64.de_racionais [[2, 4], [1, 3]]) 0 0) ∧
    (1 ≠ 0 → Binary64.ler
        (Binary64.Benchmark.pivotear (Binary64.de_racionais [[2, 4], [1, 3]]) 2 2 0 0) 1 1
      = Double.sub (Binary64.ler (Binary64.de_racionais [[2, 4], [1, 3]]) 1 1)
          (Double.mul (Binary64.ler (Binary64.de_racionais [[2, 4], [1, 3]]) 1 0)
            (Binary64.ler
              (Binary64.Benchmark.pivotear (Binary64.de_racionais [[2, 4], [1, 3]]) 2 2 0 0)
              0 1))) ∧
    Binary64.ler
        (Binary64.Benchmark.pivotear (Binary64.de_racionais [[2, 4], [1, 3]]) 2 2 0 0) 0 0
      = Double.finito 1 ∧
    (1 ≠ 0 → Binary64.ler
        (Binary64.Benchmark.pivotear (Binary64.de_racionais [[2, 4], [1, 3]]) 2 2 0 0) 1 0
      = Double.finito 0) ∧
    Binary64.Dim
      (Binary64.Benchmark.pivotear (Binary64.de_racionais [[2, 4], [1, 3]]) 2 2 0 0) 2 2 ∧
    Binary64.Main.pivotear (Binary64.de_racionais [[2, 4], [1, 3]]) 2 2 0 0
      = Binary64.Benchmark.pivotear (Binary64.de_racionais [[2, 4], [1, 3]]) 2 2 0 0 :=
  C8_pivotear (Binary64.de_racionais [[2, 4], [1, 3]]) 2 2 0 0 1 1
    (by simp [Binary64.Dim, Binary64.de_racionais]) (by decide) (by decide)
    (fun k l hk hl => by
      interval_cases k <;> interval_cases l <;> decide!)
    (by decide!) (by decide) (by decide)

/-- C9: for every tableau and every `m`, `n`, `extrair_solucao` of `main.c`
returns for a shipment column `j < m*n` the last-column entry of row `i` when
column `j` has entry 1 in row `i` and entry 0 in every other row (the last
row included), returns 0 for column `j` when there is no such row, and
returns as total cost the negation of the last entry of the last row. -/
theorem C9_extrair_solucao (t : Tabela) (linhas colunas m n j : Nat) (hj : j < m * n) :
    (∀ i, i < linhas → ler t i j = 1 → (∀ i2, i2 < linhas → i2 ≠ i → ler t i2 j = 0) →
      (Main.extrair_solucao t linhas colunas m n).1.getD j 0 = ler t i (colunas - 1)) ∧
    ((¬ ∃ i, i < linhas ∧ ler t i j = 1 ∧ ∀ i2, i2 < linhas → i2 ≠ i → ler t i2 j = 0) →
      (Main.extrair_solucao t linhas colunas m n).1.getD j 0 = 0) ∧
    (Main.extrair_solucao t linhas colunas m n).2 = -(ler t (linhas - 1) (colunas - 1)) ∧
    (Main.extrair_solucao t linhas colunas m n).1.length = m * n := by
  obtain ⟨hlen, hval⟩ := extrair_valores t linhas colunas m n
  obtain ⟨hiff, hbase⟩ := contar_coluna_basica t linhas j
  refine ⟨?_, ?_, rfl, hlen⟩
  · intro i hi h1 h0
    have hb : ColunaBasica t linhas j i := ⟨hi, h1, h0⟩
    rw [hval j, if_pos ⟨hj, hiff.mpr ⟨i, hb⟩⟩, hbase i hb, Int.toNat_ofNat]
  · intro hno
    rw [hval j, if_neg]
    intro h
    obtain ⟨i, hb⟩ := hiff.mp h.2
    exact hno ⟨i, hb.1, hb.2.1, hb.2.2⟩

/-- C9 at the 3-by-4 tableau with rows `[1, 1, 0, 10]`, `[0, -1, 1, 0]`,
`[0, 5, 0, 50]` and `m = n = 1`, at shipment column 0. -/
theorem C9_extrair_solucao_witness :
    (∀ i, i < 3 → ler [[1, 1, 0, 10], [0, -1, 1, 0], [0, 5, 0, 50]] i 0 = 1 →
      (∀ i2, i2 < 3 → i2 ≠ i → ler [[1, 1, 0, 10], [0, -1, 1, 0], [0, 5, 0, 50]] i2 0 = 0) →
      (Main.extrair_solucao [[1, 1, 0, 10], [0, -1, 1, 0], [0, 5, 0, 50]] 3 4 1 1).1.getD 0 0
        = ler [[1, 1, 0, 10], [0, -1, 1, 0], [0, 5, 0, 50]] i (4 - 1)) ∧
    ((¬ ∃ i, i < 3 ∧ ler [[1, 1, 0, 10], [0, -1, 1, 0], [0, 5, 0, 50]] i 0 = 1 ∧
        ∀ i2, i2 < 3 → i2 ≠ i → ler [[1, 1, 0, 10], [0, -1, 1, 0], [0, 5, 0, 50]] i2 0 = 0) →
      (Main.extrair_solucao [[1, 1, 0, 10], [0, -1, 1, 0], [0, 5, 0, 50]] 3 4 1 1).1.getD 0 0
        = 0) ∧
    (Main.extrair_solucao [[1, 1, 0, 10], [0, -1, 1, 0], [0, 5, 0, 50]] 3 4 1 1).2
      = -(ler [[1, 1, 0, 10], [0, -1, 1, 0], [0, 5, 0, 50]] (3 - 1) (4 - 1)) ∧
    (Main.extrair_solucao [[1, 1, 0, 10], [0, -1, 1, 0], [0, 5, 0, 50]] 3 4 1 1).1.length
      = 1 * 1 :=
  C9_extrair_solucao [[1, 1, 0, 10], [0, -1, 1, 0], [0, 5, 0, 50]] 3 4 1 1 0 (by decide)

/-- C10: for every tableau and every `max_iter ≥ 0`, `simplex` of
`benchmark_simplex.c` returns (the model is a total function), it calls
`pivotear` at most `max_iter` times, and what it returns is either -1 or a
count between 0 and `max_iter`. -/
theorem C10_simplex_termina (tabela : Tabela) (linhas colunas max_iter : Nat) :
    (Benchmark.simplex tabela linhas colunas max_iter).pivos ≤ max_iter ∧
    ((Benchmark.simplex tabela linhas colunas max_iter).retorno = -1 ∨
      (0 ≤ (Benchmark.simplex tabela linhas colunas max_iter).retorno ∧
        (Benchmark.simplex tabela linhas colunas max_iter).retorno ≤ (max_iter : Int))) := by
  have h := simplex_laco_limites linhas colunas max_iter tabela 0 0
  unfold Benchmark.simplex
  refine ⟨by simpa using h.1, ?_⟩
  rcases h.2 with h2 | ⟨h2, h3⟩
  · exact Or.inl h2
  · exact Or.inr ⟨by omega, by simpa using h3⟩

/-- C11, refuted as stated: on the instance `m = n = 1`, `supply = [10]`,
`demand = [10]`, `cost = [[5]]` the driver of `benchmark_simplex.c` stops on
"no entering column" after one pivot and returns 2, neither the number of
pivots nor one iteration. -/
theorem C11_contagem_counterexample :
    Benchmark.simplex_estado 3 4 1000000
        (Benchmark.construir_tabela_transporte (fun _ => 10) (fun _ => 10) (fun _ _ => 5) 1 1).1
      = Benchmark.Estado.otimo ∧
    (Benchmark.simplex
        (Benchmark.construir_tabela_transporte (fun _ => 10) (fun _ => 10) (fun _ _ => 5) 1 1).1
        3 4 1000000).pivos = 1 ∧
    ¬ ((Benchmark.simplex
        (Benchmark.construir_tabela_transporte (fun _ => 10) (fun _ => 10) (fun _ _ => 5) 1 1).1
        3 4 1000000).retorno
      = ((Benchmark.simplex
        (Benchmark.construir_tabela_transporte (fun _ => 10) (fun _ => 10) (fun _ _ => 5) 1 1).1
        3 4 1000000).pivos : Int)) ∧
    ¬ ((Benchmark.simplex
        (Benchmark.construir_tabela_transporte (fun _ => 10) (fun _ => 10) (fun _ _ => 5) 1 1).1
        3 4 1000000).retorno = 1) := by
  refine ⟨by decide!, by decide!, by decide!, by decide!⟩

/-- C11, amended: whenever `simplex` of `benchmark_simplex.c` stops on "no
entering column", the count it returns is the number of pivots it applied
plus one: `iteracao` is incremented at the start of every round of the loop,
the round that finds no entering column included. -/
theorem C11_contagem (tabela : Tabela) (linhas colunas max_iter : Nat)
    (h : Benchmark.simplex_estado linhas colunas max_iter tabela = Benchmark.Estado.otimo) :
    (Benchmark.simplex tabela linhas colunas max_iter).retorno
      = ((Benchmark.simplex tabela linhas colunas max_iter).pivos : Int) + 1 := by
  have := ((simplex_laco_estado linhas colunas max_iter tabela 0 0).1 h).1
  unfold Benchmark.simplex
  rw [this]
  push_cast
  ring

/-- C11, amended, at the instance `m = n = 1`, `supply = [10]`, `demand = [10]`,
`cost = [[5]]`: one pivot, and the driver reports two iterations. -/
theorem C11_contagem_witness :
    (Benchmark.simplex
        (Benchmark.construir_tabela_transporte (fun _ => 10) (fun _ => 10) (fun _ _ => 5) 1 1).1
        3 4 1000000).retorno
      = ((Benchmark.simplex
        (Benchmark.construir_tabela_transporte (fun _ => 10) (fun _ => 10) (fun _ _ => 5) 1 1).1
        3 4 1000000).pivos : Int) + 1 ∧
    (Benchmark.simplex
        (Benchmark.construir_tabela_transporte (fun _ => 10) (fun _ => 10) (fun _ _ => 5) 1 1).1
        3 4 1000000).retorno = 2 :=
  ⟨C11_contagem _ 3 4 1000000 (by decide!), by decide!⟩

/-- C12, refuted as stated: the tableau with rows `[1, 1, 0, 10]`,
`[0, -1, 1, 0]`, `[0, 5, 0, 50]` has no negative entry in its last row before
the last column, and with `max_iter = 1` the driver returns 1, not 0. -/
theorem C12_tabela_otima_counterexample :
    (∀ j, j < 4 - 1 → ¬ ler [[1, 1, 0, 10], [0, -1, 1, 0], [0, 5, 0, 50]] (3 - 1) j < 0) ∧
    (Benchmark.simplex [[1, 1, 0, 10], [0, -1, 1, 0], [0, 5, 0, 50]] 3 4 1).retorno ≠ 0 := by
  refine ⟨?_, by decide!⟩
  intro j hj
  have hj2 : j < 3 := hj
  interval_cases j <;> decide!

/-- C12, amended: on a tableau with no negative entry in its last row before
the last column and with `max_iter ≥ 1`, `simplex` of `benchmark_simplex.c`
stops on "no entering column" in its first round: it applies no pivot, leaves
the tableau as it is, and the count it returns is 1. -/
theorem C12_tabela_otima (tabela : Tabela) (linhas colunas max_iter : Nat)
    (h : ∀ j, j < colunas - 1 → ¬ ler tabela (linhas - 1) j < 0) (hmax : 1 ≤ max_iter) :
    (Benchmark.simplex tabela linhas colunas max_iter).retorno = 1 ∧
    (Benchmark.simplex tabela linhas colunas max_iter).pivos = 0 ∧
    (Benchmark.simplex tabela linhas colunas max_iter).tabela = tabela ∧
    Benchmark.simplex_estado linhas colunas max_iter tabela = Benchmark.Estado.otimo := by
  obtain ⟨k, rfl⟩ : ∃ k, max_iter = k + 1 := ⟨max_iter - 1, by omega⟩
  obtain ⟨e1, e2⟩ := simplex_laco_otimo linhas colunas k tabela 0 0 h
  unfold Benchmark.simplex
  rw [e1]
  exact ⟨rfl, rfl, rfl, e2⟩

/-- C12, amended, at the tableau with rows `[1, 1, 0, 10]`, `[0, -1, 1, 0]`,
`[0, 5, 0, 50]` and `max_iter = 1`. -/
theorem C12_tabela_otima_witness :
    (Benchmark.simplex [[1, 1, 0, 10], [0, -1, 1, 0], [0, 5, 0, 50]] 3 4 1).retorno = 1 ∧
    (Benchmark.simplex [[1, 1, 0, 10], [0, -1, 1, 0], [0, 5, 0, 50]] 3 4 1).pivos = 0 ∧
    (Benchmark.simplex [[1, 1, 0, 10], [0, -1, 1, 0], [0, 5, 0, 50]] 3 4 1).tabela
      = [[1, 1, 0, 10], [0, -1, 1, 0], [0, 5, 0, 50]] ∧
    Benchmark.simplex_estado 3 4 1 [[1, 1, 0, 10], [0, -1, 1, 0], [0, 5, 0, 50]]
      = Benchmark.Estado.otimo :=
  C12_tabela_otima [[1, 1, 0, 10], [0, -1, 1, 0], [0, 5, 0, 50]] 3 4 1
    (fun j hj => by
      have hj2 : j < 3 := hj
      interval_cases j <;> decide!)
    (by decide)

/-- C13, refuted as stated: with `max_iter = 2` the run on the tableau of the
2-by-2 scenario (`supply = [10, 20]`, `demand = [15, 15]`,
`cost = [[1, 2], [3, 4]]`) stops on the iteration cap and the run on the
tableau of the 1-by-1 scenario stops on "no entering column", and both return
2. -/
theorem C13_limite_counterexample :
    Benchmark.simplex_estado 5 9 2
        (Benchmark.construir_tabela_transporte oferta_2x2 demanda_2x2 custos_2x2 2 2).1
      = Benchmark.Estado.limite ∧
    Benchmark.simplex_estado 3 4 2
        (Benchmark.construir_tabela_transporte (fun _ => 10) (fun _ => 10) (fun _ _ => 5) 1 1).1
      = Benchmark.Estado.otimo ∧
    (Benchmark.simplex
        (Benchmark.construir_tabela_transporte oferta_2x2 demanda_2x2 custos_2x2 2 2).1
        5 9 2).retorno
      = (Benchmark.simplex
        (Benchmark.construir_tabela_transporte (fun _ => 10) (fun _ => 10) (fun _ _ => 5) 1 1).1
        3 4 2).retorno := by
  refine ⟨by decide!, by decide!, by decide!⟩

/-- C13, amended: a run of `simplex` of `benchmark_simplex.c` that stops on
the iteration cap returns `max_iter`; that differs from what every run that
stops on "Problema ilimitado." returns (-1), and a run with the same
`max_iter` that stops on "no entering column" returns the same value exactly
when it applied `max_iter - 1` pivots (it found no entering column in round
`max_iter`). The cap itself is only printed, not returned. -/
theorem C13_limite (t1 t2 : Tabela) (linhas1 colunas1 linhas2 colunas2 max_iter : Nat)
    (h1 : Benchmark.simplex_estado linhas1 colunas1 max_iter t1 = Benchmark.Estado.limite) :
    (Benchmark.simplex t1 linhas1 colunas1 max_iter).retorno = (max_iter : Int) ∧
    (Benchmark.simplex_estado linhas2 colunas2 max_iter t2 = Benchmark.Estado.ilimitado →
      (Benchmark.simplex t2 linhas2 colunas2 max_iter).retorno
        ≠ (Benchmark.simplex t1 linhas1 colunas1 max_iter).retorno) ∧
    (Benchmark.simplex_estado linhas2 colunas2 max_iter t2 = Benchmark.Estado.otimo →
      ((Benchmark.simplex t2 linhas2 colunas2 max_iter).retorno
          = (Benchmark.simplex t1 linhas1 colunas1 max_iter).retorno ↔
        (Benchmark.simplex t2 linhas2 colunas2 max_iter).pivos + 1 = max_iter)) := by
  have e1 := ((simplex_laco_estado linhas1 colunas1 max_iter t1 0 0).2.2 h1).1
  have e2 := simplex_laco_estado linhas2 colunas2 max_iter t2 0 0
  unfold Benchmark.simplex
  rw [e1]
  refine ⟨by push_cast; ring, fun h => ?_, fun h => ?_⟩
  · rw [e2.2.1 h]
    omega
  · rw [(e2.1 h).1]
    constructor
    · intro hh
      push_cast at hh
      omega
    · intro hh
      push_cast
      omega

/-- C13, amended, at the two runs with `max_iter = 2`: the capped run on the
tableau of the 2-by-2 scenario against the run on the tableau of the 1-by-1
scenario. -/
theorem C13_limite_witness :
    (Benchmark.simplex
        (Benchmark.construir_tabela_transporte oferta_2x2 demanda_2x2 custos_2x2 2 2).1
        5 9 2).retorno = ((2 : Nat) : Int) ∧
    (Benchmark.simplex_estado 3 4 2
        (Benchmark.construir_tabela_transporte (fun _ => 10) (fun _ => 10) (fun _ _ => 5) 1 1).1
        = Benchmark.Estado.ilimitado →
      (Benchmark.simplex
        (Benchmark.construir_tabela_transporte (fun _ => 10) (fun _ => 10) (fun _ _ => 5) 1 1).1
        3 4 2).retorno
        ≠ (Benchmark.simplex
          (Benchmark.construir_tabela_transporte oferta_2x2 demanda_2x2 custos_2x2 2 2).1
          5 9 2).retorno) ∧
    (Benchmark.simplex_estado 3 4 2
        (Benchmark.construir_tabela_transporte (fun _ => 10) (fun _ => 10) (fun _ _ => 5) 1 1).1
        = Benchmark.Estado.otimo →
      ((Benchmark.simplex
        (Benchmark.construir_tabela_transporte (fun _ => 10) (fun _ => 10) (fun _ _ => 5) 1 1).1
        3 4 2).retorno
          = (Benchmark.simplex
            (Benchmark.construir_tabela_transporte oferta_2x2 demanda_2x2 custos_2x2 2 2).1
            5 9 2).retorno ↔
        (Benchmark.simplex
          (Benchmark.construir_tabela_transporte (fun _ => 10) (fun _ => 10) (fun _ _ => 5) 1 1).1
          3 4 2).pivos + 1 = 2)) :=
  C13_limite _ _ 5 9 3 4 2 (by decide!)

/-- C14: for a balanced instance with positive `int` supplies and demands (so
at most `INT_MAX`) and non-negative costs, `simplex` of `benchmark_simplex.c`
on the built tableau never stops on "Problema ilimitado.", whatever
`max_iter`: it never returns -1. -/
theorem C14_nunca_ilimitado (oferta demanda : Nat → Int) (custos : Nat → Nat → Int)
    (m n : Nat) (hm : 1 ≤ m) (hn : 1 ≤ n)
    (hof : ∀ i, i < m → 0 < oferta i ∧ oferta i ≤ INT_MAX)
    (hde : ∀ j, j < n → 0 < demanda j ∧ demanda j ≤ INT_MAX)
    (hcu : ∀ i, i < m → ∀ j, j < n → 0 ≤ custos i j)
    (hbal : ∑ i ∈ Finset.range m, oferta i = ∑ j ∈ Finset.range n, demanda j)
    (max_iter : Nat) :
    (Benchmark.simplex (Benchmark.construir_tabela_transporte oferta demanda custos m n).1
        (m + n + 1) (m * n + m + n + 1) max_iter).retorno ≠ -1 ∧
    Benchmark.simplex_estado (m + n + 1) (m * n + m + n + 1) max_iter
        (Benchmark.construir_tabela_transporte oferta demanda custos m n).1
      ≠ Benchmark.Estado.ilimitado := by
  have _ := hm
  have _ := hcu
  have _ := hbal
  obtain ⟨hd, ht0⟩ := construir_forma oferta demanda custos m n hn
  have hinv0 := invariante_inicial oferta demanda custos m n _ hd ht0
    (fun i hi => le_of_lt (hof i hi).1) (fun j hj => le_of_lt (hde j hj).1)
  exact simplex_laco_nao_ilimitado oferta demanda custos m n _ ht0
    (fun i hi => (hof i hi).2) (fun j hj => (hde j hj).2) max_iter _ 0 0 hinv0

/-- C14 at the 2-by-2 scenario of the specification (`supply = [10, 20]`,
`demand = [15, 15]`, `cost = [[1, 2], [3, 4]]`) with `max_iter = 1000000`. -/
theorem C14_nunca_ilimitado_witness :
    (Benchmark.simplex (Benchmark.construir_tabela_transporte oferta_2x2 demanda_2x2
        custos_2x2 2 2).1 (2 + 2 + 1) (2 * 2 + 2 + 2 + 1) 1000000).retorno ≠ -1 ∧
    Benchmark.simplex_estado (2 + 2 + 1) (2 * 2 + 2 + 2 + 1) 1000000
        (Benchmark.construir_tabela_transporte oferta_2x2 demanda_2x2 custos_2x2 2 2).1
      ≠ Benchmark.Estado.ilimitado :=
  C14_nunca_ilimitado oferta_2x2 demanda_2x2 custos_2x2 2 2 (by decide) (by decide)
    (fun i hi => by interval_cases i <;> decide)
    (fun j hj => by interval_cases j <;> decide)
    (fun i hi j hj => by interval_cases i <;> interval_cases j <;> decide)
    (by decide) 1000000

/-- C15, refuted as stated: on the instance `m = n = 1`, `supply = [10]`,
`demand = [10]`, `cost = [[5]]` the last entry of the last row is 0 before the
first round of the loop and 50 after it, so its absolute value grows. -/
theorem C15_objetivo_counterexample :
    ler (Benchmark.simplex
        (Benchmark.construir_tabela_transporte (fun _ => 10) (fun _ => 10) (fun _ _ => 5) 1 1).1
        3 4 0).tabela (3 - 1) (4 - 1) = 0 ∧
    ler (Benchmark.simplex
        (Benchmark.construir_tabela_transporte (fun _ => 10) (fun _ => 10) (fun _ _ => 5) 1 1).1
        3 4 1).tabela (3 - 1) (4 - 1) = 50 ∧
    ¬ (|ler (Benchmark.simplex
          (Benchmark.construir_tabela_transporte (fun _ => 10) (fun _ => 10) (fun _ _ => 5) 1 1).1
          3 4 1).tabela (3 - 1) (4 - 1)|
        ≤ |ler (Benchmark.simplex
          (Benchmark.construir_tabela_transporte (fun _ => 10) (fun _ => 10) (fun _ _ => 5) 1 1).1
          3 4 0).tabela (3 - 1) (4 - 1)|) := by
  have e0 : ler (Benchmark.simplex
        (Benchmark.construir_tabela_transporte (fun _ => 10) (fun _ => 10) (fun _ _ => 5) 1 1).1
        3 4 0).tabela (3 - 1) (4 - 1) = 0 := by decide!
  have e1 : ler (Benchmark.simplex
        (Benchmark.construir_tabela_transporte (fun _ => 10) (fun _ => 10) (fun _ _ => 5) 1 1).1
        3 4 1).tabela (3 - 1) (4 - 1) = 50 := by decide!
  refine ⟨e0, e1, ?_⟩
  rw [e0, e1]
  norm_num

/-- C15, amended: for a balanced instance with positive supplies and demands,
the last entry of the last row of the tableau is 0 or more after every number
`k` of rounds of the loop of `simplex`, and after `k + 1` rounds it is at
least what it was after `k` rounds: it never decreases. -/
theorem C15_objetivo (oferta demanda : Nat → Int) (custos : Nat → Nat → Int)
    (m n : Nat) (hm : 1 ≤ m) (hn : 1 ≤ n)
    (hof : ∀ i, i < m → 0 < oferta i) (hde : ∀ j, j < n → 0 < demanda j)
    (hbal : ∑ i ∈ Finset.range m, oferta i = ∑ j ∈ Finset.range n, demanda j)
    (k : Nat) :
    0 ≤ ler (Benchmark.simplex
        (Benchmark.construir_tabela_transporte oferta demanda custos m n).1
        (m + n + 1) (m * n + m + n + 1) k).tabela (m + n + 1 - 1) (m * n + m + n + 1 - 1) ∧
    ler (Benchmark.simplex
        (Benchmark.construir_tabela_transporte oferta demanda custos m n).1
        (m + n + 1) (m * n + m + n + 1) k).tabela (m + n + 1 - 1) (m * n + m + n + 1 - 1)
      ≤ ler (Benchmark.simplex
        (Benchmark.construir_tabela_transporte oferta demanda custos m n).1
        (m + n + 1) (m * n + m + n + 1) (k + 1)).tabela
        (m + n + 1 - 1) (m * n + m + n + 1 - 1) := by
  have _ := hm
  have _ := hbal
  obtain ⟨hd, ht0⟩ := construir_forma oferta demanda custos m n hn
  have hinv0 := invariante_inicial oferta demanda custos m n _ hd ht0
    (fun i hi => le_of_lt (hof i hi)) (fun j hj => le_of_lt (hde j hj))
  unfold Benchmark.simplex
  constructor
  · have h0 : ler (Benchmark.construir_tabela_transporte oferta demanda custos m n).1
        (m + n + 1 - 1) (m * n + m + n + 1 - 1) = 0 := by
      rw [ht0, Nat.add_sub_cancel, Nat.add_sub_cancel, Nat.add_assoc, es_aux_objetivo]
    have := simplex_laco_acima _ (m + n + 1) (m * n + m + n + 1) (by omega) (by omega) hinv0 k
    rw [h0] at this
    exact this
  · exact simplex_laco_monotono _ (m + n + 1) (m * n + m + n + 1) (by omega) (by omega) k
      _ 0 0 0 0 hinv0

/-- C15, amended, at the instance `m = n = 1`, `supply = [10]`,
`demand = [10]`, `cost = [[5]]`, between no round and one round. -/
theorem C15_objetivo_witness :
    0 ≤ ler (Benchmark.simplex
        (Benchmark.construir_tabela_transporte (fun _ => 10) (fun _ => 10) (fun _ _ => 5) 1 1).1
        (1 + 1 + 1) (1 * 1 + 1 + 1 + 1) 0).tabela (1 + 1 + 1 - 1) (1 * 1 + 1 + 1 + 1 - 1) ∧
    ler (Benchmark.simplex
        (Benchmark.construir_tabela_transporte (fun _ => 10) (fun _ => 10) (fun _ _ => 5) 1 1).1
        (1 + 1 + 1) (1 * 1 + 1 + 1 + 1) 0).tabela (1 + 1 + 1 - 1) (1 * 1 + 1 + 1 + 1 - 1)
      ≤ ler (Benchmark.simplex
        (Benchmark.construir_tabela_transporte (fun _ => 10) (fun _ => 10) (fun _ _ => 5) 1 1).1
        (1 + 1 + 1) (1 * 1 + 1 + 1 + 1) (0 + 1)).tabela
        (1 + 1 + 1 - 1) (1 * 1 + 1 + 1 + 1 - 1) :=
  C15_objetivo (fun _ => 10) (fun _ => 10) (fun _ _ => 5) 1 1 (by decide) (by decide)
    (fun _ _ => show (0 : Int) < 10 by decide) (fun _ _ => show (0 : Int) < 10 by decide)
    (by decide) 0

/-- C16, refuted as stated: on the unbalanced instance `m = n = 1`,
`supply = [10]`, `demand = [7]`, `cost = [[5]]` and on the instance with
`m = 0`, `n = 1`, `demand = [7]` the builder returns a tableau all the same. -/
theorem C16_construir_sem_validar_counterexample :
    (∑ i ∈ Finset.range 1, (fun _ => 10 : Nat → Int) i)
      ≠ ∑ j ∈ Finset.range 1, (fun _ => 7 : Nat → Int) j ∧
    Benchmark.construir_tabela_transporte (fun _ => 10) (fun _ => 7) (fun _ _ => 5) 1 1
      = ([[1, 1, 0, 10], [1, 0, 1, 7], [-5, 0, 0, 0]], 3, 4) ∧
    Benchmark.construir_tabela_transporte (fun _ => 10) (fun _ => 7) (fun _ _ => 5) 0 1
      = ([[1, 7], [0, 0]], 2, 2) := by
  refine ⟨by decide, by decide!, by decide!⟩

/-- C16, amended: the builder checks nothing. For every `m`, `n` (zero
included) and every supply, demand and cost, balanced or not, it reports
`rows = m + n + 1` and `cols = m*n + m + n + 1` and returns a matrix of
exactly those dimensions. -/
theorem C16_construir_sem_validar (oferta demanda : Nat → Int) (custos : Nat → Nat → Int)
    (m n : Nat) :
    (Benchmark.construir_tabela_transporte oferta demanda custos m n).2.1 = m + n + 1 ∧
    (Benchmark.construir_tabela_transporte oferta demanda custos m n).2.2
      = m * n + m + n + 1 ∧
    Dim (Benchmark.construir_tabela_transporte oferta demanda custos m n).1
      (m + n + 1) (m * n + m + n + 1) :=
  ⟨rfl, rfl, construir_dim oferta demanda custos m n⟩

/-- C17, refuted as stated: for the instance `m = n = 1`, `supply = [10]`,
`demand = [10]`, `cost = [[5]]` the builder does not report `rows = 3` and
`cols = 5`. -/
theorem C17_dimensoes_1x1_counterexample :
    ¬ ((Benchmark.construir_tabela_transporte (fun _ => 10) (fun _ => 10)
          (fun _ _ => 5) 1 1).2.1 = 3 ∧
      (Benchmark.construir_tabela_transporte (fun _ => 10) (fun _ => 10)
          (fun _ _ => 5) 1 1).2.2 = 5) := by
  decide

/-- C17, amended: for the instance `m = n = 1`, `supply = [10]`,
`demand = [10]`, `cost = [[5]]` the builder reports `rows = 3` and
`cols = 4` (`m*n + m + n + 1`). -/
theorem C17_dimensoes_1x1 :
    (Benchmark.construir_tabela_transporte (fun _ => 10) (fun _ => 10)
        (fun _ _ => 5) 1 1).2.1 = 3 ∧
    (Benchmark.construir_tabela_transporte (fun _ => 10) (fun _ => 10)
        (fun _ _ => 5) 1 1).2.2 = 4 := by
  decide

/-- C18, evaluated at `m = n = 1`, `supply = [10]`, `demand = [10]`,
`cost = [[5]]`: the first entering column is 0, the loop stops on "no entering
column", the shipment read out is 10, and the total cost read out (by either
file) is -50, not 50. -/
theorem C18_cenario_1x1_diverge :
    Benchmark.encontrar_coluna_pivo
        (Benchmark.construir_tabela_transporte (fun _ => 10) (fun _ => 10) (fun _ _ => 5) 1 1).1
        3 4 = 0 ∧
    Main.simplex 3 4 2
        (Main.construir_tabela_transporte (fun _ => 10) (fun _ => 10) (fun _ _ => 5) 1 1).1
      = some ([[1, 1, 0, 10], [0, -1, 1, 0], [0, 5, 0, 50]], Main.Parada.otima) ∧
    (Main.extrair_solucao [[1, 1, 0, 10], [0, -1, 1, 0], [0, 5, 0, 50]] 3 4 1 1).1.getD
        (0 * 1 + 0) 0 = 10 ∧
    (Main.extrair_solucao [[1, 1, 0, 10], [0, -1, 1, 0], [0, 5, 0, 50]] 3 4 1 1).2 = -50 ∧
    Benchmark.simplex_estado 3 4 1000000
        (Benchmark.construir_tabela_transporte (fun _ => 10) (fun _ => 10) (fun _ _ => 5) 1 1).1
      = Benchmark.Estado.otimo ∧
    Benchmark.extrair_solucao
        (Benchmark.simplex
          (Benchmark.construir_tabela_transporte (fun _ => 10) (fun _ => 10)
            (fun _ _ => 5) 1 1).1 3 4 1000000).tabela 3 4 1 1 = -50 := by
  refine ⟨by decide!, by decide!, by decide!, by decide!, by decide!, by decide!⟩

/-- C19, evaluated at `m = n = 2`, `supply = [10, 20]`, `demand = [15, 15]`,
`cost = [[1, 2], [3, 4]]`: every feasible integer shipment matrix costs 85, so
the minimum is 85, while the loop stops on "no entering column" and the total
cost read out (by either file) is -85. -/
theorem C19_cenario_2x2_diverge :
    (∀ x00 x01 x10 x11 : Int, 0 ≤ x00 → 0 ≤ x01 → 0 ≤ x10 → 0 ≤ x11 →
      x00 + x01 = oferta_2x2 0 → x10 + x11 = oferta_2x2 1 →
      x00 + x10 = demanda_2x2 0 → x01 + x11 = demanda_2x2 1 →
      custos_2x2 0 0 * x00 + custos_2x2 0 1 * x01 + custos_2x2 1 0 * x10
        + custos_2x2 1 1 * x11 = 85) ∧
    Main.simplex 5 9 4
        (Main.construir_tabela_transporte oferta_2x2 demanda_2x2 custos_2x2 2 2).1
      = some ([[1, 1, 0, 0, 1, 0, 0, 0, 10], [0, -1, 1, 0, 0, 1, 0, -1, 5],
          [0, 0, 0, 0, -1, -1, 1, 1, 0], [0, 1, 0, 1, 0, 0, 0, 1, 15],
          [0, 0, 0, 0, 1, 3, 0, 1, 85]], Main.Parada.otima) ∧
    (Main.extrair_solucao [[1, 1, 0, 0, 1, 0, 0, 0, 10], [0, -1, 1, 0, 0, 1, 0, -1, 5],
          [0, 0, 0, 0, -1, -1, 1, 1, 0], [0, 1, 0, 1, 0, 0, 0, 1, 15],
          [0, 0, 0, 0, 1, 3, 0, 1, 85]] 5 9 2 2).2 = -85 ∧
    Benchmark.simplex_estado 5 9 1000000
        (Benchmark.construir_tabela_transporte oferta_2x2 demanda_2x2 custos_2x2 2 2).1
      = Benchmark.Estado.otimo ∧
    Benchmark.extrair_solucao
        (Benchmark.simplex
          (Benchmark.construir_tabela_transporte oferta_2x2 demanda_2x2 custos_2x2 2 2).1
          5 9 1000000).tabela 5 9 2 2 = -85 := by
  refine ⟨?_, by decide!, by decide!, by decide!, by decide!⟩
  intro x00 x01 x10 x11 _ _ _ _ h1 h2 h3 h4
  have e1 : oferta_2x2 0 = 10 := by decide
  have e2 : oferta_2x2 1 = 20 := by decide
  have e3 : demanda_2x2 0 = 15 := by decide
  have e4 : demanda_2x2 1 = 15 := by decide
  have c1 : custos_2x2 0 0 = 1 := by decide
  have c2 : custos_2x2 0 1 = 2 := by decide
  have c3 : custos_2x2 1 0 = 3 := by decide
  have c4 : custos_2x2 1 1 = 4 := by decide
  rw [e1] at h1
  rw [e2] at h2
  rw [e3] at h3
  rw [e4] at h4
  rw [c1, c2, c3, c4]
  omega

/-- C20: for every `m ≥ 1`, `n ≥ 1`, every seed and every sequence of values
of `rand()`, the supply vector and the demand vector the generator (of either
file) produces have `m` and `n` entries and both sum to 100000 exactly,
whatever values the rescaling truncates to, because the residual goes onto the
last entry. -/
theorem C20_gerador_balanceado (rand : Int → Nat → Nat) (m n : Nat) (semente : Int)
    (hm : 1 ≤ m) (hn : 1 ≤ n) :
    ((Benchmark.gerar_problema_transporte rand m n semente).1.sum = 100000 ∧
      (Benchmark.gerar_problema_transporte rand m n semente).2.1.sum = 100000 ∧
      (Benchmark.gerar_problema_transporte rand m n semente).1.length = m ∧
      (Benchmark.gerar_problema_transporte rand m n semente).2.1.length = n) ∧
    ((Main.gerar_problema_transporte_grande rand m n).1.sum = 100000 ∧
      (Main.gerar_problema_transporte_grande rand m n).2.1.sum = 100000 ∧
      (Main.gerar_problema_transporte_grande rand m n).1.length = m ∧
      (Main.gerar_problema_transporte_grande rand m n).2.1.length = n) := by
  refine ⟨⟨?_, ?_, ?_, ?_⟩, ⟨?_, ?_, ?_, ?_⟩⟩
  · exact (vetor_gerado (rand semente) _ m hm 0 100000).1
  · exact (vetor_gerado (rand semente) _ n hn _ 100000).1
  · exact (vetor_gerado (rand semente) _ m hm 0 100000).2
  · exact (vetor_gerado (rand semente) _ n hn _ 100000).2
  · exact (vetor_gerado (rand 42) _ m hm 0 100000).1
  · exact (vetor_gerado (rand 42) _ n hn _ 100000).1
  · exact (vetor_gerado (rand 42) _ m hm 0 100000).2
  · exact (vetor_gerado (rand 42) _ n hn _ 100000).2

/-- C20 at `m = 3`, `n = 2`, seed 42 and the sequence of draws
`rand() = 1000 * k + 7` at call number `k`. -/
theorem C20_gerador_balanceado_witness :
    ((Benchmark.gerar_problema_transporte (fun _ k => 1000 * k + 7) 3 2 42).1.sum = 100000 ∧
      (Benchmark.gerar_problema_transporte (fun _ k => 1000 * k + 7) 3 2 42).2.1.sum = 100000 ∧
      (Benchmark.gerar_problema_transporte (fun _ k => 1000 * k + 7) 3 2 42).1.length = 3 ∧
      (Benchmark.gerar_problema_transporte (fun _ k => 1000 * k + 7) 3 2 42).2.1.length = 2) ∧
    ((Main.gerar_problema_transporte_grande (fun _ k => 1000 * k + 7) 3 2).1.sum = 100000 ∧
      (Main.gerar_problema_transporte_grande (fun _ k => 1000 * k + 7) 3 2).2.1.sum = 100000 ∧
      (Main.gerar_problema_transporte_grande (fun _ k => 1000 * k + 7) 3 2).1.length = 3 ∧
      (Main.gerar_problema_transporte_grande (fun _ k => 1000 * k + 7) 3 2).2.1.length = 2) :=
  C20_gerador_balanceado (fun _ k => 1000 * k + 7) 3 2 42 (by decide) (by decide)

/-- C21, refuted as stated: on the 2-by-2 tableau with rows `[1, DBL_MAX]` and
`[-1, 0]` the capped driver with `max_iter = 1` returns -1 and leaves the
tableau as it is, and the only column before the last has a negative entry in
the last row together with a strictly positive coefficient in row 0. The same
happens on the tableau with rows `[1 - 2^-53, DBL_MAX - 2^971]` and `[-1, 0]`,
where the quotient of the two entries of row 0 is below `DBL_MAX` and the
`double` the division delivers is `DBL_MAX`. -/
theorem C21_tabela_final_counterexample :
    ((Binary64.Benchmark.simplex (Binary64.de_racionais [[1, DBL_MAX], [-1, 0]]) 2 2 1).retorno
        = -1 ∧
      (Binary64.Benchmark.simplex (Binary64.de_racionais [[1, DBL_MAX], [-1, 0]]) 2 2 1).tabela
        = Binary64.de_racionais [[1, DBL_MAX], [-1, 0]] ∧
      ¬ ∃ c, c < 2 - 1 ∧
        Double.lt
          (Binary64.ler
            (Binary64.Benchmark.simplex
              (Binary64.de_racionais [[1, DBL_MAX], [-1, 0]]) 2 2 1).tabela (2 - 1) c)
          (Double.finito 0) = true ∧
        ∀ i, i < 2 - 1 →
          ¬ Double.gt
            (Binary64.ler
              (Binary64.Benchmark.simplex
                (Binary64.de_racionais [[1, DBL_MAX], [-1, 0]]) 2 2 1).tabela i c)
            (Double.finito 0) = true) ∧
    ((Binary64.Benchmark.simplex
        (Binary64.de_racionais [[1 - 1 / 2 ^ 53, DBL_MAX - 2 ^ 971], [-1, 0]]) 2 2 1).retorno
        = -1 ∧
      (Binary64.Benchmark.simplex
        (Binary64.de_racionais [[1 - 1 / 2 ^ 53, DBL_MAX - 2 ^ 971], [-1, 0]]) 2 2 1).tabela
        = Binary64.de_racionais [[1 - 1 / 2 ^ 53, DBL_MAX - 2 ^ 971], [-1, 0]] ∧
      Double.gt
        (Binary64.ler
          (Binary64.de_racionais [[1 - 1 / 2 ^ 53, DBL_MAX - 2 ^ 971], [-1, 0]]) 0 0)
        (Double.finito 0) = true ∧
      ler [[1 - 1 / 2 ^ 53, DBL_MAX - 2 ^ 971], [-1, 0]] 0 1
          / ler [[1 - 1 / 2 ^ 53, DBL_MAX - 2 ^ 971], [-1, 0]] 0 0 < DBL_MAX ∧
      Double.div
          (Binary64.ler
            (Binary64.de_racionais [[1 - 1 / 2 ^ 53, DBL_MAX - 2 ^ 971], [-1, 0]]) 0 1)
          (Binary64.ler
            (Binary64.de_racionais [[1 - 1 / 2 ^ 53, DBL_MAX - 2 ^ 971], [-1, 0]]) 0 0)
        = Binary64.DBL_MAX) := by
  have e : (Binary64.Benchmark.simplex
      (Binary64.de_racionais [[1, DBL_MAX], [-1, 0]]) 2 2 1).tabela
      = Binary64.de_racionais [[1, DBL_MAX], [-1, 0]] := by decide!
  refine ⟨⟨by decide!, e, ?_⟩, by decide!, by decide!, by decide!, by decide!, by decide!⟩
  rintro ⟨c, hc, _, h⟩
  have hc0 : c = 0 := by omega
  subst hc0
  rw [e] at h
  exact h 0 (by decide) (by decide!)

/-- C21, amended: when the simplex loop (of either file) stops on "no entering
column", the tableau it leaves has no negative entry in its last row in
columns `0..cols-2`; when it stops on "Problema ilimitado." (the capped driver
returns -1 exactly then), the tableau it leaves has a column `c` in
`0..cols-2` with a negative entry in the last row in which no row of
`0..rows-2` has both a strictly positive coefficient and a ratio strictly
below `DBL_MAX`, the ratio being the `double` quotient
`tabela[i][cols-1] / tabela[i][c]` and the comparisons those of `double`. -/
theorem C21_tabela_final (t : Binary64.Tabela) (linhas colunas max_iter rodadas : Nat)
    (tf : Binary64.Tabela) :
    ((Binary64.Benchmark.simplex t linhas colunas max_iter).estado = Benchmark.Estado.otimo →
      ∀ j, j < colunas - 1 →
        Double.lt
          (Binary64.ler (Binary64.Benchmark.simplex t linhas colunas max_iter).tabela
            (linhas - 1) j)
          (Double.finito 0) = false) ∧
    ((Binary64.Benchmark.simplex t linhas colunas max_iter).retorno = -1 ↔
      (Binary64.Benchmark.simplex t linhas colunas max_iter).estado
        = Benchmark.Estado.ilimitado) ∧
    ((Binary64.Benchmark.simplex t linhas colunas max_iter).estado
        = Benchmark.Estado.ilimitado →
      ∃ c, c < colunas - 1 ∧
        Double.lt
          (Binary64.ler (Binary64.Benchmark.simplex t linhas colunas max_iter).tabela
            (linhas - 1) c)
          (Double.finito 0) = true ∧
        ∀ i, i < linhas - 1 →
          Double.gt
            (Binary64.ler (Binary64.Benchmark.simplex t linhas colunas max_iter).tabela i c)
            (Double.finito 0) = true →
          Double.lt
            (Double.div
              (Binary64.ler (Binary64.Benchmark.simplex t linhas colunas max_iter).tabela i
                (colunas - 1))
              (Binary64.ler (Binary64.Benchmark.simplex t linhas colunas max_iter).tabela i c))
            Binary64.DBL_MAX = false) ∧
    (Binary64.Main.simplex linhas colunas rodadas t = some (tf, Main.Parada.otima) →
      ∀ j, j < colunas - 1 →
        Double.lt (Binary64.ler tf (linhas - 1) j) (Double.finito 0) = false) ∧
    (Binary64.Main.simplex linhas colunas rodadas t = some (tf, Main.Parada.ilimitado) →
      ∃ c, c < colunas - 1 ∧
        Double.lt (Binary64.ler tf (linhas - 1) c) (Double.finito 0) = true ∧
        ∀ i, i < linhas - 1 →
          Double.gt (Binary64.ler tf i c) (Double.finito 0) = true →
          Double.lt (Double.div (Binary64.ler tf i (colunas - 1)) (Binary64.ler tf i c))
            Binary64.DBL_MAX = false) := by
  obtain ⟨h1, h2, h3⟩ := simplex_laco_double_final linhas colunas max_iter t 0 0
  obtain ⟨h4, h5⟩ := simplex_main_double_final linhas colunas rodadas t tf
  exact ⟨h1, h2, h3, h4, h5⟩

/-- C24, refuted as stated: on the 2-by-2 tableau with rows `[49, 1]` and
`[49, 1]` and the pivot position `(0, 0)`, `pivotear` leaves the rows
`[1, 5882252574524729 / 2^58]` (the `double` nearest to 1/49) and
`[0, 1 / 2^53]`; the vector `(1, -49)` satisfies the equation of every row of
the tableau before and of no row of the tableau after. -/
theorem C24_pivotear_solucoes_counterexample :
    Binary64.Benchmark.pivotear (Binary64.de_racionais [[49, 1], [49, 1]]) 2 2 0 0
      = Binary64.de_racionais
          [[1, 5882252574524729 / 288230376151711744], [0, 1 / 9007199254740992]] ∧
    (∀ i, i < 2 →
      ∑ j ∈ Finset.range 2,
        (Binary64.ler (Binary64.de_racionais [[49, 1], [49, 1]]) i j).racional
          * (fun j => if j = 0 then (1 : ℚ) else -49) j = 0) ∧
    (∀ i, i < 2 →
      ∑ j ∈ Finset.range 2,
        (Binary64.ler
          (Binary64.Benchmark.pivotear (Binary64.de_racionais [[49, 1], [49, 1]]) 2 2 0 0)
          i j).racional
          * (fun j => if j = 0 then (1 : ℚ) else -49) j ≠ 0) := by
  have e : Binary64.Benchmark.pivotear (Binary64.de_racionais [[49, 1], [49, 1]]) 2 2 0 0
      = Binary64.de_racionais
          [[1, 5882252574524729 / 288230376151711744], [0, 1 / 9007199254740992]] := by
    decide!
  refine ⟨e, fun i hi => ?_, fun i hi => ?_⟩
  · simp only [Finset.sum_range_succ, Finset.sum_range_zero]
    interval_cases i <;> decide!
  · rw [e]
    simp only [Finset.sum_range_succ, Finset.sum_range_zero]
    interval_cases i <;> decide!

/-- C24, amended: for a tableau of `linhas` rows and `colunas` columns, a pivot
position `(r, c)` in it with `T[r][c] ≠ 0` and every vector `v` over the
columns, when no value `pivotear` (of either file) writes carries a rounding
error (every quotient `T[r][j] / T[r][c]` and every difference
`T[i][j] - T[i][c] * T'[r][j]` it stores is a finite `double` equal to the
exact result), `v` satisfies `sum_j T[i][j] * v[j] = 0` for every row `i` of
the tableau after `pivotear` if and only if it does for every row of `T`. -/
theorem C24_pivotear_solucoes (t : Binary64.Tabela) (linhas colunas r c : Nat) (v : Nat → ℚ)
    (hd : Binary64.Dim t linhas colunas) (hr : r < linhas) (hc : c < colunas)
    (hp : (Binary64.ler t r c).racional ≠ 0)
    (hex : Binary64.SemArredondamento t linhas colunas r c) :
    ((∀ i, i < linhas →
        ∑ j ∈ Finset.range colunas,
          (Binary64.ler (Binary64.Benchmark.pivotear t linhas colunas r c) i j).racional * v j
            = 0) ↔
      (∀ i, i < linhas →
        ∑ j ∈ Finset.range colunas, (Binary64.ler t i j).racional * v j = 0)) ∧
    Binary64.Main.pivotear t linhas colunas r c
      = Binary64.Benchmark.pivotear t linhas colunas r c := by
  have _ := hc
  obtain ⟨h1, h2⟩ := pivotear_double_exato t linhas colunas r c hd hr hex
  exact ⟨solucoes_passo_exato (fun i j => (Binary64.ler t i j).racional)
    (fun i j => (Binary64.ler (Binary64.Benchmark.pivotear t linhas colunas r c) i j).racional)
    linhas colunas r c v hr hp h1 h2, rfl⟩

/-- C24 at the tableau with rows `[2, 4]` and `[1, 2]`, pivot position
`(0, 0)` and the vector `(2, -1)`, which satisfies both rows before and both
rows `[1, 2]` and `[0, 0]` after. -/
theorem C24_pivotear_solucoes_witness :
    ((∀ i, i < 2 →
        ∑ j ∈ Finset.range 2,
          (Binary64.ler
            (Binary64.Benchmark.pivotear (Binary64.de_racionais [[2, 4], [1, 2]]) 2 2 0 0)
            i j).racional * (fun j => if j = 0 then (2 : ℚ) else -1) j = 0) ↔
      (∀ i, i < 2 →
        ∑ j ∈ Finset.range 2,
          (Binary64.ler (Binary64.de_racionais [[2, 4], [1, 2]]) i j).racional
            * (fun j => if j = 0 then (2 : ℚ) else -1) j = 0)) ∧
    Binary64.Main.pivotear (Binary64.de_racionais [[2, 4], [1, 2]]) 2 2 0 0
      = Binary64.Benchmark.pivotear (Binary64.de_racionais [[2, 4], [1, 2]]) 2 2 0 0 :=
  C24_pivotear_solucoes (Binary64.de_racionais [[2, 4], [1, 2]]) 2 2 0 0
    (fun j => if j = 0 then 2 else -1)
    (by simp [Binary64.Dim, Binary64.de_racionais]) (by decide) (by decide) (by decide!)
    ⟨fun j hj => by
        unfold Double.Exato
        interval_cases j <;> decide!,
      fun i j hi hir hj => by
        unfold Double.Exato
        have _ := hir
        interval_cases i <;> interval_cases j <;> decide!⟩

/-- C25: on a tableau with no negative entry in its last row in columns
`0..cols-2`, the capped driver of `benchmark_simplex.c` applies no pivot and
returns the tableau as it was, for every `max_iter`, and the uncapped driver of
`main.c` stops in its first round on "Solução ótima encontrada." with the
tableau as it was. -/
theorem C25_sem_pivo (t : Tabela) (linhas colunas max_iter rodadas : Nat)
    (h : ∀ j, j < colunas - 1 → ¬ ler t (linhas - 1) j < 0) :
    (Benchmark.simplex t linhas colunas max_iter).pivos = 0 ∧
    (Benchmark.simplex t linhas colunas max_iter).tabela = t ∧
    Main.simplex linhas colunas (rodadas + 1) t = some (t, Main.Parada.otima) := by
  have hcol : Benchmark.encontrar_coluna_pivo t linhas colunas = -1 := by
    rcases encontrar_coluna_pivo_casos t linhas colunas with ⟨h1, _⟩ | ⟨b, hb, _, hneg, _, _⟩
    · exact h1
    · exact absurd hneg (h b hb)
  refine ⟨?_, ?_, ?_⟩
  · cases max_iter with
    | zero => rfl
    | succ k =>
      unfold Benchmark.simplex
      rw [(simplex_laco_otimo linhas colunas k t 0 0 h).1]
  · cases max_iter with
    | zero => rfl
    | succ k =>
      unfold Benchmark.simplex
      rw [(simplex_laco_otimo linhas colunas k t 0 0 h).1]
  · unfold Main.simplex
    simp only []
    rw [encontrar_main_eq.1, if_pos hcol]

/-- C25 at the tableau with rows `[1, 1, 0, 10]`, `[0, -1, 1, 0]`,
`[0, 5, 0, 50]`, with `max_iter = 1000000` and one round of the uncapped
loop. -/
theorem C25_sem_pivo_witness :
    (Benchmark.simplex [[1, 1, 0, 10], [0, -1, 1, 0], [0, 5, 0, 50]] 3 4 1000000).pivos = 0 ∧
    (Benchmark.simplex [[1, 1, 0, 10], [0, -1, 1, 0], [0, 5, 0, 50]] 3 4 1000000).tabela
      = [[1, 1, 0, 10], [0, -1, 1, 0], [0, 5, 0, 50]] ∧
    Main.simplex 3 4 (0 + 1) [[1, 1, 0, 10], [0, -1, 1, 0], [0, 5, 0, 50]]
      = some ([[1, 1, 0, 10], [0, -1, 1, 0], [0, 5, 0, 50]], Main.Parada.otima) :=
  C25_sem_pivo [[1, 1, 0, 10], [0, -1, 1, 0], [0, 5, 0, 50]] 3 4 1000000 0
    (fun j hj => by
      have hj2 : j < 3 := hj
      interval_cases j <;> decide!)

end Simplex
